import Mathlib

/-!
EFM32 clock configuration (`arch/arm/src/efm32/efm32_clockconfig.c`).

A shallow embedding of the boot-time clock-tree configuration of the EFM32
port: the memory-mapped registers are an explicit store, every register
access is logged in program order, and `PANIC()` and the unbounded busy-waits
are explicit outcomes.

The chip headers (`chip/efm32_cmu.h`, `chip/efm32_msc.h`) and the board header
(`arch/board/board.h`) are not part of the translated file.  Their constants
are fields of `Chip` and `Board`; a macro that the source tests with `#ifdef`
is an `Option` (or a `Bool` when only its presence is used).

`efm32_synchronize` is never called in the file and is not embedded; the
functions with an empty body (`efm32_pcntclk_config`, `efm32_wdogclk_config`,
`efm32_auxclk_config`) contribute nothing to `efm32_clockconfig`.
-/

namespace Efm32

/-! ## Registers, accesses, machine state -/

/-- Memory-mapped registers touched by `efm32_clockconfig.c` (the `EFM32_*`
register addresses of the chip headers). -/
inductive Reg where
  | CMU_CTRL
  | CMU_HFCORECLKDIV
  | CMU_OSCENCMD
  | CMU_CMD
  | CMU_LFCLKSEL
  | CMU_STATUS
  | CMU_HFCORECLKEN0
  | CMU_HFPERCLKEN0
  | MSC_READCTRL
  deriving DecidableEq, Repr

/-- One register access: `getreg32` returning `val`, or `putreg32 (val, reg)`. -/
inductive Event where
  | read (reg : Reg) (val : Nat)
  | write (reg : Reg) (val : Nat)
  deriving DecidableEq, Repr

/-- Is the access a write to register `r`? -/
def Event.isWriteTo (r : Reg) : Event → Bool
  | .write r' _ => decide (r' = r)
  | .read _ _ => false

/-- Machine state.  `regs` is the content of the registers; `status` is the
sequence of values that the hardware returns on the successive future reads of
`CMU_STATUS` (position 0 is the next read); `trace` is the log of the accesses
made so far, oldest first. -/
structure Machine where
  regs : Reg → Nat
  status : Nat → Nat
  trace : List Event

/-- Outcome of running a piece of the program. -/
inductive Result (α : Type) where
  /-- Returned normally with a value. -/
  | ok (val : α) (m : Machine)
  /-- Reached `PANIC()`, which does not return. -/
  | panic (m : Machine)
  /-- Still spinning in a busy-wait when the fuel ran out. -/
  | hang (m : Machine)
  /-- Used the value of a local variable that was never assigned. -/
  | undef (m : Machine)

/-- Sequencing: continue only after a normal return. -/
def Result.bind {α β : Type} (r : Result α) (f : α → Machine → Result β) : Result β :=
  match r with
  | .ok a m => f a m
  | .panic m => .panic m
  | .hang m => .hang m
  | .undef m => .undef m

/-- Machine state in which the run ended. -/
def Result.machine {α : Type} : Result α → Machine
  | .ok _ m => m
  | .panic m => m
  | .hang m => m
  | .undef m => m

/-- Did the run end in `PANIC()`? -/
def Result.isPanic {α : Type} : Result α → Bool
  | .panic _ => true
  | _ => false

/-- 32-bit complement, the C operator `~` on `uint32_t`. -/
def not32 (x : Nat) : Nat := (2 ^ 32 - 1) ^^^ (x % 2 ^ 32)

/-- 32-bit left shift, the C operator `<<` on `uint32_t`. -/
def shl32 (x s : Nat) : Nat := (x <<< s) % 2 ^ 32

/-- Model of `getreg32`: `CMU_STATUS` is driven by the hardware, every other
register returns its content.  The access is logged. -/
def getreg32 (r : Reg) (m : Machine) : Nat × Machine :=
  match r with
  | .CMU_STATUS =>
      (m.status 0,
        { regs := m.regs, status := fun k => m.status (k + 1),
          trace := m.trace ++ [Event.read r (m.status 0)] })
  | _ =>
      (m.regs r,
        { regs := m.regs, status := m.status,
          trace := m.trace ++ [Event.read r (m.regs r)] })

/-- Model of `putreg32 (val, reg)`: stores the value and logs the access. -/
def putreg32 (v : Nat) (r : Reg) (m : Machine) : Machine :=
  { regs := fun r' => if r' = r then v else m.regs r',
    status := m.status,
    trace := m.trace ++ [Event.write r v] }

/-! ## Constants of the chip and board headers -/

/-- Constants of `chip/efm32_cmu.h` and `chip/efm32_msc.h` used by the file.
`MSC_READCTRL_MODE_WS2`, `MSC_READCTRL_MODE_WS2SCBTP`, `CMU_CTRL_HFLE`,
`CMU_LFCLKSEL_LFAE_ULFRCO` and `CMU_LFCLKSEL_LFBE_ULFRCO` are tested with
`#ifdef` and exist only on some silicon variants. -/
structure Chip where
  CMU_MAX_FREQ_0WS : Nat
  CMU_MAX_FREQ_1WS : Nat
  CMU_MAX_FREQ_2WS : Nat
  CMU_MAX_FREQ_HFLE : Nat
  _MSC_READCTRL_MODE_MASK : Nat
  MSC_READCTRL_MODE_WS0 : Nat
  MSC_READCTRL_MODE_WS1 : Nat
  MSC_READCTRL_MODE_WS2 : Option Nat
  MSC_READCTRL_MODE_WS0SCBTP : Nat
  MSC_READCTRL_MODE_WS1SCBTP : Nat
  MSC_READCTRL_MODE_WS2SCBTP : Option Nat
  MSC_READCTRL_MODE_WSMAX : Nat
  MSC_READCTRL_MODE_WSMAXSCBTP : Nat
  CMU_OSCENCMD_LFRCOEN : Nat
  CMU_OSCENCMD_LFXOEN : Nat
  CMU_OSCENCMD_HFRCOEN : Nat
  CMU_OSCENCMD_HFXOEN : Nat
  CMU_OSCENCMD_AUXHFRCOEN : Nat
  CMU_STATUS_LFRCORDY : Nat
  CMU_STATUS_LFXORDY : Nat
  CMU_STATUS_HFRCORDY : Nat
  CMU_STATUS_HFXORDY : Nat
  CMU_STATUS_AUXHFRCORDY : Nat
  CMU_HFCORECLKEN0_LE : Nat
  CMU_CTRL_HFLE : Option Nat
  _CMU_CTRL_HFXOBUFCUR_MASK : Nat
  CMU_CTRL_HFXOBUFCUR_BOOSTABOVE32MHZ : Nat
  CMU_CTRL_HFXOBUFCUR_BOOSTUPTO32MHZ : Nat
  CMU_HFCORECLKDIV_HFCORECLKLEDIV_DIV4 : Nat
  _CMU_CMD_HFCLKSEL_SHIFT : Nat
  _CMU_CMD_HFCLKSEL_LFRCO : Nat
  _CMU_CMD_HFCLKSEL_LFXO : Nat
  _CMU_CMD_HFCLKSEL_HFRCO : Nat
  _CMU_CMD_HFCLKSEL_HFXO : Nat
  _CMU_LFCLKSEL_LFA_SHIFT : Nat
  _CMU_LFCLKSEL_LFA_MASK : Nat
  _CMU_LFCLKSEL_LFAE_SHIFT : Nat
  _CMU_LFCLKSEL_LFAE_MASK : Nat
  _CMU_LFCLKSEL_LFA_DISABLED : Nat
  CMU_LFCLKSEL_LFA_LFRCO : Nat
  _CMU_LFCLKSEL_LFA_LFXO : Nat
  _CMU_LFCLKSEL_LFA_HFCORECLKLEDIV2 : Nat
  CMU_LFCLKSEL_LFAE_ULFRCO : Bool
  _CMU_LFCLKSEL_LFB_SHIFT : Nat
  _CMU_LFCLKSEL_LFB_MASK : Nat
  _CMU_LFCLKSEL_LFBE_SHIFT : Nat
  _CMU_LFCLKSEL_LFBE_MASK : Nat
  _CMU_LFCLKSEL_LFB_DISABLED : Nat
  CMU_LFCLKSEL_LFB_LFRCO : Nat
  _CMU_LFCLKSEL_LFB_LFXO : Nat
  _CMU_LFCLKSEL_LFB_HFCORECLKLEDIV2 : Nat
  CMU_LFCLKSEL_LFBE_ULFRCO : Bool
  CMU_HFPERCLKEN0_GPIO : Nat

/-- Constants of the board header `arch/board/board.h` and of the build
configuration.  `BOARD_LFACLK_ULFRCO` and `BOARD_LFBCLK_ULFRCO` say whether the
macro of that name is defined; `CONFIG_DEBUG` likewise. -/
structure Board where
  BOARD_LFRCO_FREQUENCY : Nat
  BOARD_LFXO_FREQUENCY : Nat
  BOARD_HFRCO_FREQUENCY : Nat
  BOARD_HFXO_FREQUENCY : Nat
  BOARD_ULFRCO_FREQUNCY : Nat
  BOARD_HFCLKSEL : Nat
  BOARD_HFCLKDIV : Nat
  BOARD_HFCORECLKDIV : Nat
  BOARD_HFPERCLKDIV : Nat
  BOARD_LFACLKSEL : Nat
  BOARD_LFBCLKSEL : Nat
  BOARD_LFACLK_ULFRCO : Bool
  BOARD_LFBCLK_ULFRCO : Bool
  CONFIG_DEBUG : Bool

/-! ## The program -/

/-- Embeds `efm32_statuswait`: `while ((getreg32(EFM32_CMU_STATUS) & bitset) == 0);`.
Each unit of fuel pays for one read of `CMU_STATUS`. -/
def efm32_statuswait (fuel : Nat) (bitset : Nat) (m : Machine) : Result Unit :=
  match fuel with
  | 0 => .hang m
  | fuel + 1 =>
      let (v, m1) := getreg32 .CMU_STATUS m
      if v &&& bitset = 0 then efm32_statuswait fuel bitset m1 else .ok () m1

/-- Embeds `efm32_enable_lfrco`. -/
def efm32_enable_lfrco (c : Chip) (fuel : Nat) (m : Machine) : Result Unit :=
  efm32_statuswait fuel c.CMU_STATUS_LFRCORDY (putreg32 c.CMU_OSCENCMD_LFRCOEN .CMU_OSCENCMD m)

/-- Embeds `efm32_enable_lfxo`.  The command written is `CMU_OSCENCMD_LFRCOEN`,
as in the source. -/
def efm32_enable_lfxo (c : Chip) (fuel : Nat) (m : Machine) : Result Unit :=
  efm32_statuswait fuel c.CMU_STATUS_LFXORDY (putreg32 c.CMU_OSCENCMD_LFRCOEN .CMU_OSCENCMD m)

/-- Embeds `efm32_enable_hfrco`. -/
def efm32_enable_hfrco (c : Chip) (fuel : Nat) (m : Machine) : Result Unit :=
  efm32_statuswait fuel c.CMU_STATUS_HFRCORDY (putreg32 c.CMU_OSCENCMD_HFRCOEN .CMU_OSCENCMD m)

/-- Embeds `efm32_enable_hfxo`. -/
def efm32_enable_hfxo (c : Chip) (fuel : Nat) (m : Machine) : Result Unit :=
  efm32_statuswait fuel c.CMU_STATUS_HFXORDY (putreg32 c.CMU_OSCENCMD_HFXOEN .CMU_OSCENCMD m)

/-- Embeds `efm32_enable_auxhfrco`. -/
def efm32_enable_auxhfrco (c : Chip) (fuel : Nat) (m : Machine) : Result Unit :=
  efm32_statuswait fuel c.CMU_STATUS_AUXHFRCORDY
    (putreg32 c.CMU_OSCENCMD_AUXHFRCOEN .CMU_OSCENCMD m)

/-- Embeds `efm32_enable_leclocking`. -/
def efm32_enable_leclocking (c : Chip) (m : Machine) : Machine :=
  let (regval, m1) := getreg32 .CMU_HFCORECLKEN0 m
  putreg32 (regval ||| c.CMU_HFCORECLKEN0_LE) .CMU_HFCORECLKEN0 m1

/-- Embeds `efm32_enable_hfle`; without `CMU_CTRL_HFLE` it is the empty macro. -/
def efm32_enable_hfle (c : Chip) (frequency : Nat) (m : Machine) : Machine :=
  match c.CMU_CTRL_HFLE with
  | some hfle =>
      if frequency > c.CMU_MAX_FREQ_HFLE then
        let (regval, m1) := getreg32 .CMU_CTRL m
        let m2 := putreg32 (regval ||| hfle) .CMU_CTRL m1
        let (regval2, m3) := getreg32 .CMU_HFCORECLKDIV m2
        putreg32 (regval2 ||| c.CMU_HFCORECLKDIV_HFCORECLKLEDIV_DIV4) .CMU_HFCORECLKDIV m3
      else m
  | none => m

/-- The test `mode == WS0SCBTP || mode == WS1SCBTP [|| mode == WS2SCBTP]` shared
by `efm32_maxwaitstates` and `efm32_setwaitstates`; the third disjunct is
compiled only when `MSC_READCTRL_MODE_WS2SCBTP` is defined. -/
def isScbtpMode (c : Chip) (mode : Nat) : Bool :=
  decide (mode = c.MSC_READCTRL_MODE_WS0SCBTP)
    || decide (mode = c.MSC_READCTRL_MODE_WS1SCBTP)
    || (match c.MSC_READCTRL_MODE_WS2SCBTP with
        | some ws2s => decide (mode = ws2s)
        | none => false)

/-- Embeds `efm32_maxwaitstates`. -/
def efm32_maxwaitstates (c : Chip) (m : Machine) : Machine :=
  let (regval0, m1) := getreg32 .MSC_READCTRL m
  let mode := regval0 &&& c._MSC_READCTRL_MODE_MASK
  let regval := regval0 &&& not32 c._MSC_READCTRL_MODE_MASK
  if isScbtpMode c mode then
    putreg32 (regval ||| c.MSC_READCTRL_MODE_WSMAXSCBTP) .MSC_READCTRL m1
  else
    putreg32 (regval ||| c.MSC_READCTRL_MODE_WSMAX) .MSC_READCTRL m1

/-- Embeds `efm32_setwaitstates`.  With `MSC_READCTRL_MODE_WS2` defined the
chain starts with the `CMU_MAX_FREQ_2WS` test; without it, the branch for more
than `CMU_MAX_FREQ_1WS` is `PANIC()`.  (A header that defines `WS2` but not
`WS2SCBTP` does not compile; `Chip.WaitStatesWF` excludes it.) -/
def efm32_setwaitstates (c : Chip) (hfcoreclk : Nat) (m : Machine) : Result Unit :=
  let (regval0, m1) := getreg32 .MSC_READCTRL m
  let mode := regval0 &&& c._MSC_READCTRL_MODE_MASK
  let scbtp := isScbtpMode c mode
  let regval := regval0 &&& not32 c._MSC_READCTRL_MODE_MASK
  match c.MSC_READCTRL_MODE_WS2 with
  | some ws2 =>
      if hfcoreclk > c.CMU_MAX_FREQ_2WS then .panic m1
      else if hfcoreclk > c.CMU_MAX_FREQ_1WS then
        .ok () (putreg32
          (regval ||| (if scbtp then c.MSC_READCTRL_MODE_WS2SCBTP.getD 0 else ws2))
          .MSC_READCTRL m1)
      else if hfcoreclk > c.CMU_MAX_FREQ_0WS then
        .ok () (putreg32
          (regval ||| (if scbtp then c.MSC_READCTRL_MODE_WS1SCBTP else c.MSC_READCTRL_MODE_WS1))
          .MSC_READCTRL m1)
      else
        .ok () (putreg32
          (regval ||| (if scbtp then c.MSC_READCTRL_MODE_WS0SCBTP else c.MSC_READCTRL_MODE_WS0))
          .MSC_READCTRL m1)
  | none =>
      if hfcoreclk > c.CMU_MAX_FREQ_1WS then .panic m1
      else if hfcoreclk > c.CMU_MAX_FREQ_0WS then
        .ok () (putreg32
          (regval ||| (if scbtp then c.MSC_READCTRL_MODE_WS1SCBTP else c.MSC_READCTRL_MODE_WS1))
          .MSC_READCTRL m1)
      else
        .ok () (putreg32
          (regval ||| (if scbtp then c.MSC_READCTRL_MODE_WS0SCBTP else c.MSC_READCTRL_MODE_WS0))
          .MSC_READCTRL m1)

/-- The block of `efm32_hfclk_config` under `#ifdef CMU_CTRL_HFLE` in the HFXO
case (HFXO buffer current and HFLE).  Which half is compiled is decided by
`#if BOARD_LFXO_FREQUENCY > CMU_MAX_FREQ_HFLE`, as in the source; without
`CMU_CTRL_HFLE` the block is empty.  The test `CMU->HFCORECLKEN0 & ...` is a
read of `CMU_HFCORECLKEN0`. -/
def efm32_hfclk_config_hfle (c : Chip) (b : Board) (m : Machine) : Machine :=
  match c.CMU_CTRL_HFLE with
  | some hfle =>
      if b.BOARD_LFXO_FREQUENCY > c.CMU_MAX_FREQ_HFLE then
        let (regval, ma) := getreg32 .CMU_CTRL m
        let regval := regval &&& not32 c._CMU_CTRL_HFXOBUFCUR_MASK
        let regval := regval ||| (c.CMU_CTRL_HFXOBUFCUR_BOOSTABOVE32MHZ ||| hfle)
        let mb := putreg32 regval .CMU_CTRL ma
        let (en, mc) := getreg32 .CMU_HFCORECLKEN0 mb
        if en &&& c.CMU_HFCORECLKEN0_LE ≠ 0 then
          let (regval2, md) := getreg32 .CMU_HFCORECLKDIV mc
          putreg32 (regval2 ||| c.CMU_HFCORECLKDIV_HFCORECLKLEDIV_DIV4) .CMU_HFCORECLKDIV md
        else mc
      else
        let (regval, ma) := getreg32 .CMU_CTRL m
        let regval := regval &&& not32 (c._CMU_CTRL_HFXOBUFCUR_MASK ||| hfle)
        let regval := regval ||| c.CMU_CTRL_HFXOBUFCUR_BOOSTUPTO32MHZ
        putreg32 regval .CMU_CTRL ma
  | none => m

/-- The `switch (hfclksel)` statement of `efm32_hfclk_config`; the value is the
local `frequency`, `none` while it is unassigned.  The `switch` is rendered as
a chain of tests in the order of its `case` labels (C requires the labels to
be distinct).  The `default: PANIC();` exists only with `CONFIG_DEBUG`. -/
def efm32_hfclk_config_switch (c : Chip) (b : Board) (fuel : Nat) (hfclksel : Nat)
    (m : Machine) : Result (Option Nat) :=
  if hfclksel = c._CMU_CMD_HFCLKSEL_LFRCO then
    (efm32_enable_lfrco c fuel m).bind fun _ m1 => .ok (some b.BOARD_LFRCO_FREQUENCY) m1
  else if hfclksel = c._CMU_CMD_HFCLKSEL_LFXO then
    (efm32_enable_lfxo c fuel m).bind fun _ m1 => .ok (some b.BOARD_LFXO_FREQUENCY) m1
  else if hfclksel = c._CMU_CMD_HFCLKSEL_HFRCO then
    (efm32_enable_hfrco c fuel m).bind fun _ m1 => .ok (some b.BOARD_HFRCO_FREQUENCY) m1
  else if hfclksel = c._CMU_CMD_HFCLKSEL_HFXO then
    (efm32_enable_hfxo c fuel (efm32_hfclk_config_hfle c b m)).bind fun _ m2 =>
      .ok (some b.BOARD_HFXO_FREQUENCY) m2
  else if b.CONFIG_DEBUG then .panic m
  else .ok none m

/-- Embeds `efm32_hfclk_config`: the `switch`, then `efm32_maxwaitstates`, the
write of the source-switch command and `efm32_setwaitstates (frequency)`.  When
`frequency` was left unassigned (no `default` case compiled) its use by
`efm32_setwaitstates` is `Result.undef`. -/
def efm32_hfclk_config (c : Chip) (b : Board) (fuel : Nat) (hfclksel hfclkdiv : Nat)
    (m : Machine) : Result Nat :=
  (efm32_hfclk_config_switch c b fuel hfclksel m).bind fun frequency m1 =>
    let m2 := efm32_maxwaitstates c m1
    let m3 := putreg32 (shl32 hfclksel c._CMU_CMD_HFCLKSEL_SHIFT) .CMU_CMD m2
    match frequency with
    | some f => (efm32_setwaitstates c f m3).bind fun _ m4 => .ok f m4
    | none => .undef m3

/-- Embeds `efm32_hfcoreclk_config` (the divider is not used). -/
def efm32_hfcoreclk_config (hfcoreclkdiv hfclk : Nat) : Nat := hfclk

/-- Embeds `efm32_hfperclk_config` (the divider is not used). -/
def efm32_hfperclk_config (hfperclkdiv hfclk : Nat) : Nat := hfclk

/-- The `if (ulfrco) ... else switch (lfaclksel)` statement of
`efm32_lfaclk_config`; the value is the pair of the locals `lfaclksel` and
`lfaclk`, the latter `none` while it is unassigned (the LFRCO case).  The
`case` labels are tested in source order (C requires them to be distinct);
`default:` and the DISABLED label share the last block. -/
def efm32_lfaclk_config_switch (c : Chip) (b : Board) (fuel : Nat) (lfaclksel : Nat)
    (ulfrco : Bool) (hfcoreclk : Nat) (m : Machine) : Result (Nat × Option Nat) :=
  if ulfrco then
    .ok (c._CMU_LFCLKSEL_LFA_DISABLED, some b.BOARD_ULFRCO_FREQUNCY) m
  else if lfaclksel = c.CMU_LFCLKSEL_LFA_LFRCO then
    (efm32_enable_lfrco c fuel m).bind fun _ m1 => .ok (lfaclksel, none) m1
  else if lfaclksel = c._CMU_LFCLKSEL_LFA_LFXO then
    (efm32_enable_lfxo c fuel m).bind fun _ m1 =>
      .ok (lfaclksel, some b.BOARD_LFXO_FREQUENCY) m1
  else if lfaclksel = c._CMU_LFCLKSEL_LFA_HFCORECLKLEDIV2 then
    let m1 := efm32_enable_leclocking c m
    let m2 := efm32_enable_hfle c hfcoreclk m1
    (efm32_enable_hfxo c fuel m2).bind fun _ m3 => .ok (lfaclksel, some (hfcoreclk >>> 1)) m3
  else
    .ok (lfaclksel, some 0) m

/-- Embeds `efm32_lfaclk_config`: the source selection, then the update of the
LFA and LFAE fields of `CMU_LFCLKSEL`; the extension bit is ORed in only when
`CMU_LFCLKSEL_LFAE_ULFRCO` is defined.  The returned value is `none` when the
local `lfaclk` is returned without ever having been assigned. -/
def efm32_lfaclk_config (c : Chip) (b : Board) (fuel : Nat) (lfaclksel : Nat) (ulfrco : Bool)
    (hfcoreclk : Nat) (m : Machine) : Result (Option Nat) :=
  (efm32_lfaclk_config_switch c b fuel lfaclksel ulfrco hfcoreclk m).bind fun sl m1 =>
    let (regval, m2) := getreg32 .CMU_LFCLKSEL m1
    let regval := regval &&& not32 (c._CMU_LFCLKSEL_LFA_MASK ||| c._CMU_LFCLKSEL_LFAE_MASK)
    let regval := regval ||| shl32 sl.1 c._CMU_LFCLKSEL_LFA_SHIFT
    let regval :=
      if c.CMU_LFCLKSEL_LFAE_ULFRCO then
        regval ||| shl32 (if ulfrco then 1 else 0) c._CMU_LFCLKSEL_LFAE_SHIFT
      else regval
    .ok sl.2 (putreg32 regval .CMU_LFCLKSEL m2)

/-- The `if (ulfrco) ... else switch (lfbclksel)` statement of
`efm32_lfbclk_config`; the value is the pair of the locals `lfbclksel` and
`lfbclk`, the latter `none` while it is unassigned (the LFRCO case).  The
`case` labels are tested in source order (C requires them to be distinct);
`default:` and the DISABLED label share the last block. -/
def efm32_lfbclk_config_switch (c : Chip) (b : Board) (fuel : Nat) (lfbclksel : Nat)
    (ulfrco : Bool) (hfcoreclk : Nat) (m : Machine) : Result (Nat × Option Nat) :=
  if ulfrco then
    .ok (c._CMU_LFCLKSEL_LFB_DISABLED, some b.BOARD_ULFRCO_FREQUNCY) m
  else if lfbclksel = c.CMU_LFCLKSEL_LFB_LFRCO then
    (efm32_enable_lfrco c fuel m).bind fun _ m1 => .ok (lfbclksel, none) m1
  else if lfbclksel = c._CMU_LFCLKSEL_LFB_LFXO then
    (efm32_enable_lfxo c fuel m).bind fun _ m1 =>
      .ok (lfbclksel, some b.BOARD_LFXO_FREQUENCY) m1
  else if lfbclksel = c._CMU_LFCLKSEL_LFB_HFCORECLKLEDIV2 then
    let m1 := efm32_enable_leclocking c m
    let m2 := efm32_enable_hfle c hfcoreclk m1
    (efm32_enable_hfxo c fuel m2).bind fun _ m3 => .ok (lfbclksel, some (hfcoreclk >>> 1)) m3
  else
    .ok (lfbclksel, some 0) m

/-- Embeds `efm32_lfbclk_config`: the source selection, then the update of the
LFB and LFBE fields of `CMU_LFCLKSEL`; the extension bit is ORed in only when
`CMU_LFCLKSEL_LFBE_ULFRCO` is defined.  The returned value is `none` when the
local `lfbclk` is returned without ever having been assigned. -/
def efm32_lfbclk_config (c : Chip) (b : Board) (fuel : Nat) (lfbclksel : Nat) (ulfrco : Bool)
    (hfcoreclk : Nat) (m : Machine) : Result (Option Nat) :=
  (efm32_lfbclk_config_switch c b fuel lfbclksel ulfrco hfcoreclk m).bind fun sl m1 =>
    let (regval, m2) := getreg32 .CMU_LFCLKSEL m1
    let regval := regval &&& not32 (c._CMU_LFCLKSEL_LFB_MASK ||| c._CMU_LFCLKSEL_LFBE_MASK)
    let regval := regval ||| shl32 sl.1 c._CMU_LFCLKSEL_LFB_SHIFT
    let regval :=
      if c.CMU_LFCLKSEL_LFBE_ULFRCO then
        regval ||| shl32 (if ulfrco then 1 else 0) c._CMU_LFCLKSEL_LFBE_SHIFT
      else regval
    .ok sl.2 (putreg32 regval .CMU_LFCLKSEL m2)

/-- Embeds `efm32_gpioclock`. -/
def efm32_gpioclock (c : Chip) (m : Machine) : Machine :=
  let (regval, m1) := getreg32 .CMU_HFPERCLKEN0 m
  putreg32 (regval ||| ( Chip.CMU_HFPERCLKEN0_GPIO c)) .CMU_HFPERCLKEN0 m1

/-- The macro `BOARD_LFA_ULFCO_ENABLE`: true iff `BOARD_LFACLK_ULFRCO` is defined. -/
def BOARD_LFA_ULFCO_ENABLE (b : Board) : Bool := b.BOARD_LFACLK_ULFRCO

/-- The macro `BOARD_LFB_ULFCO_ENABLE`: true iff `BOARD_LFBCLK_ULFRCO` is defined. -/
def BOARD_LFB_ULFCO_ENABLE (b : Board) : Bool := b.BOARD_LFBCLK_ULFRCO

/-- Embeds `efm32_clockconfig`.  `efm32_pcntclk_config`, `efm32_wdogclk_config`
and `efm32_auxclk_config` have empty bodies. -/
def efm32_clockconfig (c : Chip) (b : Board) (fuel : Nat) (m : Machine) : Result Unit :=
  (efm32_hfclk_config c b fuel b.BOARD_HFCLKSEL b.BOARD_HFCLKDIV m).bind fun hfclk m1 =>
    let hfcoreclk := efm32_hfcoreclk_config b.BOARD_HFCORECLKDIV hfclk
    let _hfperclk := efm32_hfperclk_config b.BOARD_HFPERCLKDIV hfclk
    (efm32_lfaclk_config c b fuel b.BOARD_LFACLKSEL (BOARD_LFA_ULFCO_ENABLE b) hfcoreclk m1).bind
      fun _lfaclk m2 =>
        (efm32_lfbclk_config c b fuel b.BOARD_LFBCLKSEL (BOARD_LFB_ULFCO_ENABLE b)
            hfcoreclk m2).bind
          fun _lfbclk m3 => .ok () (efm32_gpioclock c m3)

/-! ## A concrete chip, board and machine

The values are those of the EFM32 Giant Gecko reference manual and of a board
with a 48 MHz crystal; they serve as sample inputs. -/

/-- EFM32 Giant Gecko register constants. -/
def efm32gg : Chip where
  CMU_MAX_FREQ_0WS := 16000000
  CMU_MAX_FREQ_1WS := 32000000
  CMU_MAX_FREQ_2WS := 48000000
  CMU_MAX_FREQ_HFLE := 32000000
  _MSC_READCTRL_MODE_MASK := 0x7
  MSC_READCTRL_MODE_WS0 := 0
  MSC_READCTRL_MODE_WS1 := 1
  MSC_READCTRL_MODE_WS2 := some 4
  MSC_READCTRL_MODE_WS0SCBTP := 2
  MSC_READCTRL_MODE_WS1SCBTP := 3
  MSC_READCTRL_MODE_WS2SCBTP := some 5
  MSC_READCTRL_MODE_WSMAX := 4
  MSC_READCTRL_MODE_WSMAXSCBTP := 5
  CMU_OSCENCMD_LFRCOEN := 0x40
  CMU_OSCENCMD_LFXOEN := 0x100
  CMU_OSCENCMD_HFRCOEN := 0x1
  CMU_OSCENCMD_HFXOEN := 0x4
  CMU_OSCENCMD_AUXHFRCOEN := 0x10
  CMU_STATUS_LFRCORDY := 0x80
  CMU_STATUS_LFXORDY := 0x200
  CMU_STATUS_HFRCORDY := 0x2
  CMU_STATUS_HFXORDY := 0x8
  CMU_STATUS_AUXHFRCORDY := 0x20
  CMU_HFCORECLKEN0_LE := 0x10
  CMU_CTRL_HFLE := some 0x40000000
  _CMU_CTRL_HFXOBUFCUR_MASK := 0x60
  CMU_CTRL_HFXOBUFCUR_BOOSTABOVE32MHZ := 0x60
  CMU_CTRL_HFXOBUFCUR_BOOSTUPTO32MHZ := 0x20
  CMU_HFCORECLKDIV_HFCORECLKLEDIV_DIV4 := 0x100
  _CMU_CMD_HFCLKSEL_SHIFT := 0
  _CMU_CMD_HFCLKSEL_LFRCO := 3
  _CMU_CMD_HFCLKSEL_LFXO := 4
  _CMU_CMD_HFCLKSEL_HFRCO := 1
  _CMU_CMD_HFCLKSEL_HFXO := 2
  _CMU_LFCLKSEL_LFA_SHIFT := 0
  _CMU_LFCLKSEL_LFA_MASK := 0x3
  _CMU_LFCLKSEL_LFAE_SHIFT := 16
  _CMU_LFCLKSEL_LFAE_MASK := 0x10000
  _CMU_LFCLKSEL_LFA_DISABLED := 0
  CMU_LFCLKSEL_LFA_LFRCO := 1
  _CMU_LFCLKSEL_LFA_LFXO := 2
  _CMU_LFCLKSEL_LFA_HFCORECLKLEDIV2 := 3
  CMU_LFCLKSEL_LFAE_ULFRCO := true
  _CMU_LFCLKSEL_LFB_SHIFT := 2
  _CMU_LFCLKSEL_LFB_MASK := 0xC
  _CMU_LFCLKSEL_LFBE_SHIFT := 20
  _CMU_LFCLKSEL_LFBE_MASK := 0x100000
  _CMU_LFCLKSEL_LFB_DISABLED := 0
  CMU_LFCLKSEL_LFB_LFRCO := 4
  _CMU_LFCLKSEL_LFB_LFXO := 2
  _CMU_LFCLKSEL_LFB_HFCORECLKLEDIV2 := 3
  CMU_LFCLKSEL_LFBE_ULFRCO := true
  CMU_HFPERCLKEN0_GPIO := 0x2000

/-- A Giant Gecko board: HFCLK from the 48 MHz HFXO, LFACLK from the half-rate
core-clock tap, LFBCLK from the LFXO, no ULFRCO. -/
def board48 : Board where
  BOARD_LFRCO_FREQUENCY := 32768
  BOARD_LFXO_FREQUENCY := 32768
  BOARD_HFRCO_FREQUENCY := 14000000
  BOARD_HFXO_FREQUENCY := 48000000
  BOARD_ULFRCO_FREQUNCY := 1000
  BOARD_HFCLKSEL := 2
  BOARD_HFCLKDIV := 0
  BOARD_HFCORECLKDIV := 0
  BOARD_HFPERCLKDIV := 0
  BOARD_LFACLKSEL := 3
  BOARD_LFBCLKSEL := 2
  BOARD_LFACLK_ULFRCO := false
  BOARD_LFBCLK_ULFRCO := false
  CONFIG_DEBUG := false

/-- A machine whose registers hold `v`, whose oscillators report every status
bit set on every read, and whose access log is empty. -/
def machineOf (v : Nat) : Machine where
  regs := fun _ => v
  status := fun _ => 0xFFFFFFFF
  trace := []

/-- A machine at reset values of interest: `MSC_READCTRL` holds `readctrl`,
every other register holds 0; each read of `CMU_STATUS` returns `status k`. -/
def machineWith (readctrl : Nat) (status : Nat → Nat) : Machine where
  regs := fun r => if r = Reg.MSC_READCTRL then readctrl else 0
  status := status
  trace := []

/-! ## Notions used to state the properties -/

/-- The mode encodings that the chip header defines. -/
def Chip.modes (c : Chip) : List Nat :=
  [c.MSC_READCTRL_MODE_WS0, c.MSC_READCTRL_MODE_WS1, c.MSC_READCTRL_MODE_WS0SCBTP,
    c.MSC_READCTRL_MODE_WS1SCBTP] ++ c.MSC_READCTRL_MODE_WS2.toList
    ++ c.MSC_READCTRL_MODE_WS2SCBTP.toList

/-- What the wait-state part of a chip header satisfies: the frequency
thresholds are ordered, `WS2` and `WS2SCBTP` are defined together, every mode
encoding lies inside the mode field, the encodings are pairwise distinct, and
`WSMAX`/`WSMAXSCBTP` are the highest defined modes. -/
def Chip.WaitStatesWF (c : Chip) : Prop :=
  c.CMU_MAX_FREQ_0WS ≤ c.CMU_MAX_FREQ_1WS
  ∧ (c.MSC_READCTRL_MODE_WS2.isSome = true → c.CMU_MAX_FREQ_1WS ≤ c.CMU_MAX_FREQ_2WS)
  ∧ c.MSC_READCTRL_MODE_WS2.isSome = c.MSC_READCTRL_MODE_WS2SCBTP.isSome
  ∧ (∀ v ∈ c.modes, v &&& c._MSC_READCTRL_MODE_MASK = v)
  ∧ c.modes.Nodup
  ∧ c.MSC_READCTRL_MODE_WSMAX = c.MSC_READCTRL_MODE_WS2.getD c.MSC_READCTRL_MODE_WS1
  ∧ c.MSC_READCTRL_MODE_WSMAXSCBTP
      = c.MSC_READCTRL_MODE_WS2SCBTP.getD c.MSC_READCTRL_MODE_WS1SCBTP

instance (c : Chip) : Decidable c.WaitStatesWF := by
  unfold Chip.WaitStatesWF; infer_instance

/-- Highest supported wait-state threshold: `CMU_MAX_FREQ_2WS` on variants with
a 2-wait-state mode, `CMU_MAX_FREQ_1WS` on the others. -/
def Chip.maxFreq (c : Chip) : Nat :=
  match c.MSC_READCTRL_MODE_WS2 with
  | some _ => c.CMU_MAX_FREQ_2WS
  | none => c.CMU_MAX_FREQ_1WS

/-- Threshold of a wait-state count: the highest core frequency at which flash
reads with `n` wait states are valid (`none` when the variant has no such
mode). -/
def Chip.threshold (c : Chip) : Nat → Option Nat
  | 0 => some c.CMU_MAX_FREQ_0WS
  | 1 => some c.CMU_MAX_FREQ_1WS
  | 2 => c.MSC_READCTRL_MODE_WS2.map fun _ => c.CMU_MAX_FREQ_2WS
  | _ => none

/-- Wait-state count that a mode-field value stands for, with or without
SCBTP (`none` for a value that is no defined mode). -/
def Chip.waitStates (c : Chip) (mode : Nat) : Option Nat :=
  if mode = c.MSC_READCTRL_MODE_WS0 ∨ mode = c.MSC_READCTRL_MODE_WS0SCBTP then some 0
  else if mode = c.MSC_READCTRL_MODE_WS1 ∨ mode = c.MSC_READCTRL_MODE_WS1SCBTP then some 1
  else if c.MSC_READCTRL_MODE_WS2 = some mode ∨ c.MSC_READCTRL_MODE_WS2SCBTP = some mode then
    some 2
  else none

/-- The mode that `efm32_setwaitstates` ORs into the register for a supported
frequency: a closed form of its `if` chain, used to state lemmas. -/
def selectedMode (c : Chip) (F : Nat) (scbtp : Bool) : Nat :=
  if F > c.CMU_MAX_FREQ_1WS then
    (if scbtp then c.MSC_READCTRL_MODE_WS2SCBTP.getD 0 else c.MSC_READCTRL_MODE_WS2.getD 0)
  else if F > c.CMU_MAX_FREQ_0WS then
    (if scbtp then c.MSC_READCTRL_MODE_WS1SCBTP else c.MSC_READCTRL_MODE_WS1)
  else
    (if scbtp then c.MSC_READCTRL_MODE_WS0SCBTP else c.MSC_READCTRL_MODE_WS0)

/-- The accesses logged by a busy-wait that ends with its read number `k`
(counted from 0): reads `0 .. k` of `CMU_STATUS`. -/
def pollReads (status : Nat → Nat) (k : Nat) : List Event :=
  (List.range (k + 1)).map fun j => Event.read .CMU_STATUS (status j)

/-- Machine after a busy-wait on `CMU_STATUS` that ended with its read number
`k` (counted from 0): `k + 1` reads were logged and consumed. -/
def afterPoll (m : Machine) (k : Nat) : Machine :=
  { regs := m.regs,
    status := fun i => m.status (i + (k + 1)),
    trace := m.trace ++ pollReads m.status k }

/-- The selector values that `efm32_hfclk_config` has a `case` for. -/
def Chip.hfclkSelectors (c : Chip) : List Nat :=
  [c._CMU_CMD_HFCLKSEL_LFRCO, c._CMU_CMD_HFCLKSEL_LFXO, c._CMU_CMD_HFCLKSEL_HFRCO,
    c._CMU_CMD_HFCLKSEL_HFXO]

/-- Board frequency of the source that a supported selector names. -/
def hfclkFrequency (c : Chip) (b : Board) (sel : Nat) : Nat :=
  if sel = c._CMU_CMD_HFCLKSEL_LFRCO then b.BOARD_LFRCO_FREQUENCY
  else if sel = c._CMU_CMD_HFCLKSEL_LFXO then b.BOARD_LFXO_FREQUENCY
  else if sel = c._CMU_CMD_HFCLKSEL_HFRCO then b.BOARD_HFRCO_FREQUENCY
  else b.BOARD_HFXO_FREQUENCY

/-- Ready bit in `CMU_STATUS` of the oscillator that a supported selector names. -/
def hfclkReadyBit (c : Chip) (sel : Nat) : Nat :=
  if sel = c._CMU_CMD_HFCLKSEL_LFRCO then c.CMU_STATUS_LFRCORDY
  else if sel = c._CMU_CMD_HFCLKSEL_LFXO then c.CMU_STATUS_LFXORDY
  else if sel = c._CMU_CMD_HFCLKSEL_HFRCO then c.CMU_STATUS_HFRCORDY
  else c.CMU_STATUS_HFXORDY

/-- The command that `efm32_hfclk_config` writes to `CMU_OSCENCMD` for a
supported selector: the one written by the `efm32_enable_XXX` that its `case`
calls (for the LFXO selector that is `CMU_OSCENCMD_LFRCOEN`). -/
def hfclkEnableWritten (c : Chip) (sel : Nat) : Nat :=
  if sel = c._CMU_CMD_HFCLKSEL_LFRCO then c.CMU_OSCENCMD_LFRCOEN
  else if sel = c._CMU_CMD_HFCLKSEL_LFXO then c.CMU_OSCENCMD_LFRCOEN
  else if sel = c._CMU_CMD_HFCLKSEL_HFRCO then c.CMU_OSCENCMD_HFRCOEN
  else c.CMU_OSCENCMD_HFXOEN

/-- A count `n` of wait states is minimal for frequency `F`: it has a
threshold, `F` is not above it, and `F` is above the threshold of every
smaller count. -/
def Chip.IsMinimalWaitStates (c : Chip) (F n : Nat) : Prop :=
  (∃ t, c.threshold n = some t ∧ F ≤ t)
    ∧ ∀ k t', k < n → c.threshold k = some t' → t' < F

/-- Layout of the LFA part of `CMU_LFCLKSEL`: the DISABLED selection, shifted
into place, lies inside the LFA field; the ULFRCO extension bit lies inside the
LFAE field; the two fields do not overlap. -/
def Chip.LfaLayoutWF (c : Chip) : Prop :=
  shl32 c._CMU_LFCLKSEL_LFA_DISABLED c._CMU_LFCLKSEL_LFA_SHIFT &&& c._CMU_LFCLKSEL_LFA_MASK
      = shl32 c._CMU_LFCLKSEL_LFA_DISABLED c._CMU_LFCLKSEL_LFA_SHIFT
  ∧ shl32 1 c._CMU_LFCLKSEL_LFAE_SHIFT &&& c._CMU_LFCLKSEL_LFAE_MASK
      = shl32 1 c._CMU_LFCLKSEL_LFAE_SHIFT
  ∧ c._CMU_LFCLKSEL_LFA_MASK &&& c._CMU_LFCLKSEL_LFAE_MASK = 0

instance (c : Chip) : Decidable c.LfaLayoutWF := by
  unfold Chip.LfaLayoutWF; infer_instance

/-- Layout of the LFB part of `CMU_LFCLKSEL`, as `Chip.LfaLayoutWF`. -/
def Chip.LfbLayoutWF (c : Chip) : Prop :=
  shl32 c._CMU_LFCLKSEL_LFB_DISABLED c._CMU_LFCLKSEL_LFB_SHIFT &&& c._CMU_LFCLKSEL_LFB_MASK
      = shl32 c._CMU_LFCLKSEL_LFB_DISABLED c._CMU_LFCLKSEL_LFB_SHIFT
  ∧ shl32 1 c._CMU_LFCLKSEL_LFBE_SHIFT &&& c._CMU_LFCLKSEL_LFBE_MASK
      = shl32 1 c._CMU_LFCLKSEL_LFBE_SHIFT
  ∧ c._CMU_LFCLKSEL_LFB_MASK &&& c._CMU_LFCLKSEL_LFBE_MASK = 0

instance (c : Chip) : Decidable c.LfbLayoutWF := by
  unfold Chip.LfbLayoutWF; infer_instance

/-- The `case` labels of the `switch` in `efm32_lfaclk_config`. -/
def Chip.lfaLabels (c : Chip) : List Nat :=
  [c._CMU_LFCLKSEL_LFA_DISABLED, c.CMU_LFCLKSEL_LFA_LFRCO, c._CMU_LFCLKSEL_LFA_LFXO,
    c._CMU_LFCLKSEL_LFA_HFCORECLKLEDIV2]

/-- The `case` labels of the `switch` in `efm32_lfbclk_config`. -/
def Chip.lfbLabels (c : Chip) : List Nat :=
  [c._CMU_LFCLKSEL_LFB_DISABLED, c.CMU_LFCLKSEL_LFB_LFRCO, c._CMU_LFCLKSEL_LFB_LFXO,
    c._CMU_LFCLKSEL_LFB_HFCORECLKLEDIV2]

/-- Within any `fuel` consecutive reads of `CMU_STATUS`, from any point on, one
shows a bit of `bitset`: the polled ready bit eventually reads set. -/
def EventuallyReady (fuel bitset : Nat) (status : Nat → Nat) : Prop :=
  ∀ n, ∃ k, k < fuel ∧ status (n + k) &&& bitset ≠ 0

/-- Machine `m'` is reached from `m` by accesses that leave `MSC_READCTRL`
alone, write neither `MSC_READCTRL` nor `CMU_CMD`, clear no bit of a register
other than `CMU_LFCLKSEL` and `CMU_OSCENCMD`, and consume a prefix of the
status stream. -/
def Follows (m m' : Machine) : Prop :=
  m'.regs .MSC_READCTRL = m.regs .MSC_READCTRL
  ∧ (∀ r x, r ≠ .CMU_LFCLKSEL → r ≠ .CMU_OSCENCMD → m.regs r &&& x = x → m'.regs r &&& x = x)
  ∧ (∃ n, m'.status = fun i => m.status (i + n))
  ∧ ∃ post, m'.trace = m.trace ++ post
      ∧ ∀ e ∈ post, e.isWriteTo .MSC_READCTRL = false ∧ e.isWriteTo .CMU_CMD = false

/-- The value that `efm32_lfaclk_config` writes to `CMU_LFCLKSEL`, as a
function of the value read, the selection and the ULFRCO flag. -/
def lfaRegval (c : Chip) (regval sel : Nat) (ulfrco : Bool) : Nat :=
  if c.CMU_LFCLKSEL_LFAE_ULFRCO then
    ((regval &&& not32 (c._CMU_LFCLKSEL_LFA_MASK ||| c._CMU_LFCLKSEL_LFAE_MASK))
      ||| shl32 sel c._CMU_LFCLKSEL_LFA_SHIFT)
      ||| shl32 (if ulfrco then 1 else 0) c._CMU_LFCLKSEL_LFAE_SHIFT
  else
    (regval &&& not32 (c._CMU_LFCLKSEL_LFA_MASK ||| c._CMU_LFCLKSEL_LFAE_MASK))
      ||| shl32 sel c._CMU_LFCLKSEL_LFA_SHIFT

/-- The value that `efm32_lfbclk_config` writes to `CMU_LFCLKSEL`. -/
def lfbRegval (c : Chip) (regval sel : Nat) (ulfrco : Bool) : Nat :=
  if c.CMU_LFCLKSEL_LFBE_ULFRCO then
    ((regval &&& not32 (c._CMU_LFCLKSEL_LFB_MASK ||| c._CMU_LFCLKSEL_LFBE_MASK))
      ||| shl32 sel c._CMU_LFCLKSEL_LFB_SHIFT)
      ||| shl32 (if ulfrco then 1 else 0) c._CMU_LFCLKSEL_LFBE_SHIFT
  else
    (regval &&& not32 (c._CMU_LFCLKSEL_LFB_MASK ||| c._CMU_LFCLKSEL_LFBE_MASK))
      ||| shl32 sel c._CMU_LFCLKSEL_LFB_SHIFT

/-- Did the run return normally? -/
def Result.isOk {α : Type} : Result α → Bool
  | .ok _ _ => true
  | _ => false

/-- What the LFAE field of `CMU_LFCLKSEL` holds after `efm32_lfaclk_config`: the
ULFRCO extension bit when the variant defines it and the flag is set, nothing
otherwise. -/
def lfaExtension (c : Chip) (ulfrco : Bool) : Nat :=
  if c.CMU_LFCLKSEL_LFAE_ULFRCO && ulfrco then shl32 1 c._CMU_LFCLKSEL_LFAE_SHIFT else 0

/-- What the LFBE field of `CMU_LFCLKSEL` holds after `efm32_lfbclk_config`. -/
def lfbExtension (c : Chip) (ulfrco : Bool) : Nat :=
  if c.CMU_LFCLKSEL_LFBE_ULFRCO && ulfrco then shl32 1 c._CMU_LFCLKSEL_LFBE_SHIFT else 0

/-- The fields of the two low-frequency domains in `CMU_LFCLKSEL` do not
overlap. -/
def Chip.LfDomainsDisjoint (c : Chip) : Prop :=
  (c._CMU_LFCLKSEL_LFA_MASK ||| c._CMU_LFCLKSEL_LFAE_MASK)
    &&& (c._CMU_LFCLKSEL_LFB_MASK ||| c._CMU_LFCLKSEL_LFBE_MASK) = 0

instance (c : Chip) : Decidable c.LfDomainsDisjoint := by
  unfold Chip.LfDomainsDisjoint; infer_instance

/-! ## Lemmas and theorems -/

theorem and_not32_or_and (x v M : Nat) (hv : v &&& M = v) :
    ((x &&& not32 M) ||| v) &&& M = v := by
  apply Nat.eq_of_testBit_eq
  intro i
  have h := congrArg (fun n => n.testBit i) hv
  simp only [Nat.testBit_and] at h
  simp only [not32, Nat.testBit_and, Nat.testBit_or, Nat.testBit_xor, Nat.testBit_mod_two_pow,
    Nat.testBit_two_pow_sub_one]
  cases hx : x.testBit i <;> cases hm : M.testBit i <;> cases hvv : v.testBit i <;>
    simp_all

theorem and_not32_or_frame (x v M : Nat) (hx : x < 2 ^ 32) (hv : v &&& M = v) (i : Nat)
    (hi : M.testBit i = false) :
    (((x &&& not32 M) ||| v)).testBit i = x.testBit i := by
  have h := congrArg (fun n => n.testBit i) hv
  simp only [Nat.testBit_and] at h
  simp only [not32, Nat.testBit_and, Nat.testBit_or, Nat.testBit_xor, Nat.testBit_mod_two_pow,
    Nat.testBit_two_pow_sub_one]
  by_cases h32 : i < 32
  · cases hxx : x.testBit i <;> cases hvv : v.testBit i <;> simp_all
  · have : x.testBit i = false := by
      apply Nat.testBit_lt_two_pow
      exact lt_of_lt_of_le hx (Nat.pow_le_pow_right (by norm_num) (by omega))
    cases hvv : v.testBit i <;> simp_all

theorem getreg32_READCTRL (m : Machine) :
    getreg32 .MSC_READCTRL m
      = (m.regs .MSC_READCTRL,
          { regs := m.regs, status := m.status,
            trace := m.trace ++ [Event.read .MSC_READCTRL (m.regs .MSC_READCTRL)] }) := rfl

/-- For a supported frequency `efm32_setwaitstates` returns, having read the
register once and written it once. -/
theorem setwaitstates_eq (c : Chip) (F : Nat) (m : Machine) (hF : F ≤ c.maxFreq) :
    efm32_setwaitstates c F m
      = .ok () (putreg32
          ((m.regs .MSC_READCTRL &&& not32 c._MSC_READCTRL_MODE_MASK)
            ||| selectedMode c F (isScbtpMode c (m.regs .MSC_READCTRL &&& c._MSC_READCTRL_MODE_MASK)))
          .MSC_READCTRL (getreg32 .MSC_READCTRL m).2) := by
  unfold Chip.maxFreq at hF
  unfold efm32_setwaitstates selectedMode
  rw [getreg32_READCTRL]
  cases hws2 : c.MSC_READCTRL_MODE_WS2 with
  | none =>
    rw [hws2] at hF
    have h1 : ¬ F > c.CMU_MAX_FREQ_1WS := by simpa using hF
    simp only [h1, if_false]
    by_cases h0 : F > c.CMU_MAX_FREQ_0WS <;> simp only [h0, if_true, if_false]
  | some ws2 =>
    rw [hws2] at hF
    have h2 : ¬ F > c.CMU_MAX_FREQ_2WS := by simpa using hF
    simp only [h2, if_false, Option.getD_some]
    by_cases h1 : F > c.CMU_MAX_FREQ_1WS <;> simp only [h1, if_true, if_false]
    by_cases h0 : F > c.CMU_MAX_FREQ_0WS <;> simp only [h0, if_true, if_false]

/-- The selected mode is one of the header's encodings and decodes to the
minimal wait-state count. -/
theorem selectedMode_spec (c : Chip) (hc : c.WaitStatesWF) (F : Nat) (scbtp : Bool)
    (hF : F ≤ c.maxFreq) :
    selectedMode c F scbtp &&& c._MSC_READCTRL_MODE_MASK = selectedMode c F scbtp
      ∧ isScbtpMode c (selectedMode c F scbtp) = scbtp
      ∧ c.waitStates (selectedMode c F scbtp)
          = some (if F > c.CMU_MAX_FREQ_1WS then 2 else if F > c.CMU_MAX_FREQ_0WS then 1 else 0) := by
  obtain ⟨h01, h12, hdef, hfit, hnd, -, -⟩ := hc
  unfold Chip.maxFreq at hF
  unfold selectedMode Chip.waitStates isScbtpMode
  cases hws2 : c.MSC_READCTRL_MODE_WS2 with
  | none =>
    rw [hws2] at hF hdef h12
    cases hws2s : c.MSC_READCTRL_MODE_WS2SCBTP with
    | some x => simp [hws2s] at hdef
    | none =>
      simp only [Chip.modes, hws2, hws2s] at hfit hnd
      simp at hfit hnd hF
      obtain ⟨f0, f1, f2, f3⟩ := hfit
      have h1 : ¬ F > c.CMU_MAX_FREQ_1WS := by omega
      by_cases h0 : F > c.CMU_MAX_FREQ_0WS <;> cases scbtp <;> simp [h1, h0, *] <;> omega
  | some ws2 =>
    rw [hws2] at hF hdef h12
    cases hws2s : c.MSC_READCTRL_MODE_WS2SCBTP with
    | none => simp [hws2s] at hdef
    | some ws2s =>
      simp only [Chip.modes, hws2, hws2s] at hfit hnd
      simp at hfit hnd hF
      obtain ⟨f0, f1, f2, f3, f4, f5⟩ := hfit
      by_cases h1 : F > c.CMU_MAX_FREQ_1WS <;> by_cases h0 : F > c.CMU_MAX_FREQ_0WS <;>
        cases scbtp <;> simp [h1, h0, *]
      all_goals (try constructor)
      all_goals (try split_ifs)
      all_goals first | rfl | omega

/-- C1: for every core frequency not above the highest supported threshold,
`efm32_setwaitstates` returns after writing to `MSC_READCTRL` a mode whose
wait-state count `n` is the smallest one with `F ≤ threshold n`: 0 up to
`CMU_MAX_FREQ_0WS`, 1 up to `CMU_MAX_FREQ_1WS`, and 2 up to `CMU_MAX_FREQ_2WS`
where the 2-wait-state mode is defined. -/
theorem setwaitstates_minimal (c : Chip) (hc : c.WaitStatesWF) (F : Nat) (m : Machine)
    (hF : F ≤ c.maxFreq) :
    ∃ v n t m', efm32_setwaitstates c F m = .ok () m'
      ∧ m'.trace
          = m.trace ++ [.read .MSC_READCTRL (m.regs .MSC_READCTRL), .write .MSC_READCTRL v]
      ∧ m'.regs .MSC_READCTRL = v
      ∧ c.waitStates (v &&& c._MSC_READCTRL_MODE_MASK) = some n
      ∧ c.threshold n = some t ∧ F ≤ t
      ∧ (∀ k t', k < n → c.threshold k = some t' → t' < F)
      ∧ (F ≤ c.CMU_MAX_FREQ_0WS → n = 0)
      ∧ (c.CMU_MAX_FREQ_0WS < F → F ≤ c.CMU_MAX_FREQ_1WS → n = 1)
      ∧ (c.MSC_READCTRL_MODE_WS2.isSome = true → c.CMU_MAX_FREQ_1WS < F →
          F ≤ c.CMU_MAX_FREQ_2WS → n = 2) := by
  obtain ⟨hfit, -, hws⟩ :=
    selectedMode_spec c hc F (isScbtpMode c (m.regs .MSC_READCTRL &&& c._MSC_READCTRL_MODE_MASK)) hF
  have h01 : c.CMU_MAX_FREQ_0WS ≤ c.CMU_MAX_FREQ_1WS := hc.1
  refine ⟨(m.regs .MSC_READCTRL &&& not32 c._MSC_READCTRL_MODE_MASK)
      ||| selectedMode c F
        (isScbtpMode c (m.regs .MSC_READCTRL &&& c._MSC_READCTRL_MODE_MASK)),
    (if F > c.CMU_MAX_FREQ_1WS then 2 else if F > c.CMU_MAX_FREQ_0WS then 1 else 0),
    (if F > c.CMU_MAX_FREQ_1WS then c.CMU_MAX_FREQ_2WS
      else if F > c.CMU_MAX_FREQ_0WS then c.CMU_MAX_FREQ_1WS else c.CMU_MAX_FREQ_0WS),
    _, setwaitstates_eq c F m hF, ?_, ?_, ?_, ?_, ?_, ?_, ?_, ?_, ?_⟩
  · simp [putreg32, getreg32]
  · simp [putreg32]
  · rw [and_not32_or_and _ _ _ hfit]; exact hws
  · unfold Chip.maxFreq at hF
    by_cases h1 : F > c.CMU_MAX_FREQ_1WS
    · cases hws2 : c.MSC_READCTRL_MODE_WS2 with
      | none => rw [hws2] at hF; simp at hF; omega
      | some w => simp [h1, Chip.threshold, hws2]
    · by_cases h0 : F > c.CMU_MAX_FREQ_0WS <;> simp [h1, h0, Chip.threshold]
  · unfold Chip.maxFreq at hF
    by_cases h1 : F > c.CMU_MAX_FREQ_1WS
    · cases hws2 : c.MSC_READCTRL_MODE_WS2 with
      | none => rw [hws2] at hF; simp at hF; omega
      | some w => rw [hws2] at hF; simp at hF; simp [h1, hF]
    · by_cases h0 : F > c.CMU_MAX_FREQ_0WS <;> simp [h1, h0] <;> omega
  · intro k t' hk ht'
    by_cases h1 : F > c.CMU_MAX_FREQ_1WS
    · simp only [h1, if_true] at hk
      have hk' : k = 0 ∨ k = 1 := by omega
      rcases hk' with rfl | rfl <;> simp [Chip.threshold] at ht' <;> omega
    · by_cases h0 : F > c.CMU_MAX_FREQ_0WS
      · simp only [h1, h0, if_true, if_false] at hk
        have hk' : k = 0 := by omega
        subst hk'
        simp [Chip.threshold] at ht'
        omega
      · simp [h1, h0] at hk
  · intro h
    have h0 : ¬ F > c.CMU_MAX_FREQ_0WS := by omega
    have h1 : ¬ F > c.CMU_MAX_FREQ_1WS := by omega
    simp [h0, h1]
  · intro h0 h1
    have h1' : ¬ F > c.CMU_MAX_FREQ_1WS := by omega
    simp [h0, h1']
  · intro _ h1 _
    simp [h1]

/-- Witness for `setwaitstates_minimal`: Giant Gecko at 48 MHz. -/
theorem setwaitstates_minimal_witness :
    efm32gg.WaitStatesWF ∧ 48000000 ≤ efm32gg.maxFreq ∧
    ∃ v n t m', efm32_setwaitstates efm32gg 48000000 (machineOf 3) = .ok () m'
      ∧ m'.trace
          = (machineOf 3).trace
            ++ [.read .MSC_READCTRL ((machineOf 3).regs .MSC_READCTRL), .write .MSC_READCTRL v]
      ∧ m'.regs .MSC_READCTRL = v
      ∧ efm32gg.waitStates (v &&& efm32gg._MSC_READCTRL_MODE_MASK) = some n
      ∧ efm32gg.threshold n = some t ∧ 48000000 ≤ t
      ∧ (∀ k t', k < n → efm32gg.threshold k = some t' → t' < 48000000)
      ∧ (48000000 ≤ efm32gg.CMU_MAX_FREQ_0WS → n = 0)
      ∧ (efm32gg.CMU_MAX_FREQ_0WS < 48000000 → 48000000 ≤ efm32gg.CMU_MAX_FREQ_1WS → n = 1)
      ∧ (efm32gg.MSC_READCTRL_MODE_WS2.isSome = true → efm32gg.CMU_MAX_FREQ_1WS < 48000000 →
          48000000 ≤ efm32gg.CMU_MAX_FREQ_2WS → n = 2) :=
  ⟨by decide, by decide,
    setwaitstates_minimal efm32gg (by decide) 48000000 (machineOf 3) (by decide)⟩

/-- C2: `efm32_setwaitstates` ends in `PANIC()` exactly for the frequencies
above the highest supported threshold, and then it has only read
`MSC_READCTRL`: the registers are as before and the single new access is the
read. -/
theorem setwaitstates_panic_iff (c : Chip) (F : Nat) (m : Machine) :
    ((efm32_setwaitstates c F m).isPanic = true ↔ c.maxFreq < F)
    ∧ (c.maxFreq < F →
        ∃ m', efm32_setwaitstates c F m = .panic m'
          ∧ m'.regs = m.regs
          ∧ m'.trace = m.trace ++ [.read .MSC_READCTRL (m.regs .MSC_READCTRL)]) := by
  have hp : c.maxFreq < F →
      efm32_setwaitstates c F m = .panic (getreg32 .MSC_READCTRL m).2 := by
    intro h
    unfold Chip.maxFreq at h
    unfold efm32_setwaitstates
    rw [getreg32_READCTRL]
    cases hws2 : c.MSC_READCTRL_MODE_WS2 with
    | none => rw [hws2] at h; simp at h; simp [h]
    | some w => rw [hws2] at h; simp at h; simp [h]
  refine ⟨⟨fun h => ?_, fun h => ?_⟩, fun h => ⟨_, hp h, rfl, rfl⟩⟩
  · by_contra hn
    rw [setwaitstates_eq c F m (by omega)] at h
    simp [Result.isPanic] at h
  · rw [hp h]; rfl

/-- Witness for `setwaitstates_panic_iff`: Giant Gecko just above 48 MHz. -/
theorem setwaitstates_panic_iff_witness :
    efm32gg.maxFreq < 48000001
    ∧ (efm32_setwaitstates efm32gg 48000001 (machineOf 3)).isPanic = true
    ∧ ∃ m', efm32_setwaitstates efm32gg 48000001 (machineOf 3) = .panic m'
          ∧ m'.regs = (machineOf 3).regs
          ∧ m'.trace
              = (machineOf 3).trace ++ [.read .MSC_READCTRL ((machineOf 3).regs .MSC_READCTRL)] :=
  ⟨by decide, (setwaitstates_panic_iff efm32gg 48000001 (machineOf 3)).1.2 (by decide),
    (setwaitstates_panic_iff efm32gg 48000001 (machineOf 3)).2 (by decide)⟩

/-- C3: for a supported frequency and any 32-bit initial `MSC_READCTRL`,
`efm32_setwaitstates` writes an SCBTP mode iff the mode read at entry was an
SCBTP mode, leaves every bit of `MSC_READCTRL` outside the mode field as it
was, and changes no other register. -/
theorem setwaitstates_preserves_scbtp (c : Chip) (hc : c.WaitStatesWF) (F : Nat) (m : Machine)
    (hm : m.regs .MSC_READCTRL < 2 ^ 32) (hF : F ≤ c.maxFreq) :
    ∃ v m', efm32_setwaitstates c F m = .ok () m'
      ∧ m'.trace
          = m.trace ++ [.read .MSC_READCTRL (m.regs .MSC_READCTRL), .write .MSC_READCTRL v]
      ∧ m'.regs .MSC_READCTRL = v
      ∧ (isScbtpMode c (v &&& c._MSC_READCTRL_MODE_MASK) = true
          ↔ isScbtpMode c (m.regs .MSC_READCTRL &&& c._MSC_READCTRL_MODE_MASK) = true)
      ∧ (∀ i, c._MSC_READCTRL_MODE_MASK.testBit i = false →
          v.testBit i = (m.regs .MSC_READCTRL).testBit i)
      ∧ (∀ r, r ≠ .MSC_READCTRL → m'.regs r = m.regs r) := by
  obtain ⟨hfit, hs, -⟩ :=
    selectedMode_spec c hc F (isScbtpMode c (m.regs .MSC_READCTRL &&& c._MSC_READCTRL_MODE_MASK)) hF
  refine ⟨(m.regs .MSC_READCTRL &&& not32 c._MSC_READCTRL_MODE_MASK)
      ||| selectedMode c F
        (isScbtpMode c (m.regs .MSC_READCTRL &&& c._MSC_READCTRL_MODE_MASK)),
    _, setwaitstates_eq c F m hF, ?_, ?_, ?_, ?_, ?_⟩
  · simp [putreg32, getreg32]
  · simp [putreg32]
  · rw [and_not32_or_and _ _ _ hfit, hs]
  · intro i hi
    exact and_not32_or_frame _ _ _ hm hfit i hi
  · intro r hr
    simp [putreg32, getreg32, hr]

/-- Witness for `setwaitstates_preserves_scbtp`: Giant Gecko at 20 MHz from an
SCBTP mode with other bits set. -/
theorem setwaitstates_preserves_scbtp_witness :
    efm32gg.WaitStatesWF ∧ (machineOf 0x1B).regs .MSC_READCTRL < 2 ^ 32
    ∧ 20000000 ≤ efm32gg.maxFreq
    ∧ ∃ v m', efm32_setwaitstates efm32gg 20000000 (machineOf 0x1B) = .ok () m'
      ∧ m'.trace
          = (machineOf 0x1B).trace
            ++ [.read .MSC_READCTRL ((machineOf 0x1B).regs .MSC_READCTRL), .write .MSC_READCTRL v]
      ∧ m'.regs .MSC_READCTRL = v
      ∧ (isScbtpMode efm32gg (v &&& efm32gg._MSC_READCTRL_MODE_MASK) = true
          ↔ isScbtpMode efm32gg
              ((machineOf 0x1B).regs .MSC_READCTRL &&& efm32gg._MSC_READCTRL_MODE_MASK) = true)
      ∧ (∀ i, efm32gg._MSC_READCTRL_MODE_MASK.testBit i = false →
          v.testBit i = ((machineOf 0x1B).regs .MSC_READCTRL).testBit i)
      ∧ (∀ r, r ≠ .MSC_READCTRL → m'.regs r = (machineOf 0x1B).regs r) :=
  ⟨by decide, by decide, by decide,
    setwaitstates_preserves_scbtp efm32gg (by decide) 20000000 (machineOf 0x1B) (by decide)
      (by decide)⟩

theorem getreg32_STATUS (m : Machine) :
    getreg32 .CMU_STATUS m
      = (m.status 0,
          { regs := m.regs, status := fun k => m.status (k + 1),
            trace := m.trace ++ [Event.read .CMU_STATUS (m.status 0)] }) := rfl

/-- If one of the next `fuel` reads of `CMU_STATUS` shows a bit of `bitset`,
`efm32_statuswait` returns at the first such read. -/
theorem statuswait_ok (fuel bitset : Nat) (m : Machine)
    (h : ∃ k, k < fuel ∧ m.status k &&& bitset ≠ 0) :
    ∃ k, k < fuel ∧ (∀ j, j < k → m.status j &&& bitset = 0) ∧ m.status k &&& bitset ≠ 0
      ∧ efm32_statuswait fuel bitset m = .ok () (afterPoll m k) := by
  induction fuel generalizing m with
  | zero => obtain ⟨k, hk, _⟩ := h; omega
  | succ n ih =>
    obtain ⟨k, hk, hb⟩ := h
    unfold efm32_statuswait
    rw [getreg32_STATUS]
    by_cases h0 : m.status 0 &&& bitset = 0
    · have hk0 : k ≠ 0 := by rintro rfl; exact hb h0
      obtain ⟨k', hk', hlt, hset, heq⟩ :=
        ih { regs := m.regs, status := fun i => m.status (i + 1),
             trace := m.trace ++ [Event.read .CMU_STATUS (m.status 0)] }
          ⟨k - 1, by omega, by
            show m.status (k - 1 + 1) &&& bitset ≠ 0
            rwa [Nat.sub_add_cancel (by omega)]⟩
      refine ⟨k' + 1, by omega, ?_, hset, ?_⟩
      · intro j hj
        cases j with
        | zero => exact h0
        | succ j => exact hlt j (by omega)
      · simp only [h0, if_true]
        rw [heq]
        simp only [afterPoll, pollReads, List.append_assoc, List.singleton_append]
        congr 2
        rw [List.range_succ_eq_map (k' + 1)]
        simp [List.map_map, Function.comp_def]
    · refine ⟨0, by omega, by intro j hj; omega, h0, ?_⟩
      simp [h0, afterPoll, pollReads, List.range_succ]

/-- Every access logged by a busy-wait is a read of `CMU_STATUS`. -/
theorem pollReads_not_write (status : Nat → Nat) (k : Nat) (r : Reg) :
    ∀ e ∈ pollReads status k, e.isWriteTo r = false := by
  intro e he
  simp only [pollReads, List.mem_map] at he
  obtain ⟨j, -, rfl⟩ := he
  rfl

/-- Enable command followed by the busy-wait: returns at the first read that
shows the awaited bit, having logged the command and the reads. -/
theorem enable_ok (en rdy fuel : Nat) (m : Machine)
    (h : ∃ k, k < fuel ∧ m.status k &&& rdy ≠ 0) :
    ∃ k m1, efm32_statuswait fuel rdy (putreg32 en .CMU_OSCENCMD m) = .ok () m1
      ∧ k < fuel ∧ (∀ j, j < k → m.status j &&& rdy = 0) ∧ m.status k &&& rdy ≠ 0
      ∧ m1.trace = m.trace ++ Event.write .CMU_OSCENCMD en :: pollReads m.status k
      ∧ m1.status = (fun i => m.status (i + (k + 1)))
      ∧ m1.regs = (putreg32 en .CMU_OSCENCMD m).regs := by
  obtain ⟨k, hk, hlt, hset, heq⟩ := statuswait_ok fuel rdy (putreg32 en .CMU_OSCENCMD m) h
  refine ⟨k, _, heq, hk, hlt, hset, ?_, rfl, rfl⟩
  simp [afterPoll, putreg32]

/-- An enable command and its busy-wait write neither `MSC_READCTRL` nor
`CMU_CMD`. -/
theorem enable_events_quiet (en : Nat) (status : Nat → Nat) (k : Nat) :
    ∀ e ∈ Event.write .CMU_OSCENCMD en :: pollReads status k,
      e.isWriteTo .MSC_READCTRL = false ∧ e.isWriteTo .CMU_CMD = false := by
  intro e he
  rcases List.mem_cons.1 he with rfl | he
  · exact ⟨rfl, rfl⟩
  · exact ⟨pollReads_not_write _ k _ e he, pollReads_not_write _ k _ e he⟩

/-- The HFLE block of the HFXO case touches neither `CMU_STATUS`,
`MSC_READCTRL`, `CMU_CMD` nor `CMU_OSCENCMD`. -/
theorem hfclk_config_hfle_frame (c : Chip) (b : Board) (m : Machine) :
    ∃ pre, (efm32_hfclk_config_hfle c b m).trace = m.trace ++ pre
      ∧ (efm32_hfclk_config_hfle c b m).status = m.status
      ∧ (efm32_hfclk_config_hfle c b m).regs .MSC_READCTRL = m.regs .MSC_READCTRL
      ∧ ∀ e ∈ pre, e.isWriteTo .MSC_READCTRL = false ∧ e.isWriteTo .CMU_CMD = false
          ∧ e.isWriteTo .CMU_OSCENCMD = false := by
  unfold efm32_hfclk_config_hfle
  cases c.CMU_CTRL_HFLE with
  | none => exact ⟨[], by simp⟩
  | some hfle =>
    simp only [getreg32, putreg32]
    split_ifs <;>
      simp only [List.append_assoc, List.singleton_append, List.cons_append, List.nil_append] <;>
      (refine ⟨_, rfl, ?_⟩; simp [Event.isWriteTo])

/-- With distinct `case` labels and a ready bit that shows within the fuel,
the `switch` of `efm32_hfclk_config` returns the board frequency of the
selected source; its accesses are a prefix that writes none of `MSC_READCTRL`,
`CMU_CMD`, `CMU_OSCENCMD`, then one enable command, then the status reads up
to the first that shows the selected oscillator's ready bit. -/
theorem hfclk_config_switch_spec (c : Chip) (b : Board) (fuel sel : Nat) (m : Machine)
    (hl : c.hfclkSelectors.Nodup) (hsel : sel ∈ c.hfclkSelectors)
    (hr : ∃ k, k < fuel ∧ m.status k &&& hfclkReadyBit c sel ≠ 0) :
    ∃ pre0 k m1, efm32_hfclk_config_switch c b fuel sel m
        = .ok (some (hfclkFrequency c b sel)) m1
      ∧ m1.trace = m.trace ++ pre0
          ++ Event.write .CMU_OSCENCMD (hfclkEnableWritten c sel) :: pollReads m.status k
      ∧ m.status k &&& hfclkReadyBit c sel ≠ 0
      ∧ m1.status = (fun i => m.status (i + (k + 1)))
      ∧ m1.regs .MSC_READCTRL = m.regs .MSC_READCTRL
      ∧ ∀ e ∈ pre0, e.isWriteTo .MSC_READCTRL = false ∧ e.isWriteTo .CMU_CMD = false
          ∧ e.isWriteTo .CMU_OSCENCMD = false := by
  simp only [Chip.hfclkSelectors, List.nodup_cons, List.mem_cons, List.mem_singleton,
    List.not_mem_nil, not_or, List.nodup_nil, or_false, not_false_eq_true, and_true] at hl hsel
  obtain ⟨⟨h12, h13, h14⟩, ⟨h23, h24⟩, h34⟩ := hl
  unfold efm32_hfclk_config_switch hfclkFrequency hfclkEnableWritten
  unfold hfclkReadyBit at hr ⊢
  rcases hsel with rfl | rfl | rfl | rfl
  · simp only [if_true] at hr ⊢
    obtain ⟨k, m1, heq, -, -, hset, ht, hs, hg⟩ := enable_ok c.CMU_OSCENCMD_LFRCOEN _ fuel m hr
    unfold efm32_enable_lfrco
    rw [heq]
    exact ⟨[], k, m1, rfl, by simpa using ht, hset, hs, by simp [hg, putreg32], by simp⟩
  · simp only [if_neg (Ne.symm h12), if_true] at hr ⊢
    obtain ⟨k, m1, heq, -, -, hset, ht, hs, hg⟩ := enable_ok c.CMU_OSCENCMD_LFRCOEN _ fuel m hr
    unfold efm32_enable_lfxo
    rw [heq]
    exact ⟨[], k, m1, rfl, by simpa using ht, hset, hs, by simp [hg, putreg32], by simp⟩
  · simp only [if_neg (Ne.symm h13), if_neg (Ne.symm h23), if_true] at hr ⊢
    obtain ⟨k, m1, heq, -, -, hset, ht, hs, hg⟩ := enable_ok c.CMU_OSCENCMD_HFRCOEN _ fuel m hr
    unfold efm32_enable_hfrco
    rw [heq]
    exact ⟨[], k, m1, rfl, by simpa using ht, hset, hs, by simp [hg, putreg32], by simp⟩
  · simp only [if_neg (Ne.symm h14), if_neg (Ne.symm h24), if_neg (Ne.symm h34), if_true] at hr ⊢
    obtain ⟨pre0, ht0, hs0, hr0, hq0⟩ := hfclk_config_hfle_frame c b m
    rw [← hs0] at hr
    obtain ⟨k, m1, heq, -, -, hset, ht, hs, hg⟩ := enable_ok c.CMU_OSCENCMD_HFXOEN _ fuel _ hr
    unfold efm32_enable_hfxo
    rw [heq]
    refine ⟨pre0, k, m1, rfl, ?_, ?_, ?_, ?_, hq0⟩
    · rw [ht, ht0, hs0]
    · rw [← hs0]; exact hset
    · rw [hs, hs0]
    · simpa [hg, putreg32] using hr0

/-- With distinct `case` labels and a ready bit that shows within the fuel,
the `switch` of `efm32_hfclk_config` returns the board frequency of the
selected source, having written neither `MSC_READCTRL` nor `CMU_CMD`. -/
theorem hfclk_config_switch_ok (c : Chip) (b : Board) (fuel sel : Nat) (m : Machine)
    (hl : c.hfclkSelectors.Nodup) (hsel : sel ∈ c.hfclkSelectors)
    (hr : ∃ k, k < fuel ∧ m.status k &&& hfclkReadyBit c sel ≠ 0) :
    ∃ pre m1, efm32_hfclk_config_switch c b fuel sel m
        = .ok (some (hfclkFrequency c b sel)) m1
      ∧ m1.trace = m.trace ++ pre
      ∧ m1.regs .MSC_READCTRL = m.regs .MSC_READCTRL
      ∧ ∀ e ∈ pre, e.isWriteTo .MSC_READCTRL = false ∧ e.isWriteTo .CMU_CMD = false := by
  obtain ⟨pre0, k, m1, hsw, ht, -, -, hg, hq⟩ :=
    hfclk_config_switch_spec c b fuel sel m hl hsel hr
  refine ⟨pre0 ++ Event.write .CMU_OSCENCMD (hfclkEnableWritten c sel) :: pollReads m.status k,
    m1, hsw, by rw [ht, List.append_assoc], hg, ?_⟩
  intro e he
  rcases List.mem_append.1 he with he | he
  · exact ⟨(hq e he).1, (hq e he).2.1⟩
  · exact enable_events_quiet _ _ _ e he

theorem maxwaitstates_eq (c : Chip) (m : Machine) :
    efm32_maxwaitstates c m
      = putreg32
          ((m.regs .MSC_READCTRL &&& not32 c._MSC_READCTRL_MODE_MASK)
            ||| (if isScbtpMode c (m.regs .MSC_READCTRL &&& c._MSC_READCTRL_MODE_MASK)
                  then c.MSC_READCTRL_MODE_WSMAXSCBTP else c.MSC_READCTRL_MODE_WSMAX))
          .MSC_READCTRL (getreg32 .MSC_READCTRL m).2 := by
  unfold efm32_maxwaitstates
  rw [getreg32_READCTRL]
  by_cases h : isScbtpMode c (m.regs .MSC_READCTRL &&& c._MSC_READCTRL_MODE_MASK) = true
  · simp only [h, if_true]
  · simp only [h, if_false, Bool.false_eq_true]

/-- The maximum-wait-state mode for an SCBTP setting lies inside the mode field
and has that SCBTP setting. -/
theorem maxMode_spec (c : Chip) (hc : c.WaitStatesWF) (scbtp : Bool) :
    (if scbtp then c.MSC_READCTRL_MODE_WSMAXSCBTP else c.MSC_READCTRL_MODE_WSMAX)
        &&& c._MSC_READCTRL_MODE_MASK
      = (if scbtp then c.MSC_READCTRL_MODE_WSMAXSCBTP else c.MSC_READCTRL_MODE_WSMAX)
    ∧ isScbtpMode c (if scbtp then c.MSC_READCTRL_MODE_WSMAXSCBTP
        else c.MSC_READCTRL_MODE_WSMAX) = scbtp := by
  obtain ⟨-, -, hdef, hfit, hnd, hmax, hmaxs⟩ := hc
  unfold isScbtpMode
  rw [hmax, hmaxs]
  cases hws2 : c.MSC_READCTRL_MODE_WS2 with
  | none =>
    rw [hws2] at hdef
    cases hws2s : c.MSC_READCTRL_MODE_WS2SCBTP with
    | some x => simp [hws2s] at hdef
    | none =>
      simp only [Chip.modes, hws2, hws2s] at hfit hnd
      simp at hfit hnd
      obtain ⟨f0, f1, f2, f3⟩ := hfit
      cases scbtp <;> simp [*]
  | some ws2 =>
    rw [hws2] at hdef
    cases hws2s : c.MSC_READCTRL_MODE_WS2SCBTP with
    | none => simp [hws2s] at hdef
    | some ws2s =>
      simp only [Chip.modes, hws2, hws2s] at hfit hnd
      simp at hfit hnd
      obtain ⟨f0, f1, f2, f3, f4, f5⟩ := hfit
      cases scbtp <;> simp [*]
      omega

/-- The count chosen by the `if` chain of `efm32_setwaitstates` is minimal. -/
theorem minWaitStates_minimal (c : Chip) (hc : c.WaitStatesWF) (F : Nat) (hF : F ≤ c.maxFreq) :
    c.IsMinimalWaitStates F
      (if F > c.CMU_MAX_FREQ_1WS then 2 else if F > c.CMU_MAX_FREQ_0WS then 1 else 0) := by
  have h01 : c.CMU_MAX_FREQ_0WS ≤ c.CMU_MAX_FREQ_1WS := hc.1
  unfold Chip.maxFreq at hF
  constructor
  · by_cases h1 : F > c.CMU_MAX_FREQ_1WS
    · cases hws2 : c.MSC_READCTRL_MODE_WS2 with
      | none => rw [hws2] at hF; simp at hF; omega
      | some w => rw [hws2] at hF; simp at hF; simp [h1, hF, Chip.threshold, hws2]
    · by_cases h0 : F > c.CMU_MAX_FREQ_0WS <;> simp [h1, h0, Chip.threshold] <;> omega
  · intro k t' hk ht'
    by_cases h1 : F > c.CMU_MAX_FREQ_1WS
    · simp only [h1, if_true] at hk
      have hk' : k = 0 ∨ k = 1 := by omega
      rcases hk' with rfl | rfl <;> simp [Chip.threshold] at ht' <;> omega
    · by_cases h0 : F > c.CMU_MAX_FREQ_0WS
      · simp only [h1, h0, if_true, if_false] at hk
        have hk' : k = 0 := by omega
        subst hk'
        simp [Chip.threshold] at ht'
        omega
      · simp [h1, h0] at hk

/-- The part of `efm32_hfclk_config` after the `switch`: maximum wait states,
the switch command, then the wait states for frequency `f`. -/
theorem hfclk_config_tail (c : Chip) (hc : c.WaitStatesWF) (sw f : Nat) (m1 : Machine)
    (hf : f ≤ c.maxFreq) :
    ∃ vmax vmin m',
      efm32_setwaitstates c f (putreg32 sw .CMU_CMD (efm32_maxwaitstates c m1)) = .ok () m'
      ∧ m'.trace = m1.trace ++ [.read .MSC_READCTRL (m1.regs .MSC_READCTRL),
          .write .MSC_READCTRL vmax, .write .CMU_CMD sw, .read .MSC_READCTRL vmax,
          .write .MSC_READCTRL vmin]
      ∧ m'.status = m1.status
      ∧ (∀ r, r ≠ .MSC_READCTRL → r ≠ .CMU_CMD → m'.regs r = m1.regs r)
      ∧ m'.regs .MSC_READCTRL = vmin
      ∧ vmax &&& c._MSC_READCTRL_MODE_MASK
          = (if isScbtpMode c (m1.regs .MSC_READCTRL &&& c._MSC_READCTRL_MODE_MASK)
              then c.MSC_READCTRL_MODE_WSMAXSCBTP else c.MSC_READCTRL_MODE_WSMAX)
      ∧ vmin &&& c._MSC_READCTRL_MODE_MASK
          = selectedMode c f
              (isScbtpMode c (m1.regs .MSC_READCTRL &&& c._MSC_READCTRL_MODE_MASK)) := by
  obtain ⟨hmfit, hms⟩ :=
    maxMode_spec c hc (isScbtpMode c (m1.regs .MSC_READCTRL &&& c._MSC_READCTRL_MODE_MASK))
  obtain ⟨hsfit, -, -⟩ := selectedMode_spec c hc f
    (isScbtpMode c (m1.regs .MSC_READCTRL &&& c._MSC_READCTRL_MODE_MASK)) hf
  have hvmax := and_not32_or_and (m1.regs .MSC_READCTRL) _ _ hmfit
  rw [setwaitstates_eq c f _ hf, maxwaitstates_eq]
  have hreg : (putreg32 sw .CMU_CMD (putreg32
      ((m1.regs .MSC_READCTRL &&& not32 c._MSC_READCTRL_MODE_MASK)
        ||| (if isScbtpMode c (m1.regs .MSC_READCTRL &&& c._MSC_READCTRL_MODE_MASK)
              then c.MSC_READCTRL_MODE_WSMAXSCBTP else c.MSC_READCTRL_MODE_WSMAX))
      .MSC_READCTRL (getreg32 .MSC_READCTRL m1).2)).regs .MSC_READCTRL
      = (m1.regs .MSC_READCTRL &&& not32 c._MSC_READCTRL_MODE_MASK)
        ||| (if isScbtpMode c (m1.regs .MSC_READCTRL &&& c._MSC_READCTRL_MODE_MASK)
              then c.MSC_READCTRL_MODE_WSMAXSCBTP else c.MSC_READCTRL_MODE_WSMAX) := by
    simp [putreg32]
  rw [hreg, hvmax, hms]
  refine ⟨(m1.regs .MSC_READCTRL &&& not32 c._MSC_READCTRL_MODE_MASK)
      ||| (if isScbtpMode c (m1.regs .MSC_READCTRL &&& c._MSC_READCTRL_MODE_MASK)
            then c.MSC_READCTRL_MODE_WSMAXSCBTP else c.MSC_READCTRL_MODE_WSMAX),
    (((m1.regs .MSC_READCTRL &&& not32 c._MSC_READCTRL_MODE_MASK)
      ||| (if isScbtpMode c (m1.regs .MSC_READCTRL &&& c._MSC_READCTRL_MODE_MASK)
            then c.MSC_READCTRL_MODE_WSMAXSCBTP else c.MSC_READCTRL_MODE_WSMAX))
        &&& not32 c._MSC_READCTRL_MODE_MASK)
      ||| selectedMode c f
        (isScbtpMode c (m1.regs .MSC_READCTRL &&& c._MSC_READCTRL_MODE_MASK)),
    _, rfl, ?_, ?_, ?_, ?_, hvmax, and_not32_or_and _ _ _ hsfit⟩
  · simp [putreg32, getreg32]
  · simp [putreg32, getreg32]
  · intro r h1 h2
    simp [putreg32, getreg32, h1, h2]
  · simp [putreg32]

/-- C9 (defect, evaluated on Giant Gecko): `efm32_enable_lfxo` writes the LFRCO
enable command `0x40` to `CMU_OSCENCMD`, not the LFXO enable command `0x100`,
and then waits for the LFXO ready bit `0x200`. -/
theorem enable_lfxo_writes_lfrcoen :
    (efm32_enable_lfxo efm32gg 4 (machineWith 0 fun _ => 0x200)).machine.trace
        = [.write .CMU_OSCENCMD 0x40, .read .CMU_STATUS 0x200]
      ∧ efm32gg.CMU_OSCENCMD_LFRCOEN = 0x40
      ∧ efm32gg.CMU_OSCENCMD_LFXOEN = 0x100
      ∧ efm32gg.CMU_STATUS_LFXORDY = 0x200
      ∧ Event.write .CMU_OSCENCMD efm32gg.CMU_OSCENCMD_LFXOEN
          ∉ (efm32_enable_lfxo efm32gg 4 (machineWith 0 fun _ => 0x200)).machine.trace := by
  decide

/-- C4 (defect, evaluated on Giant Gecko): with the LFXO selector
`efm32_hfclk_config` reaches the write of the switch command to `CMU_CMD`
without ever writing the LFXO enable command `0x100` to `CMU_OSCENCMD`; the
command it wrote is the LFRCO enable `0x40`. -/
theorem hfclk_config_lfxo_not_enabled :
    (efm32_hfclk_config efm32gg board48 4 efm32gg._CMU_CMD_HFCLKSEL_LFXO 0
        (machineWith 1 fun _ => 0x200)).machine.trace
        = [.write .CMU_OSCENCMD 0x40, .read .CMU_STATUS 0x200, .read .MSC_READCTRL 1,
            .write .MSC_READCTRL 4, .write .CMU_CMD 4, .read .MSC_READCTRL 4,
            .write .MSC_READCTRL 0]
      ∧ efm32gg.CMU_OSCENCMD_LFXOEN = 0x100
      ∧ Event.write .CMU_OSCENCMD efm32gg.CMU_OSCENCMD_LFXOEN
          ∉ (efm32_hfclk_config efm32gg board48 4 efm32gg._CMU_CMD_HFCLKSEL_LFXO 0
              (machineWith 1 fun _ => 0x200)).machine.trace := by
  decide

/-- C5: for every supported selector whose board frequency is supported and
whose oscillator shows ready within the fuel, `efm32_hfclk_config` returns;
the access just before the write of the switch command to `CMU_CMD` is the
write to `MSC_READCTRL` of the maximum wait-state mode (`WSMAXSCBTP` if the
initial mode was an SCBTP mode, `WSMAX` otherwise), no earlier access writes
`MSC_READCTRL` or `CMU_CMD`, and the only accesses after the switch command are
the read-back of that value and the write of the minimal wait-state mode for
the board frequency with the initial SCBTP setting. -/
theorem hfclk_config_waitstates (c : Chip) (hc : c.WaitStatesWF) (hl : c.hfclkSelectors.Nodup)
    (b : Board) (fuel sel hfclkdiv : Nat) (m : Machine) (hsel : sel ∈ c.hfclkSelectors)
    (hf : hfclkFrequency c b sel ≤ c.maxFreq)
    (hr : ∃ k, k < fuel ∧ m.status k &&& hfclkReadyBit c sel ≠ 0) :
    ∃ pre vmax vmin n m',
      efm32_hfclk_config c b fuel sel hfclkdiv m = .ok (hfclkFrequency c b sel) m'
      ∧ m'.trace = m.trace ++ pre ++ [.read .MSC_READCTRL (m.regs .MSC_READCTRL),
          .write .MSC_READCTRL vmax, .write .CMU_CMD (shl32 sel c._CMU_CMD_HFCLKSEL_SHIFT),
          .read .MSC_READCTRL vmax, .write .MSC_READCTRL vmin]
      ∧ (∀ e ∈ pre, e.isWriteTo .MSC_READCTRL = false ∧ e.isWriteTo .CMU_CMD = false)
      ∧ vmax &&& c._MSC_READCTRL_MODE_MASK
          = (if isScbtpMode c (m.regs .MSC_READCTRL &&& c._MSC_READCTRL_MODE_MASK)
              then c.MSC_READCTRL_MODE_WSMAXSCBTP else c.MSC_READCTRL_MODE_WSMAX)
      ∧ m'.regs .MSC_READCTRL = vmin
      ∧ c.waitStates (vmin &&& c._MSC_READCTRL_MODE_MASK) = some n
      ∧ c.IsMinimalWaitStates (hfclkFrequency c b sel) n
      ∧ (isScbtpMode c (vmin &&& c._MSC_READCTRL_MODE_MASK) = true
          ↔ isScbtpMode c (m.regs .MSC_READCTRL &&& c._MSC_READCTRL_MODE_MASK) = true) := by
  obtain ⟨pre, m1, hsw, ht1, hr1, hq⟩ := hfclk_config_switch_ok c b fuel sel m hl hsel hr
  obtain ⟨vmax, vmin, m', htail, ht', -, -, hreg, hvmax, hvmin⟩ :=
    hfclk_config_tail c hc (shl32 sel c._CMU_CMD_HFCLKSEL_SHIFT) (hfclkFrequency c b sel) m1 hf
  obtain ⟨-, hs, hws⟩ := selectedMode_spec c hc (hfclkFrequency c b sel)
    (isScbtpMode c (m.regs .MSC_READCTRL &&& c._MSC_READCTRL_MODE_MASK)) hf
  rw [hr1] at ht' hvmax hvmin
  refine ⟨pre, vmax, vmin, _, m', ?_, ?_, hq, hvmax, hreg, ?_,
    minWaitStates_minimal c hc _ hf, ?_⟩
  · unfold efm32_hfclk_config
    rw [hsw]
    simp only [Result.bind]
    rw [htail]
  · rw [ht', ht1]
  · rw [hvmin]; exact hws
  · rw [hvmin, hs]

/-- Witness for `hfclk_config_waitstates`: Giant Gecko, HFXO at 48 MHz, initial
mode WS1SCBTP, HFXO ready at the third read. -/
theorem hfclk_config_waitstates_witness :
    ∃ pre vmax vmin n m',
      efm32_hfclk_config efm32gg board48 8 2 0
          (machineWith 3 fun k => if k < 2 then 0 else 0x8)
        = .ok (hfclkFrequency efm32gg board48 2) m'
      ∧ m'.trace = (machineWith 3 fun k => if k < 2 then 0 else 0x8).trace ++ pre
          ++ [.read .MSC_READCTRL ((machineWith 3 fun k => if k < 2 then 0 else 0x8).regs
                .MSC_READCTRL),
          .write .MSC_READCTRL vmax, .write .CMU_CMD (shl32 2 efm32gg._CMU_CMD_HFCLKSEL_SHIFT),
          .read .MSC_READCTRL vmax, .write .MSC_READCTRL vmin]
      ∧ (∀ e ∈ pre, e.isWriteTo .MSC_READCTRL = false ∧ e.isWriteTo .CMU_CMD = false)
      ∧ vmax &&& efm32gg._MSC_READCTRL_MODE_MASK
          = (if isScbtpMode efm32gg
                ((machineWith 3 fun k => if k < 2 then 0 else 0x8).regs .MSC_READCTRL
                  &&& efm32gg._MSC_READCTRL_MODE_MASK)
              then efm32gg.MSC_READCTRL_MODE_WSMAXSCBTP else efm32gg.MSC_READCTRL_MODE_WSMAX)
      ∧ m'.regs .MSC_READCTRL = vmin
      ∧ efm32gg.waitStates (vmin &&& efm32gg._MSC_READCTRL_MODE_MASK) = some n
      ∧ efm32gg.IsMinimalWaitStates (hfclkFrequency efm32gg board48 2) n
      ∧ (isScbtpMode efm32gg (vmin &&& efm32gg._MSC_READCTRL_MODE_MASK) = true
          ↔ isScbtpMode efm32gg
              ((machineWith 3 fun k => if k < 2 then 0 else 0x8).regs .MSC_READCTRL
                &&& efm32gg._MSC_READCTRL_MODE_MASK) = true) :=
  hfclk_config_waitstates efm32gg (by decide) (by decide) board48 8 2 0
    (machineWith 3 fun k => if k < 2 then 0 else 0x8) (by decide) (by decide)
    ⟨2, by decide, by decide⟩

/-- Writing a field value `d` and an extension bit `e` into a register whose
field masks `M` and `E` were cleared: the field `M` of the result is `d`, the
field `E` is `e`. -/
theorem field_pair_insert (x d e M E : Nat) (hd : d &&& M = d) (he : e &&& E = e)
    (hME : M &&& E = 0) :
    (((x &&& not32 (M ||| E)) ||| d) ||| e) &&& M = d
      ∧ (((x &&& not32 (M ||| E)) ||| d) ||| e) &&& E = e
      ∧ ((x &&& not32 (M ||| E)) ||| d) &&& M = d := by
  refine ⟨?_, ?_, ?_⟩ <;>
  · apply Nat.eq_of_testBit_eq
    intro i
    have h1 := congrArg (fun n => n.testBit i) hd
    have h2 := congrArg (fun n => n.testBit i) he
    have h3 := congrArg (fun n => n.testBit i) hME
    simp only [Nat.testBit_and, Nat.zero_testBit] at h1 h2 h3
    simp only [not32, Nat.testBit_and, Nat.testBit_or, Nat.testBit_xor, Nat.testBit_mod_two_pow,
      Nat.testBit_two_pow_sub_one]
    cases hx : x.testBit i <;> cases hm : M.testBit i <;> cases hdd : d.testBit i <;>
      cases hee : e.testBit i <;> cases hE : E.testBit i <;> simp_all

theorem getreg32_LFCLKSEL (m : Machine) :
    getreg32 .CMU_LFCLKSEL m
      = (m.regs .CMU_LFCLKSEL,
          { regs := m.regs, status := m.status,
            trace := m.trace ++ [Event.read .CMU_LFCLKSEL (m.regs .CMU_LFCLKSEL)] }) := rfl

/-- C6: with the ULFRCO flag set, `efm32_lfaclk_config` and
`efm32_lfbclk_config` do not depend on the selector: any two selectors give
the same result; the call returns the ULFRCO board frequency; its only
accesses are the read and the write of `CMU_LFCLKSEL` (no enable command);
the selection field written is DISABLED and, where the variant has the ULFRCO
extension bit, that bit is set. -/
theorem lfclk_config_ulfrco (c : Chip) (ha : c.LfaLayoutWF) (hb : c.LfbLayoutWF) (b : Board)
    (fuel sel sel' hfcoreclk : Nat) (m : Machine) :
    (efm32_lfaclk_config c b fuel sel true hfcoreclk m
        = efm32_lfaclk_config c b fuel sel' true hfcoreclk m
      ∧ ∃ v m', efm32_lfaclk_config c b fuel sel true hfcoreclk m
          = .ok (some b.BOARD_ULFRCO_FREQUNCY) m'
        ∧ m'.trace = m.trace
            ++ [.read .CMU_LFCLKSEL (m.regs .CMU_LFCLKSEL), .write .CMU_LFCLKSEL v]
        ∧ m'.regs .CMU_LFCLKSEL = v
        ∧ v &&& c._CMU_LFCLKSEL_LFA_MASK
            = shl32 c._CMU_LFCLKSEL_LFA_DISABLED c._CMU_LFCLKSEL_LFA_SHIFT
        ∧ (c.CMU_LFCLKSEL_LFAE_ULFRCO = true →
            v &&& c._CMU_LFCLKSEL_LFAE_MASK = shl32 1 c._CMU_LFCLKSEL_LFAE_SHIFT))
    ∧ (efm32_lfbclk_config c b fuel sel true hfcoreclk m
        = efm32_lfbclk_config c b fuel sel' true hfcoreclk m
      ∧ ∃ v m', efm32_lfbclk_config c b fuel sel true hfcoreclk m
          = .ok (some b.BOARD_ULFRCO_FREQUNCY) m'
        ∧ m'.trace = m.trace
            ++ [.read .CMU_LFCLKSEL (m.regs .CMU_LFCLKSEL), .write .CMU_LFCLKSEL v]
        ∧ m'.regs .CMU_LFCLKSEL = v
        ∧ v &&& c._CMU_LFCLKSEL_LFB_MASK
            = shl32 c._CMU_LFCLKSEL_LFB_DISABLED c._CMU_LFCLKSEL_LFB_SHIFT
        ∧ (c.CMU_LFCLKSEL_LFBE_ULFRCO = true →
            v &&& c._CMU_LFCLKSEL_LFBE_MASK = shl32 1 c._CMU_LFCLKSEL_LFBE_SHIFT)) := by
  obtain ⟨ha1, ha2, ha3⟩ := ha
  obtain ⟨hb1, hb2, hb3⟩ := hb
  have fa := field_pair_insert (m.regs .CMU_LFCLKSEL) _ _ _ _ ha1 ha2 ha3
  have fb := field_pair_insert (m.regs .CMU_LFCLKSEL) _ _ _ _ hb1 hb2 hb3
  refine ⟨⟨rfl, ?_⟩, ⟨rfl, ?_⟩⟩
  · by_cases he : c.CMU_LFCLKSEL_LFAE_ULFRCO = true
    · refine ⟨_, putreg32 (((m.regs .CMU_LFCLKSEL
          &&& not32 (c._CMU_LFCLKSEL_LFA_MASK ||| c._CMU_LFCLKSEL_LFAE_MASK))
          ||| shl32 c._CMU_LFCLKSEL_LFA_DISABLED c._CMU_LFCLKSEL_LFA_SHIFT)
          ||| shl32 1 c._CMU_LFCLKSEL_LFAE_SHIFT) .CMU_LFCLKSEL (getreg32 .CMU_LFCLKSEL m).2,
        ?_, ?_, ?_, fa.1, fun _ => fa.2.1⟩
      · simp only [efm32_lfaclk_config, efm32_lfaclk_config_switch, if_true, Result.bind,
          getreg32_LFCLKSEL, he]
      · simp [putreg32, getreg32]
      · simp [putreg32]
    · refine ⟨_, putreg32 ((m.regs .CMU_LFCLKSEL
          &&& not32 (c._CMU_LFCLKSEL_LFA_MASK ||| c._CMU_LFCLKSEL_LFAE_MASK))
          ||| shl32 c._CMU_LFCLKSEL_LFA_DISABLED c._CMU_LFCLKSEL_LFA_SHIFT)
          .CMU_LFCLKSEL (getreg32 .CMU_LFCLKSEL m).2,
        ?_, ?_, ?_, fa.2.2, fun h => absurd h he⟩
      · simp only [efm32_lfaclk_config, efm32_lfaclk_config_switch, if_true, Result.bind,
          getreg32_LFCLKSEL, he]
        rfl
      · simp [putreg32, getreg32]
      · simp [putreg32]
  · by_cases he : c.CMU_LFCLKSEL_LFBE_ULFRCO = true
    · refine ⟨_, putreg32 (((m.regs .CMU_LFCLKSEL
          &&& not32 (c._CMU_LFCLKSEL_LFB_MASK ||| c._CMU_LFCLKSEL_LFBE_MASK))
          ||| shl32 c._CMU_LFCLKSEL_LFB_DISABLED c._CMU_LFCLKSEL_LFB_SHIFT)
          ||| shl32 1 c._CMU_LFCLKSEL_LFBE_SHIFT) .CMU_LFCLKSEL (getreg32 .CMU_LFCLKSEL m).2,
        ?_, ?_, ?_, fb.1, fun _ => fb.2.1⟩
      · simp only [efm32_lfbclk_config, efm32_lfbclk_config_switch, if_true, Result.bind,
          getreg32_LFCLKSEL, he]
      · simp [putreg32, getreg32]
      · simp [putreg32]
    · refine ⟨_, putreg32 ((m.regs .CMU_LFCLKSEL
          &&& not32 (c._CMU_LFCLKSEL_LFB_MASK ||| c._CMU_LFCLKSEL_LFBE_MASK))
          ||| shl32 c._CMU_LFCLKSEL_LFB_DISABLED c._CMU_LFCLKSEL_LFB_SHIFT)
          .CMU_LFCLKSEL (getreg32 .CMU_LFCLKSEL m).2,
        ?_, ?_, ?_, fb.2.2, fun h => absurd h he⟩
      · simp only [efm32_lfbclk_config, efm32_lfbclk_config_switch, if_true, Result.bind,
          getreg32_LFCLKSEL, he]
        rfl
      · simp [putreg32, getreg32]
      · simp [putreg32]

/-- Witness for `lfclk_config_ulfrco`: Giant Gecko, selectors LFRCO and
HFCORECLKLEDIV2, every register bit initially set. -/
theorem lfclk_config_ulfrco_witness :
    efm32gg.LfaLayoutWF ∧ efm32gg.LfbLayoutWF
    ∧ efm32_lfaclk_config efm32gg board48 4 1 true 48000000 (machineOf 0xFFFFFFFF)
        = efm32_lfaclk_config efm32gg board48 4 3 true 48000000 (machineOf 0xFFFFFFFF)
    ∧ efm32_lfbclk_config efm32gg board48 4 1 true 48000000 (machineOf 0xFFFFFFFF)
        = efm32_lfbclk_config efm32gg board48 4 3 true 48000000 (machineOf 0xFFFFFFFF) :=
  ⟨by decide, by decide,
    (lfclk_config_ulfrco efm32gg (by decide) (by decide) board48 4 1 3 48000000
      (machineOf 0xFFFFFFFF)).1.1,
    (lfclk_config_ulfrco efm32gg (by decide) (by decide) board48 4 1 3 48000000
      (machineOf 0xFFFFFFFF)).2.1⟩

/-- What `efm32_enable_hfle` does above the ceiling, as one equation. -/
theorem enable_hfle_above (c : Chip) (hfle f : Nat) (m : Machine)
    (h : c.CMU_CTRL_HFLE = some hfle) (hf : f > c.CMU_MAX_FREQ_HFLE) :
    efm32_enable_hfle c f m
      = { regs := fun r =>
            if r = .CMU_HFCORECLKDIV then
              m.regs .CMU_HFCORECLKDIV ||| c.CMU_HFCORECLKDIV_HFCORECLKLEDIV_DIV4
            else if r = .CMU_CTRL then m.regs .CMU_CTRL ||| hfle
            else m.regs r,
          status := m.status,
          trace := m.trace ++ [.read .CMU_CTRL (m.regs .CMU_CTRL),
            .write .CMU_CTRL (m.regs .CMU_CTRL ||| hfle),
            .read .CMU_HFCORECLKDIV (m.regs .CMU_HFCORECLKDIV),
            .write .CMU_HFCORECLKDIV
              (m.regs .CMU_HFCORECLKDIV ||| c.CMU_HFCORECLKDIV_HFCORECLKLEDIV_DIV4)] } := by
  simp [efm32_enable_hfle, h, hf, getreg32, putreg32]

/-- Below or at the ceiling, or without `CMU_CTRL_HFLE`, `efm32_enable_hfle`
does nothing. -/
theorem enable_hfle_nop (c : Chip) (f : Nat) (m : Machine)
    (h : c.CMU_CTRL_HFLE = none ∨ ¬ f > c.CMU_MAX_FREQ_HFLE) :
    efm32_enable_hfle c f m = m := by
  unfold efm32_enable_hfle
  cases hh : c.CMU_CTRL_HFLE with
  | none => rfl
  | some x =>
    rcases h with h | h
    · rw [hh] at h; cases h
    · simp only [h, if_false]

/-- C8: on a variant with the HFLE bit, `efm32_enable_hfle (f)` above
`CMU_MAX_FREQ_HFLE` ORs the HFLE bit into `CMU_CTRL` and the DIV4 bit into
`CMU_HFCORECLKDIV` (all other bits of both, and all other registers, as they
were) with exactly one write to each; at or below the ceiling it makes no
access at all. -/
theorem enable_hfle_spec (c : Chip) (hfle : Nat) (h : c.CMU_CTRL_HFLE = some hfle) (f : Nat)
    (m : Machine) :
    (f > c.CMU_MAX_FREQ_HFLE →
      (efm32_enable_hfle c f m).regs .CMU_CTRL = m.regs .CMU_CTRL ||| hfle
      ∧ (efm32_enable_hfle c f m).regs .CMU_HFCORECLKDIV
          = m.regs .CMU_HFCORECLKDIV ||| c.CMU_HFCORECLKDIV_HFCORECLKLEDIV_DIV4
      ∧ (∀ r, r ≠ .CMU_CTRL → r ≠ .CMU_HFCORECLKDIV →
          (efm32_enable_hfle c f m).regs r = m.regs r)
      ∧ (efm32_enable_hfle c f m).trace
          = m.trace ++ [.read .CMU_CTRL (m.regs .CMU_CTRL),
              .write .CMU_CTRL (m.regs .CMU_CTRL ||| hfle),
              .read .CMU_HFCORECLKDIV (m.regs .CMU_HFCORECLKDIV),
              .write .CMU_HFCORECLKDIV
                (m.regs .CMU_HFCORECLKDIV ||| c.CMU_HFCORECLKDIV_HFCORECLKLEDIV_DIV4)])
    ∧ (¬ f > c.CMU_MAX_FREQ_HFLE → efm32_enable_hfle c f m = m) := by
  refine ⟨fun hf => ?_, fun hf => enable_hfle_nop c f m (Or.inr hf)⟩
  rw [enable_hfle_above c hfle f m h hf]
  refine ⟨by simp, by simp, ?_, rfl⟩
  intro r h1 h2
  simp [h1, h2]

/-- Witness for `enable_hfle_spec`: Giant Gecko at 48 MHz and at 32 MHz. -/
theorem enable_hfle_spec_witness :
    efm32gg.CMU_CTRL_HFLE = some 0x40000000
    ∧ (efm32_enable_hfle efm32gg 48000000 (machineOf 0x21)).regs .CMU_CTRL
        = (machineOf 0x21).regs .CMU_CTRL ||| 0x40000000
    ∧ efm32_enable_hfle efm32gg 32000000 (machineOf 0x21) = machineOf 0x21 :=
  ⟨rfl, ((enable_hfle_spec efm32gg 0x40000000 rfl 48000000 (machineOf 0x21)).1 (by decide)).1,
    (enable_hfle_spec efm32gg 0x40000000 rfl 32000000 (machineOf 0x21)).2 (by decide)⟩

/-- The registers and the status stream that `efm32_enable_hfle` leaves alone. -/
theorem enable_hfle_frame (c : Chip) (f : Nat) (m : Machine) :
    (efm32_enable_hfle c f m).status = m.status
      ∧ ∀ r, r ≠ .CMU_CTRL → r ≠ .CMU_HFCORECLKDIV →
          (efm32_enable_hfle c f m).regs r = m.regs r := by
  cases hh : c.CMU_CTRL_HFLE with
  | none => rw [enable_hfle_nop c f m (Or.inl hh)]; exact ⟨rfl, fun _ _ _ => rfl⟩
  | some hfle =>
    by_cases hf : f > c.CMU_MAX_FREQ_HFLE
    · rw [enable_hfle_above c hfle f m hh hf]
      refine ⟨rfl, fun r h1 h2 => ?_⟩
      simp [h1, h2]
    · rw [enable_hfle_nop c f m (Or.inr hf)]; exact ⟨rfl, fun _ _ _ => rfl⟩

theorem or_and_keep (a y x : Nat) (h : a &&& x = x) : (a ||| y) &&& x = x := by
  apply Nat.eq_of_testBit_eq
  intro i
  have h1 := congrArg (fun n => n.testBit i) h
  simp only [Nat.testBit_and] at h1
  simp only [Nat.testBit_and, Nat.testBit_or]
  cases ha : a.testBit i <;> cases hy : y.testBit i <;> cases hx : x.testBit i <;> simp_all

theorem or_and_self (a y : Nat) : (a ||| y) &&& y = y := by
  apply Nat.eq_of_testBit_eq
  intro i
  simp only [Nat.testBit_and, Nat.testBit_or]
  cases ha : a.testBit i <;> cases hy : y.testBit i <;> simp_all

theorem Follows.refl (m : Machine) : Follows m m :=
  ⟨rfl, fun _ _ _ _ h => h, ⟨0, rfl⟩, ⟨[], by simp⟩⟩

theorem Follows.trans {m1 m2 m3 : Machine} (h12 : Follows m1 m2) (h23 : Follows m2 m3) :
    Follows m1 m3 := by
  obtain ⟨a1, b1, ⟨n1, c1⟩, ⟨p1, d1, e1⟩⟩ := h12
  obtain ⟨a2, b2, ⟨n2, c2⟩, ⟨p2, d2, e2⟩⟩ := h23
  refine ⟨a2.trans a1, fun r x hr1 hr2 h => b2 r x hr1 hr2 (b1 r x hr1 hr2 h),
    ⟨n2 + n1, ?_⟩, ⟨p1 ++ p2, ?_, ?_⟩⟩
  · rw [c2, c1]; funext i; simp [Nat.add_assoc]
  · rw [d2, d1, List.append_assoc]
  · intro e he
    rcases List.mem_append.1 he with he | he
    · exact e1 e he
    · exact e2 e he

/-- Reading a register other than `CMU_STATUS`. -/
theorem follows_getreg32 (r : Reg) (hr : r ≠ .CMU_STATUS) (m : Machine) :
    Follows m (getreg32 r m).2 ∧ (getreg32 r m).1 = m.regs r
      ∧ (getreg32 r m).2.regs = m.regs := by
  cases r <;> first | exact absurd rfl hr | exact ⟨⟨rfl, fun _ _ _ _ h => h, ⟨0, rfl⟩, ⟨_, rfl, by simp [Event.isWriteTo]⟩⟩, rfl, rfl⟩

/-- ORing bits into a register other than `MSC_READCTRL` and `CMU_CMD`. -/
theorem follows_putreg32_or (r : Reg) (h1 : r ≠ .MSC_READCTRL) (h2 : r ≠ .CMU_CMD) (y : Nat)
    (m : Machine) : Follows m (putreg32 (m.regs r ||| y) r m) := by
  refine ⟨by simp [putreg32, Ne.symm h1], ?_, ⟨0, rfl⟩, ⟨_, rfl, ?_⟩⟩
  · intro r' x _ _ h
    by_cases hr : r' = r
    · subst hr; simpa [putreg32] using or_and_keep _ y x h
    · simpa [putreg32, hr] using h
  · intro e he
    simp only [List.mem_singleton] at he
    subst he
    simp [Event.isWriteTo, h1, h2]

/-- Writing any value to `CMU_LFCLKSEL` or `CMU_OSCENCMD`. -/
theorem follows_putreg32_free (r : Reg) (hr : r = .CMU_LFCLKSEL ∨ r = .CMU_OSCENCMD) (v : Nat)
    (m : Machine) : Follows m (putreg32 v r m) := by
  refine ⟨?_, ?_, ⟨0, rfl⟩, ⟨_, rfl, ?_⟩⟩
  · rcases hr with rfl | rfl <;> simp [putreg32]
  · intro r' x h1 h2 h
    rcases hr with rfl | rfl
    · simpa [putreg32, h1] using h
    · simpa [putreg32, h2] using h
  · intro e he
    simp only [List.mem_singleton] at he
    subst he
    rcases hr with rfl | rfl <;> simp [Event.isWriteTo]

theorem EventuallyReady.shift {fuel bitset : Nat} {status : Nat → Nat}
    (h : EventuallyReady fuel bitset status) (n : Nat) :
    EventuallyReady fuel bitset (fun i => status (i + n)) := by
  intro j
  obtain ⟨k, hk, hb⟩ := h (j + n)
  refine ⟨k, hk, ?_⟩
  have : j + k + n = j + n + k := by omega
  simpa [this] using hb

theorem EventuallyReady.follows {fuel bitset : Nat} {m m' : Machine}
    (h : EventuallyReady fuel bitset m.status) (hf : Follows m m') :
    EventuallyReady fuel bitset m'.status := by
  obtain ⟨-, -, ⟨n, hn⟩, -⟩ := hf
  rw [hn]
  exact h.shift n

/-- The polled bit shows within the fuel when it eventually reads set. -/
theorem EventuallyReady.now {fuel bitset : Nat} {status : Nat → Nat}
    (h : EventuallyReady fuel bitset status) : ∃ k, k < fuel ∧ status k &&& bitset ≠ 0 := by
  obtain ⟨k, hk, hb⟩ := h 0
  exact ⟨k, hk, by simpa using hb⟩

/-- An enable command and its busy-wait, when the ready bit shows within the
fuel. -/
theorem enable_follows (en rdy fuel : Nat) (m : Machine)
    (h : ∃ k, k < fuel ∧ m.status k &&& rdy ≠ 0) :
    ∃ m1, efm32_statuswait fuel rdy (putreg32 en .CMU_OSCENCMD m) = .ok () m1
      ∧ Follows m m1 ∧ (∀ r, r ≠ .CMU_OSCENCMD → m1.regs r = m.regs r) := by
  obtain ⟨k', m1, heq, -, -, -, ht, hs, hg⟩ := enable_ok en rdy fuel m h
  refine ⟨m1, heq, ⟨?_, ?_, ⟨k' + 1, hs⟩, ⟨_, ht, enable_events_quiet _ _ _⟩⟩, ?_⟩
  · simp [hg, putreg32]
  · intro r x _ h2 hx
    simpa [hg, putreg32, h2] using hx
  · intro r hr
    simp [hg, putreg32, hr]

/-- `efm32_enable_leclocking` ORs the LE bit into `CMU_HFCORECLKEN0`. -/
theorem enable_leclocking_follows (c : Chip) (m : Machine) :
    Follows m (efm32_enable_leclocking c m)
      ∧ (efm32_enable_leclocking c m).regs .CMU_HFCORECLKEN0
          = m.regs .CMU_HFCORECLKEN0 ||| c.CMU_HFCORECLKEN0_LE
      ∧ (∀ r, r ≠ .CMU_HFCORECLKEN0 → (efm32_enable_leclocking c m).regs r = m.regs r)
      ∧ (efm32_enable_leclocking c m).status = m.status
      ∧ (efm32_enable_leclocking c m).trace
          = m.trace ++ [.read .CMU_HFCORECLKEN0 (m.regs .CMU_HFCORECLKEN0),
              .write .CMU_HFCORECLKEN0 (m.regs .CMU_HFCORECLKEN0 ||| c.CMU_HFCORECLKEN0_LE)] := by
  have hg := follows_getreg32 .CMU_HFCORECLKEN0 (by decide) m
  have hp := follows_putreg32_or .CMU_HFCORECLKEN0 (by decide) (by decide)
    c.CMU_HFCORECLKEN0_LE (getreg32 .CMU_HFCORECLKEN0 m).2
  refine ⟨hg.1.trans hp, ?_, ?_, rfl, ?_⟩
  · simp [efm32_enable_leclocking, putreg32, getreg32]
  · intro r hr
    simp [efm32_enable_leclocking, putreg32, getreg32, hr]
  · simp [efm32_enable_leclocking, putreg32, getreg32]

/-- `efm32_enable_hfle` only ORs bits into `CMU_CTRL` and `CMU_HFCORECLKDIV`. -/
theorem enable_hfle_follows (c : Chip) (f : Nat) (m : Machine) :
    Follows m (efm32_enable_hfle c f m) := by
  cases hh : c.CMU_CTRL_HFLE with
  | none => rw [enable_hfle_nop c f m (Or.inl hh)]; exact Follows.refl m
  | some hfle =>
    by_cases hf : f > c.CMU_MAX_FREQ_HFLE
    · have e : efm32_enable_hfle c f m
          = putreg32 ((putreg32 (m.regs .CMU_CTRL ||| hfle) .CMU_CTRL
                (getreg32 .CMU_CTRL m).2).regs .CMU_HFCORECLKDIV
              ||| c.CMU_HFCORECLKDIV_HFCORECLKLEDIV_DIV4) .CMU_HFCORECLKDIV
            (getreg32 .CMU_HFCORECLKDIV
              (putreg32 (m.regs .CMU_CTRL ||| hfle) .CMU_CTRL (getreg32 .CMU_CTRL m).2)).2 := by
        simp [efm32_enable_hfle, hh, hf, getreg32, putreg32]
      rw [e]
      exact (((follows_getreg32 .CMU_CTRL (by decide) m).1.trans
        (follows_putreg32_or .CMU_CTRL (by decide) (by decide) hfle _)).trans
        (follows_getreg32 .CMU_HFCORECLKDIV (by decide) _).1).trans
        (follows_putreg32_or .CMU_HFCORECLKDIV (by decide) (by decide) _ _)
    · rw [enable_hfle_nop c f m (Or.inr hf)]; exact Follows.refl m

/-- After its `switch` returns, `efm32_lfaclk_config` reads `CMU_LFCLKSEL`,
writes it back with the selection, and returns the local `lfaclk`. -/
theorem lfaclk_config_eq (c : Chip) (b : Board) (fuel sel : Nat) (u : Bool) (hf : Nat)
    (m : Machine) (sl : Nat × Option Nat) (m1 : Machine)
    (hsw : efm32_lfaclk_config_switch c b fuel sel u hf m = .ok sl m1) :
    efm32_lfaclk_config c b fuel sel u hf m
      = .ok sl.2 (putreg32 (lfaRegval c (m1.regs .CMU_LFCLKSEL) sl.1 u) .CMU_LFCLKSEL
          (getreg32 .CMU_LFCLKSEL m1).2) := by
  unfold efm32_lfaclk_config lfaRegval
  rw [hsw]
  simp only [Result.bind, getreg32_LFCLKSEL]

/-- After its `switch` returns, `efm32_lfbclk_config` reads `CMU_LFCLKSEL`,
writes it back with the selection, and returns the local `lfbclk`. -/
theorem lfbclk_config_eq (c : Chip) (b : Board) (fuel sel : Nat) (u : Bool) (hf : Nat)
    (m : Machine) (sl : Nat × Option Nat) (m1 : Machine)
    (hsw : efm32_lfbclk_config_switch c b fuel sel u hf m = .ok sl m1) :
    efm32_lfbclk_config c b fuel sel u hf m
      = .ok sl.2 (putreg32 (lfbRegval c (m1.regs .CMU_LFCLKSEL) sl.1 u) .CMU_LFCLKSEL
          (getreg32 .CMU_LFCLKSEL m1).2) := by
  unfold efm32_lfbclk_config lfbRegval
  rw [hsw]
  simp only [Result.bind, getreg32_LFCLKSEL]

/-- The read-modify-write of `CMU_LFCLKSEL`. -/
theorem lfclksel_update_follows (v : Nat) (m : Machine) :
    Follows m (putreg32 v .CMU_LFCLKSEL (getreg32 .CMU_LFCLKSEL m).2)
      ∧ ∀ r, r ≠ .CMU_LFCLKSEL →
          (putreg32 v .CMU_LFCLKSEL (getreg32 .CMU_LFCLKSEL m).2).regs r = m.regs r := by
  refine ⟨(follows_getreg32 .CMU_LFCLKSEL (by decide) m).1.trans
    (follows_putreg32_free .CMU_LFCLKSEL (Or.inl rfl) v _), ?_⟩
  intro r hr
  simp [putreg32, getreg32, hr]

/-- The body of the HFCORECLKLEDIV2 case shared by `efm32_lfaclk_config` and
`efm32_lfbclk_config`: LE clocking, HFLE if appropriate, then the HFXO enable
and its busy-wait. -/
theorem lediv2_body (c : Chip) (fuel hf : Nat) (m : Machine)
    (hr : ∃ k, k < fuel ∧ m.status k &&& c.CMU_STATUS_HFXORDY ≠ 0) :
    ∃ m3, efm32_enable_hfxo c fuel (efm32_enable_hfle c hf (efm32_enable_leclocking c m))
        = .ok () m3
      ∧ Follows m m3
      ∧ m3.regs .CMU_HFCORECLKEN0 = m.regs .CMU_HFCORECLKEN0 ||| c.CMU_HFCORECLKEN0_LE
      ∧ (∃ rest, m3.trace = m.trace ++ [.read .CMU_HFCORECLKEN0 (m.regs .CMU_HFCORECLKEN0),
          .write .CMU_HFCORECLKEN0 (m.regs .CMU_HFCORECLKEN0 ||| c.CMU_HFCORECLKEN0_LE)]
          ++ rest)
      ∧ (∀ hfle, c.CMU_CTRL_HFLE = some hfle → hf > c.CMU_MAX_FREQ_HFLE →
          m3.regs .CMU_CTRL = m.regs .CMU_CTRL ||| hfle
          ∧ m3.regs .CMU_HFCORECLKDIV
              = m.regs .CMU_HFCORECLKDIV ||| c.CMU_HFCORECLKDIV_HFCORECLKLEDIV_DIV4) := by
  obtain ⟨fa, ea, oa, sa, ta⟩ := enable_leclocking_follows c m
  have fb := enable_hfle_follows c hf (efm32_enable_leclocking c m)
  obtain ⟨sb, ob⟩ := enable_hfle_frame c hf (efm32_enable_leclocking c m)
  obtain ⟨m3, heq, f3, o3⟩ := enable_follows c.CMU_OSCENCMD_HFXOEN c.CMU_STATUS_HFXORDY fuel
    (efm32_enable_hfle c hf (efm32_enable_leclocking c m)) (by rw [sb, sa]; exact hr)
  refine ⟨m3, heq, fa.trans (fb.trans f3), ?_, ?_, ?_⟩
  · rw [o3 _ (by decide), ob _ (by decide) (by decide), ea]
  · obtain ⟨-, -, -, ⟨post, hp, -⟩⟩ := fb.trans f3
    exact ⟨post, by rw [hp, ta]⟩
  · intro hfle hh hgt
    rw [o3 _ (by decide), o3 _ (by decide), enable_hfle_above c hfle hf _ hh hgt]
    simp [oa]

/-- The HFCORECLKLEDIV2 case of `efm32_lfaclk_config` without ULFRCO. -/
theorem lfaclk_config_lediv2 (c : Chip) (hl : c.lfaLabels.Nodup) (b : Board) (fuel hf : Nat)
    (m : Machine) (hr : ∃ k, k < fuel ∧ m.status k &&& c.CMU_STATUS_HFXORDY ≠ 0) :
    ∃ m', efm32_lfaclk_config c b fuel c._CMU_LFCLKSEL_LFA_HFCORECLKLEDIV2 false hf m
        = .ok (some (hf / 2)) m'
      ∧ Follows m m'
      ∧ m'.regs .CMU_HFCORECLKEN0 = m.regs .CMU_HFCORECLKEN0 ||| c.CMU_HFCORECLKEN0_LE
      ∧ (∃ rest, m'.trace = m.trace ++ [.read .CMU_HFCORECLKEN0 (m.regs .CMU_HFCORECLKEN0),
          .write .CMU_HFCORECLKEN0 (m.regs .CMU_HFCORECLKEN0 ||| c.CMU_HFCORECLKEN0_LE)]
          ++ rest)
      ∧ (∀ hfle, c.CMU_CTRL_HFLE = some hfle → hf > c.CMU_MAX_FREQ_HFLE →
          m'.regs .CMU_CTRL = m.regs .CMU_CTRL ||| hfle
          ∧ m'.regs .CMU_HFCORECLKDIV
              = m.regs .CMU_HFCORECLKDIV ||| c.CMU_HFCORECLKDIV_HFCORECLKLEDIV_DIV4) := by
  simp only [Chip.lfaLabels, List.nodup_cons, List.mem_cons, List.mem_singleton,
    List.not_mem_nil, not_or, List.nodup_nil, or_false, not_false_eq_true, and_true] at hl
  obtain ⟨-, ⟨-, h24⟩, h34⟩ := hl
  obtain ⟨m3, heq, f3, e3, ⟨rest, t3⟩, h3⟩ := lediv2_body c fuel hf m hr
  have hsw : efm32_lfaclk_config_switch c b fuel c._CMU_LFCLKSEL_LFA_HFCORECLKLEDIV2 false hf m
      = .ok (c._CMU_LFCLKSEL_LFA_HFCORECLKLEDIV2, some (hf / 2)) m3 := by
    unfold efm32_lfaclk_config_switch
    simp only [Bool.false_eq_true, if_false, if_neg (Ne.symm h24), if_neg (Ne.symm h34), if_true]
    rw [heq]
    simp [Result.bind, Nat.shiftRight_eq_div_pow]
  obtain ⟨fu, ou⟩ := lfclksel_update_follows
    (lfaRegval c (m3.regs .CMU_LFCLKSEL) c._CMU_LFCLKSEL_LFA_HFCORECLKLEDIV2 false) m3
  refine ⟨_, lfaclk_config_eq c b fuel _ false hf m _ m3 hsw, f3.trans fu, ?_, ?_, ?_⟩
  · rw [ou _ (by decide), e3]
  · obtain ⟨-, -, -, ⟨post, hp, -⟩⟩ := fu
    exact ⟨rest ++ post, by rw [hp, t3, List.append_assoc]⟩
  · intro hfle hh hgt
    rw [ou _ (by decide), ou _ (by decide)]
    exact h3 hfle hh hgt

/-- The HFCORECLKLEDIV2 case of `efm32_lfbclk_config` without ULFRCO. -/
theorem lfbclk_config_lediv2 (c : Chip) (hl : c.lfbLabels.Nodup) (b : Board) (fuel hf : Nat)
    (m : Machine) (hr : ∃ k, k < fuel ∧ m.status k &&& c.CMU_STATUS_HFXORDY ≠ 0) :
    ∃ m', efm32_lfbclk_config c b fuel c._CMU_LFCLKSEL_LFB_HFCORECLKLEDIV2 false hf m
        = .ok (some (hf / 2)) m'
      ∧ Follows m m'
      ∧ m'.regs .CMU_HFCORECLKEN0 = m.regs .CMU_HFCORECLKEN0 ||| c.CMU_HFCORECLKEN0_LE
      ∧ (∃ rest, m'.trace = m.trace ++ [.read .CMU_HFCORECLKEN0 (m.regs .CMU_HFCORECLKEN0),
          .write .CMU_HFCORECLKEN0 (m.regs .CMU_HFCORECLKEN0 ||| c.CMU_HFCORECLKEN0_LE)]
          ++ rest) := by
  simp only [Chip.lfbLabels, List.nodup_cons, List.mem_cons, List.mem_singleton,
    List.not_mem_nil, not_or, List.nodup_nil, or_false, not_false_eq_true, and_true] at hl
  obtain ⟨-, ⟨-, h24⟩, h34⟩ := hl
  obtain ⟨m3, heq, f3, e3, ⟨rest, t3⟩, -⟩ := lediv2_body c fuel hf m hr
  have hsw : efm32_lfbclk_config_switch c b fuel c._CMU_LFCLKSEL_LFB_HFCORECLKLEDIV2 false hf m
      = .ok (c._CMU_LFCLKSEL_LFB_HFCORECLKLEDIV2, some (hf / 2)) m3 := by
    unfold efm32_lfbclk_config_switch
    simp only [Bool.false_eq_true, if_false, if_neg (Ne.symm h24), if_neg (Ne.symm h34), if_true]
    rw [heq]
    simp [Result.bind, Nat.shiftRight_eq_div_pow]
  obtain ⟨fu, ou⟩ := lfclksel_update_follows
    (lfbRegval c (m3.regs .CMU_LFCLKSEL) c._CMU_LFCLKSEL_LFB_HFCORECLKLEDIV2 false) m3
  refine ⟨_, lfbclk_config_eq c b fuel _ false hf m _ m3 hsw, f3.trans fu, ?_, ?_⟩
  · rw [ou _ (by decide), e3]
  · obtain ⟨-, -, -, ⟨post, hp, -⟩⟩ := fu
    exact ⟨rest ++ post, by rw [hp, t3, List.append_assoc]⟩

/-- C7: with the half-rate core-clock tap selected and no ULFRCO,
`efm32_lfaclk_config` and `efm32_lfbclk_config` (given that the HFXO ready bit
shows within the fuel) return the core frequency divided by two, having begun
with the read of `CMU_HFCORECLKEN0` and the write of that value with the LE
bit ORed in; at return the register holds exactly that value. -/
theorem lfclk_config_hfcoreclklediv2 (c : Chip) (hla : c.lfaLabels.Nodup)
    (hlb : c.lfbLabels.Nodup) (b : Board) (fuel hfcoreclk : Nat) (m : Machine)
    (hr : ∃ k, k < fuel ∧ m.status k &&& c.CMU_STATUS_HFXORDY ≠ 0) :
    (∃ m', efm32_lfaclk_config c b fuel c._CMU_LFCLKSEL_LFA_HFCORECLKLEDIV2 false hfcoreclk m
        = .ok (some (hfcoreclk / 2)) m'
      ∧ m'.regs .CMU_HFCORECLKEN0 = m.regs .CMU_HFCORECLKEN0 ||| c.CMU_HFCORECLKEN0_LE
      ∧ ∃ rest, m'.trace = m.trace ++ [.read .CMU_HFCORECLKEN0 (m.regs .CMU_HFCORECLKEN0),
          .write .CMU_HFCORECLKEN0 (m.regs .CMU_HFCORECLKEN0 ||| c.CMU_HFCORECLKEN0_LE)]
          ++ rest)
    ∧ (∃ m', efm32_lfbclk_config c b fuel c._CMU_LFCLKSEL_LFB_HFCORECLKLEDIV2 false hfcoreclk m
        = .ok (some (hfcoreclk / 2)) m'
      ∧ m'.regs .CMU_HFCORECLKEN0 = m.regs .CMU_HFCORECLKEN0 ||| c.CMU_HFCORECLKEN0_LE
      ∧ ∃ rest, m'.trace = m.trace ++ [.read .CMU_HFCORECLKEN0 (m.regs .CMU_HFCORECLKEN0),
          .write .CMU_HFCORECLKEN0 (m.regs .CMU_HFCORECLKEN0 ||| c.CMU_HFCORECLKEN0_LE)]
          ++ rest) := by
  obtain ⟨ma, ea, -, ra, ta, -⟩ := lfaclk_config_lediv2 c hla b fuel hfcoreclk m hr
  obtain ⟨mb, eb, -, rb, tb⟩ := lfbclk_config_lediv2 c hlb b fuel hfcoreclk m hr
  exact ⟨⟨ma, ea, ra, ta⟩, ⟨mb, eb, rb, tb⟩⟩

/-- Witness for `lfclk_config_hfcoreclklediv2`: Giant Gecko at 48 MHz, HFXO
ready at the second read. -/
theorem lfclk_config_hfcoreclklediv2_witness :
    (∃ m', efm32_lfaclk_config efm32gg board48 4 efm32gg._CMU_LFCLKSEL_LFA_HFCORECLKLEDIV2 false
          48000000 (machineWith 0 fun k => if k < 1 then 0 else 0x8)
        = .ok (some (48000000 / 2)) m'
      ∧ m'.regs .CMU_HFCORECLKEN0
          = (machineWith 0 fun k => if k < 1 then 0 else 0x8).regs .CMU_HFCORECLKEN0
            ||| efm32gg.CMU_HFCORECLKEN0_LE
      ∧ ∃ rest, m'.trace = (machineWith 0 fun k => if k < 1 then 0 else 0x8).trace
          ++ [.read .CMU_HFCORECLKEN0
                ((machineWith 0 fun k => if k < 1 then 0 else 0x8).regs .CMU_HFCORECLKEN0),
              .write .CMU_HFCORECLKEN0
                ((machineWith 0 fun k => if k < 1 then 0 else 0x8).regs .CMU_HFCORECLKEN0
                  ||| efm32gg.CMU_HFCORECLKEN0_LE)]
          ++ rest) :=
  (lfclk_config_hfcoreclklediv2 efm32gg (by decide) (by decide) board48 4 48000000
    (machineWith 0 fun k => if k < 1 then 0 else 0x8) ⟨1, by decide, by decide⟩).1

/-- Whatever the selection, `efm32_lfbclk_config` returns once the ready bits
of the oscillators it may wait for show within the fuel, and it neither
touches `MSC_READCTRL` or `CMU_CMD` nor clears a bit of the clock-enable and
control registers. -/
theorem lfbclk_config_follows (c : Chip) (b : Board) (fuel sel : Nat) (u : Bool) (hf : Nat)
    (m : Machine)
    (h1 : ∃ k, k < fuel ∧ m.status k &&& c.CMU_STATUS_LFRCORDY ≠ 0)
    (h2 : ∃ k, k < fuel ∧ m.status k &&& c.CMU_STATUS_LFXORDY ≠ 0)
    (h3 : ∃ k, k < fuel ∧ m.status k &&& c.CMU_STATUS_HFXORDY ≠ 0) :
    ∃ v m', efm32_lfbclk_config c b fuel sel u hf m = .ok v m' ∧ Follows m m' := by
  have hsw : ∃ sl m1, efm32_lfbclk_config_switch c b fuel sel u hf m = .ok sl m1
      ∧ Follows m m1 := by
    unfold efm32_lfbclk_config_switch
    split_ifs
    · exact ⟨_, _, rfl, Follows.refl m⟩
    · obtain ⟨m1, heq, f1, -⟩ := enable_follows c.CMU_OSCENCMD_LFRCOEN _ fuel m h1
      unfold efm32_enable_lfrco
      rw [heq]
      exact ⟨_, _, rfl, f1⟩
    · obtain ⟨m1, heq, f1, -⟩ := enable_follows c.CMU_OSCENCMD_LFRCOEN _ fuel m h2
      unfold efm32_enable_lfxo
      rw [heq]
      exact ⟨_, _, rfl, f1⟩
    · obtain ⟨m3, heq, f3, -⟩ := lediv2_body c fuel hf m h3
      simp only [heq]
      exact ⟨_, _, rfl, f3⟩
    · exact ⟨_, _, rfl, Follows.refl m⟩
  obtain ⟨sl, m1, heq, f1⟩ := hsw
  exact ⟨_, _, lfbclk_config_eq c b fuel sel u hf m sl m1 heq,
    f1.trans (lfclksel_update_follows _ m1).1⟩

/-- `efm32_gpioclock` ORs the GPIO bit into `CMU_HFPERCLKEN0`. -/
theorem gpioclock_follows (c : Chip) (m : Machine) : Follows m (efm32_gpioclock c m) :=
  (follows_getreg32 .CMU_HFPERCLKEN0 (by decide) m).1.trans
    (follows_putreg32_or .CMU_HFPERCLKEN0 (by decide) (by decide) _ _)

/-- The busy-wait log ends with the read that showed the bit. -/
theorem pollReads_last (status : Nat → Nat) (k : Nat) :
    pollReads status k
      = (List.range k).map (fun j => Event.read .CMU_STATUS (status j))
        ++ [Event.read .CMU_STATUS (status k)] := by
  simp [pollReads, List.range_succ]

/-- The order of the accesses of `efm32_hfclk_config` for a supported selector:
a prefix without writes to `MSC_READCTRL`, `CMU_CMD` or `CMU_OSCENCMD`; the
enable command; status reads, the last showing the selected oscillator's
ready bit; the maximum wait states; the switch command; the final wait
states. -/
theorem hfclk_config_order (c : Chip) (hc : c.WaitStatesWF) (hl : c.hfclkSelectors.Nodup)
    (b : Board) (fuel sel hfclkdiv : Nat) (m : Machine) (hsel : sel ∈ c.hfclkSelectors)
    (hf : hfclkFrequency c b sel ≤ c.maxFreq)
    (hr : ∃ k, k < fuel ∧ m.status k &&& hfclkReadyBit c sel ≠ 0) :
    ∃ pre0 polls s vmax vmin m',
      efm32_hfclk_config c b fuel sel hfclkdiv m = .ok (hfclkFrequency c b sel) m'
      ∧ m'.trace = m.trace ++ pre0
          ++ [.write .CMU_OSCENCMD (hfclkEnableWritten c sel)] ++ polls ++ [.read .CMU_STATUS s]
          ++ [.read .MSC_READCTRL (m.regs .MSC_READCTRL), .write .MSC_READCTRL vmax,
              .write .CMU_CMD (shl32 sel c._CMU_CMD_HFCLKSEL_SHIFT),
              .read .MSC_READCTRL vmax, .write .MSC_READCTRL vmin]
      ∧ s &&& hfclkReadyBit c sel ≠ 0
      ∧ ∀ e ∈ pre0 ++ polls, e.isWriteTo .MSC_READCTRL = false ∧ e.isWriteTo .CMU_CMD = false
          ∧ e.isWriteTo .CMU_OSCENCMD = false := by
  obtain ⟨pre0, k, m1, hsw, ht1, hset, -, hg1, hq0⟩ :=
    hfclk_config_switch_spec c b fuel sel m hl hsel hr
  obtain ⟨vmax, vmin, m', htail, ht', -, -, -, -, -⟩ :=
    hfclk_config_tail c hc (shl32 sel c._CMU_CMD_HFCLKSEL_SHIFT) (hfclkFrequency c b sel) m1 hf
  rw [hg1] at ht'
  refine ⟨pre0, (List.range k).map (fun j => Event.read .CMU_STATUS (m.status j)), m.status k,
    vmax, vmin, m', ?_, ?_, hset, ?_⟩
  · unfold efm32_hfclk_config
    rw [hsw]
    simp only [Result.bind]
    rw [htail]
  · rw [ht', ht1, pollReads_last]
    simp only [List.append_assoc, List.singleton_append, List.cons_append, List.nil_append]
  · intro e he
    rcases List.mem_append.1 he with he | he
    · exact hq0 e he
    · simp only [List.mem_map] at he
      obtain ⟨j, -, rfl⟩ := he
      exact ⟨rfl, rfl, rfl⟩

/-- The HFXO case of the `switch` of `efm32_hfclk_config`. -/
theorem hfclk_config_switch_hfxo (c : Chip) (b : Board) (fuel : Nat) (m : Machine)
    (hl : c.hfclkSelectors.Nodup)
    (hr : ∃ k, k < fuel ∧ m.status k &&& c.CMU_STATUS_HFXORDY ≠ 0) :
    ∃ pre0 k m1, efm32_hfclk_config_switch c b fuel c._CMU_CMD_HFCLKSEL_HFXO m
        = .ok (some b.BOARD_HFXO_FREQUENCY) m1
      ∧ m1.trace = m.trace ++ pre0
          ++ Event.write .CMU_OSCENCMD c.CMU_OSCENCMD_HFXOEN :: pollReads m.status k
      ∧ m.status k &&& c.CMU_STATUS_HFXORDY ≠ 0
      ∧ m1.status = (fun i => m.status (i + (k + 1)))
      ∧ m1.regs .MSC_READCTRL = m.regs .MSC_READCTRL
      ∧ ∀ e ∈ pre0, e.isWriteTo .MSC_READCTRL = false ∧ e.isWriteTo .CMU_CMD = false := by
  have hl' := hl
  simp only [Chip.hfclkSelectors, List.nodup_cons, List.mem_cons, List.mem_singleton,
    List.not_mem_nil, not_or, List.nodup_nil, or_false, not_false_eq_true, and_true] at hl'
  obtain ⟨⟨-, -, h14⟩, ⟨-, h24⟩, h34⟩ := hl'
  have e1 : hfclkReadyBit c c._CMU_CMD_HFCLKSEL_HFXO = c.CMU_STATUS_HFXORDY := by
    simp [hfclkReadyBit, Ne.symm h14, Ne.symm h24, Ne.symm h34]
  have e2 : hfclkFrequency c b c._CMU_CMD_HFCLKSEL_HFXO = b.BOARD_HFXO_FREQUENCY := by
    simp [hfclkFrequency, Ne.symm h14, Ne.symm h24, Ne.symm h34]
  have e3 : hfclkEnableWritten c c._CMU_CMD_HFCLKSEL_HFXO = c.CMU_OSCENCMD_HFXOEN := by
    simp [hfclkEnableWritten, Ne.symm h14, Ne.symm h24, Ne.symm h34]
  obtain ⟨pre0, k, m1, hsw, ht, hset, hs, hg, hq⟩ :=
    hfclk_config_switch_spec c b fuel c._CMU_CMD_HFCLKSEL_HFXO m hl
      (by simp [Chip.hfclkSelectors]) (by rw [e1]; exact hr)
  rw [e1] at hset
  rw [e2] at hsw
  rw [e3] at ht
  exact ⟨pre0, k, m1, hsw, ht, hset, hs, hg, fun e he => ⟨(hq e he).1, (hq e he).2.1⟩⟩

/-- C10: end to end.  Board: HFCLK from the HFXO at 48 MHz, LFACLK from the
half-rate core-clock tap, no ULFRCO for LFA; 48 MHz is a supported frequency
and every polled ready bit eventually reads set.  Then `efm32_clockconfig`
returns, and its access log reads: accesses that write neither `MSC_READCTRL`
nor `CMU_CMD`; the HFXO enable command; status reads, the last one showing
HFXO ready; the write of the maximum wait-state mode; the switch command; the
write of the minimal wait-state mode for 48 MHz; further accesses that write
neither `MSC_READCTRL` nor `CMU_CMD`.  At return `MSC_READCTRL` holds that
minimal mode, the LE bit of `CMU_HFCORECLKEN0` is set and, on a variant with
the HFLE bit when 48 MHz is above `CMU_MAX_FREQ_HFLE`, the HFLE bit of
`CMU_CTRL` and the DIV4 bit of `CMU_HFCORECLKDIV` are set. -/
theorem clockconfig_hfxo_48mhz (c : Chip) (hc : c.WaitStatesWF) (hl : c.hfclkSelectors.Nodup)
    (hla : c.lfaLabels.Nodup) (b : Board) (fuel : Nat) (m : Machine)
    (hsel : b.BOARD_HFCLKSEL = c._CMU_CMD_HFCLKSEL_HFXO)
    (hfreq : b.BOARD_HFXO_FREQUENCY = 48000000)
    (hlfa : b.BOARD_LFACLKSEL = c._CMU_LFCLKSEL_LFA_HFCORECLKLEDIV2)
    (hulf : b.BOARD_LFACLK_ULFRCO = false)
    (h48 : 48000000 ≤ c.maxFreq)
    (hr1 : EventuallyReady fuel c.CMU_STATUS_HFXORDY m.status)
    (hr2 : EventuallyReady fuel c.CMU_STATUS_LFRCORDY m.status)
    (hr3 : EventuallyReady fuel c.CMU_STATUS_LFXORDY m.status) :
    ∃ pre polls s vmax vmin n post m',
      efm32_clockconfig c b fuel m = .ok () m'
      ∧ m'.trace = m.trace ++ pre ++ [.write .CMU_OSCENCMD c.CMU_OSCENCMD_HFXOEN] ++ polls
          ++ [.read .CMU_STATUS s]
          ++ [.read .MSC_READCTRL (m.regs .MSC_READCTRL), .write .MSC_READCTRL vmax,
              .write .CMU_CMD (shl32 c._CMU_CMD_HFCLKSEL_HFXO c._CMU_CMD_HFCLKSEL_SHIFT),
              .read .MSC_READCTRL vmax, .write .MSC_READCTRL vmin]
          ++ post
      ∧ s &&& c.CMU_STATUS_HFXORDY ≠ 0
      ∧ (∀ e ∈ pre ++ polls ++ post,
          e.isWriteTo .MSC_READCTRL = false ∧ e.isWriteTo .CMU_CMD = false)
      ∧ vmax &&& c._MSC_READCTRL_MODE_MASK
          = (if isScbtpMode c (m.regs .MSC_READCTRL &&& c._MSC_READCTRL_MODE_MASK)
              then c.MSC_READCTRL_MODE_WSMAXSCBTP else c.MSC_READCTRL_MODE_WSMAX)
      ∧ m'.regs .MSC_READCTRL = vmin
      ∧ c.waitStates (vmin &&& c._MSC_READCTRL_MODE_MASK) = some n
      ∧ c.IsMinimalWaitStates 48000000 n
      ∧ m'.regs .CMU_HFCORECLKEN0 &&& c.CMU_HFCORECLKEN0_LE = c.CMU_HFCORECLKEN0_LE
      ∧ (∀ hfle, c.CMU_CTRL_HFLE = some hfle → 48000000 > c.CMU_MAX_FREQ_HFLE →
          m'.regs .CMU_CTRL &&& hfle = hfle
          ∧ m'.regs .CMU_HFCORECLKDIV &&& c.CMU_HFCORECLKDIV_HFCORECLKLEDIV_DIV4
              = c.CMU_HFCORECLKDIV_HFCORECLKLEDIV_DIV4) := by
  -- HFCLK
  obtain ⟨pre0, k, m1, hsw, ht1, hset, hs1, hg1, hq0⟩ :=
    hfclk_config_switch_hfxo c b fuel m hl hr1.now
  have hf : b.BOARD_HFXO_FREQUENCY ≤ c.maxFreq := by rw [hfreq]; exact h48
  obtain ⟨vmax, vmin, m2, htail, ht2, hs2, -, hreg2, hvmax, hvmin⟩ :=
    hfclk_config_tail c hc (shl32 c._CMU_CMD_HFCLKSEL_HFXO c._CMU_CMD_HFCLKSEL_SHIFT)
      b.BOARD_HFXO_FREQUENCY m1 hf
  obtain ⟨-, -, hws⟩ := selectedMode_spec c hc b.BOARD_HFXO_FREQUENCY
    (isScbtpMode c (m.regs .MSC_READCTRL &&& c._MSC_READCTRL_MODE_MASK)) hf
  rw [hg1] at ht2 hvmax hvmin
  rw [hfreq] at hvmin hws
  have hhf : efm32_hfclk_config c b fuel c._CMU_CMD_HFCLKSEL_HFXO b.BOARD_HFCLKDIV m
      = .ok b.BOARD_HFXO_FREQUENCY m2 := by
    unfold efm32_hfclk_config
    rw [hsw]
    simp only [Result.bind]
    rw [htail]
  have hst2 : m2.status = fun i => m.status (i + (k + 1)) := by rw [hs2, hs1]
  have e1 : EventuallyReady fuel c.CMU_STATUS_HFXORDY m2.status := by
    rw [hst2]; exact hr1.shift _
  have e2 : EventuallyReady fuel c.CMU_STATUS_LFRCORDY m2.status := by
    rw [hst2]; exact hr2.shift _
  have e3 : EventuallyReady fuel c.CMU_STATUS_LFXORDY m2.status := by
    rw [hst2]; exact hr3.shift _
  -- LFACLK
  obtain ⟨m3, hlfaeq, f23, hen3, -, hfle3⟩ :=
    lfaclk_config_lediv2 c hla b fuel b.BOARD_HFXO_FREQUENCY m2 e1.now
  -- LFBCLK
  obtain ⟨v4, m4, hlfbeq, f34⟩ := lfbclk_config_follows c b fuel b.BOARD_LFBCLKSEL
    (BOARD_LFB_ULFCO_ENABLE b) b.BOARD_HFXO_FREQUENCY m3 (e2.follows f23).now
    (e3.follows f23).now (e1.follows f23).now
  -- GPIO
  have f45 := gpioclock_follows c m4
  have f35 := f34.trans f45
  have f25 := f23.trans f35
  obtain ⟨hrc, -, -, ⟨post, htp, hqp⟩⟩ := f25
  obtain ⟨-, hkeep, -, -⟩ := f35
  refine ⟨pre0, (List.range k).map (fun j => Event.read .CMU_STATUS (m.status j)), m.status k,
    vmax, vmin,
    (if 48000000 > c.CMU_MAX_FREQ_1WS then 2 else if 48000000 > c.CMU_MAX_FREQ_0WS then 1 else 0),
    post, efm32_gpioclock c m4, ?_, ?_, hset, ?_, hvmax, ?_, ?_, ?_, ?_, ?_⟩
  · unfold efm32_clockconfig
    rw [hsel, hhf]
    simp only [Result.bind, efm32_hfcoreclk_config, BOARD_LFA_ULFCO_ENABLE, hlfa, hulf]
    rw [hlfaeq]
    simp only [hlfbeq]
  · rw [htp, ht2, ht1, pollReads_last]
    simp only [List.append_assoc, List.singleton_append, List.cons_append, List.nil_append]
  · intro e he
    rcases List.mem_append.1 he with he | he
    · rcases List.mem_append.1 he with he | he
      · exact hq0 e he
      · simp only [List.mem_map] at he
        obtain ⟨j, -, rfl⟩ := he
        exact ⟨rfl, rfl⟩
    · exact hqp e he
  · rw [hrc, hreg2]
  · rw [hvmin]; exact hws
  · exact minWaitStates_minimal c hc 48000000 h48
  · apply hkeep _ _ (by decide) (by decide)
    rw [hen3]
    exact or_and_self _ _
  · intro hfle hh hgt
    obtain ⟨hc3, hd3⟩ := hfle3 hfle hh (by rw [hfreq]; exact hgt)
    constructor
    · apply hkeep _ _ (by decide) (by decide)
      rw [hc3]
      exact or_and_self _ _
    · apply hkeep _ _ (by decide) (by decide)
      rw [hd3]
      exact or_and_self _ _

/-- Witness for `clockconfig_hfxo_48mhz`: Giant Gecko with the 48 MHz board,
initial mode WS1SCBTP, every status bit reading set. -/
theorem clockconfig_hfxo_48mhz_witness :
    ∃ pre polls s vmax vmin n post m',
      efm32_clockconfig efm32gg board48 4 (machineWith 3 fun _ => 0xFFFFFFFF) = .ok () m'
      ∧ m'.trace = (machineWith 3 fun _ => 0xFFFFFFFF).trace ++ pre
          ++ [.write .CMU_OSCENCMD efm32gg.CMU_OSCENCMD_HFXOEN] ++ polls
          ++ [.read .CMU_STATUS s]
          ++ [.read .MSC_READCTRL ((machineWith 3 fun _ => 0xFFFFFFFF).regs .MSC_READCTRL),
              .write .MSC_READCTRL vmax,
              .write .CMU_CMD
                (shl32 efm32gg._CMU_CMD_HFCLKSEL_HFXO efm32gg._CMU_CMD_HFCLKSEL_SHIFT),
              .read .MSC_READCTRL vmax, .write .MSC_READCTRL vmin]
          ++ post
      ∧ s &&& efm32gg.CMU_STATUS_HFXORDY ≠ 0
      ∧ (∀ e ∈ pre ++ polls ++ post,
          e.isWriteTo .MSC_READCTRL = false ∧ e.isWriteTo .CMU_CMD = false)
      ∧ vmax &&& efm32gg._MSC_READCTRL_MODE_MASK
          = (if isScbtpMode efm32gg
                ((machineWith 3 fun _ => 0xFFFFFFFF).regs .MSC_READCTRL
                  &&& efm32gg._MSC_READCTRL_MODE_MASK)
              then efm32gg.MSC_READCTRL_MODE_WSMAXSCBTP else efm32gg.MSC_READCTRL_MODE_WSMAX)
      ∧ m'.regs .MSC_READCTRL = vmin
      ∧ efm32gg.waitStates (vmin &&& efm32gg._MSC_READCTRL_MODE_MASK) = some n
      ∧ efm32gg.IsMinimalWaitStates 48000000 n
      ∧ m'.regs .CMU_HFCORECLKEN0 &&& efm32gg.CMU_HFCORECLKEN0_LE = efm32gg.CMU_HFCORECLKEN0_LE
      ∧ (∀ hfle, efm32gg.CMU_CTRL_HFLE = some hfle → 48000000 > efm32gg.CMU_MAX_FREQ_HFLE →
          m'.regs .CMU_CTRL &&& hfle = hfle
          ∧ m'.regs .CMU_HFCORECLKDIV &&& efm32gg.CMU_HFCORECLKDIV_HFCORECLKLEDIV_DIV4
              = efm32gg.CMU_HFCORECLKDIV_HFCORECLKLEDIV_DIV4) :=
  clockconfig_hfxo_48mhz efm32gg (by decide) (by decide) (by decide) board48 4
    (machineWith 3 fun _ => 0xFFFFFFFF) rfl rfl rfl rfl (by decide)
    (fun _ => ⟨0, by decide, show 0xFFFFFFFF &&& efm32gg.CMU_STATUS_HFXORDY ≠ 0 by decide⟩)
    (fun _ => ⟨0, by decide, show 0xFFFFFFFF &&& efm32gg.CMU_STATUS_LFRCORDY ≠ 0 by decide⟩)
    (fun _ => ⟨0, by decide, show 0xFFFFFFFF &&& efm32gg.CMU_STATUS_LFXORDY ≠ 0 by decide⟩)

theorem Result.isOk_iff {α : Type} (r : Result α) :
    r.isOk = true ↔ ∃ v m, r = .ok v m := by
  cases r <;> simp [Result.isOk]

/-- A sequence returned normally only if its first part did. -/
theorem Result.bind_eq_ok {α β : Type} (r : Result α) (f : α → Machine → Result β) (v : β)
    (m' : Machine) (h : r.bind f = .ok v m') : ∃ a m1, r = .ok a m1 ∧ f a m1 = .ok v m' := by
  cases r with
  | ok a m1 => exact ⟨a, m1, rfl, h⟩
  | panic m1 => simp [Result.bind] at h
  | hang m1 => simp [Result.bind] at h
  | undef m1 => simp [Result.bind] at h

/-- A busy-wait that returns has changed no register. -/
theorem statuswait_regs (fuel bitset : Nat) (m m' : Machine)
    (h : efm32_statuswait fuel bitset m = .ok () m') : m'.regs = m.regs := by
  induction fuel generalizing m with
  | zero => simp [efm32_statuswait] at h
  | succ n ih =>
    unfold efm32_statuswait at h
    rw [getreg32_STATUS] at h
    by_cases h0 : m.status 0 &&& bitset = 0
    · simp only [h0, if_true] at h
      have e := ih _ h
      simpa using e
    · simp only [h0, if_false] at h
      cases h
      rfl

/-- An enable command and its busy-wait, when they return, have changed no
register but `CMU_OSCENCMD`. -/
theorem enable_regs (en rdy fuel : Nat) (m m' : Machine)
    (h : efm32_statuswait fuel rdy (putreg32 en .CMU_OSCENCMD m) = .ok () m') :
    ∀ r, r ≠ .CMU_OSCENCMD → m'.regs r = m.regs r := by
  intro r hr
  rw [statuswait_regs _ _ _ _ h]
  simp [putreg32, hr]

/-- The HFLE block of the HFXO case writes only `CMU_CTRL` and
`CMU_HFCORECLKDIV`. -/
theorem hfclk_config_hfle_regs (c : Chip) (b : Board) (m : Machine) :
    ∀ r, r ≠ .CMU_CTRL → r ≠ .CMU_HFCORECLKDIV →
      (efm32_hfclk_config_hfle c b m).regs r = m.regs r := by
  intro r h1 h2
  unfold efm32_hfclk_config_hfle
  cases c.CMU_CTRL_HFLE with
  | none => rfl
  | some hfle =>
    simp only [getreg32, putreg32]
    split_ifs <;> simp [h1, h2]

/-- When the `switch` of `efm32_hfclk_config` returns, it has changed no
register but `CMU_OSCENCMD`, `CMU_CTRL` and `CMU_HFCORECLKDIV`. -/
theorem hfclk_config_switch_regs (c : Chip) (b : Board) (fuel sel : Nat) (m : Machine)
    (fr : Option Nat) (m1 : Machine)
    (h : efm32_hfclk_config_switch c b fuel sel m = .ok fr m1) :
    ∀ r, r ≠ .CMU_OSCENCMD → r ≠ .CMU_CTRL → r ≠ .CMU_HFCORECLKDIV →
      m1.regs r = m.regs r := by
  intro r h1 h2 h3
  unfold efm32_hfclk_config_switch at h
  split_ifs at h
  · obtain ⟨_, m2, he, hk⟩ := Result.bind_eq_ok _ _ _ _ h
    cases hk
    exact enable_regs _ _ _ _ _ he r h1
  · obtain ⟨_, m2, he, hk⟩ := Result.bind_eq_ok _ _ _ _ h
    cases hk
    exact enable_regs _ _ _ _ _ he r h1
  · obtain ⟨_, m2, he, hk⟩ := Result.bind_eq_ok _ _ _ _ h
    cases hk
    exact enable_regs _ _ _ _ _ he r h1
  · obtain ⟨_, m2, he, hk⟩ := Result.bind_eq_ok _ _ _ _ h
    cases hk
    rw [enable_regs _ _ _ _ _ he r h1]
    exact hfclk_config_hfle_regs c b m r h2 h3
  · cases h
    rfl

/-- When `efm32_setwaitstates` returns, it has changed no register but
`MSC_READCTRL`. -/
theorem setwaitstates_regs (c : Chip) (f : Nat) (m m' : Machine)
    (h : efm32_setwaitstates c f m = .ok () m') :
    ∀ r, r ≠ .MSC_READCTRL → m'.regs r = m.regs r := by
  intro r hr
  unfold efm32_setwaitstates at h
  rw [getreg32_READCTRL] at h
  cases hw : c.MSC_READCTRL_MODE_WS2 <;> simp only [hw] at h <;> split_ifs at h <;>
    cases h <;> simp [putreg32, hr]

/-- When `efm32_hfclk_config` returns, it has changed no register but
`CMU_OSCENCMD`, `CMU_CTRL`, `CMU_HFCORECLKDIV`, `MSC_READCTRL` and `CMU_CMD`. -/
theorem hfclk_config_regs (c : Chip) (b : Board) (fuel sel div : Nat) (m : Machine) (f : Nat)
    (m' : Machine) (h : efm32_hfclk_config c b fuel sel div m = .ok f m') :
    ∀ r, r ≠ .CMU_OSCENCMD → r ≠ .CMU_CTRL → r ≠ .CMU_HFCORECLKDIV → r ≠ .MSC_READCTRL →
      r ≠ .CMU_CMD → m'.regs r = m.regs r := by
  intro r h1 h2 h3 h4 h5
  unfold efm32_hfclk_config at h
  obtain ⟨fr, m1, hsw, hk⟩ := Result.bind_eq_ok _ _ _ _ h
  cases fr with
  | none => simp at hk
  | some f' =>
    simp only at hk
    obtain ⟨_, m4, hs, hk2⟩ := Result.bind_eq_ok _ _ _ _ hk
    cases hk2
    rw [setwaitstates_regs c _ _ _ hs r h4,
      ← hfclk_config_switch_regs c b fuel sel m _ m1 hsw r h1 h2 h3]
    simp [putreg32, maxwaitstates_eq, getreg32, h4, h5]

/-- When the source selection of `efm32_lfaclk_config` returns, the selection
it hands on is DISABLED under ULFRCO and the selector otherwise, and it has
changed no register but `CMU_OSCENCMD`, `CMU_HFCORECLKEN0`, `CMU_CTRL` and
`CMU_HFCORECLKDIV`. -/
theorem lfaclk_config_switch_frame (c : Chip) (b : Board) (fuel sel : Nat) (u : Bool)
    (hf : Nat) (m : Machine) (sl : Nat × Option Nat) (m1 : Machine)
    (h : efm32_lfaclk_config_switch c b fuel sel u hf m = .ok sl m1) :
    sl.1 = (if u then c._CMU_LFCLKSEL_LFA_DISABLED else sel)
      ∧ ∀ r, r ≠ .CMU_OSCENCMD → r ≠ .CMU_HFCORECLKEN0 → r ≠ .CMU_CTRL →
          r ≠ .CMU_HFCORECLKDIV → m1.regs r = m.regs r := by
  unfold efm32_lfaclk_config_switch at h
  split_ifs at h with hu
  · cases h
    exact ⟨by simp [hu], fun _ _ _ _ _ => rfl⟩
  · obtain ⟨_, m2, he, hk⟩ := Result.bind_eq_ok _ _ _ _ h
    cases hk
    exact ⟨by simp [hu], fun r h1 _ _ _ => enable_regs _ _ _ _ _ he r h1⟩
  · obtain ⟨_, m2, he, hk⟩ := Result.bind_eq_ok _ _ _ _ h
    cases hk
    exact ⟨by simp [hu], fun r h1 _ _ _ => enable_regs _ _ _ _ _ he r h1⟩
  · obtain ⟨_, m2, he, hk⟩ := Result.bind_eq_ok _ _ _ _ h
    cases hk
    refine ⟨by simp [hu], fun r h1 h2 h3 h4 => ?_⟩
    rw [enable_regs _ _ _ _ _ he r h1, (enable_hfle_frame c hf _).2 r h3 h4]
    exact (enable_leclocking_follows c m).2.2.1 r h2
  · cases h
    exact ⟨by simp [hu], fun _ _ _ _ _ => rfl⟩

/-- When `efm32_lfaclk_config` returns, it has changed no register but
`CMU_OSCENCMD`, `CMU_HFCORECLKEN0`, `CMU_CTRL`, `CMU_HFCORECLKDIV` and
`CMU_LFCLKSEL`. -/
theorem lfaclk_config_regs (c : Chip) (b : Board) (fuel sel : Nat) (u : Bool) (hf : Nat)
    (m : Machine) (v : Option Nat) (m' : Machine)
    (h : efm32_lfaclk_config c b fuel sel u hf m = .ok v m') :
    ∀ r, r ≠ .CMU_OSCENCMD → r ≠ .CMU_HFCORECLKEN0 → r ≠ .CMU_CTRL →
      r ≠ .CMU_HFCORECLKDIV → r ≠ .CMU_LFCLKSEL → m'.regs r = m.regs r := by
  intro r h1 h2 h3 h4 h5
  have h' := h
  unfold efm32_lfaclk_config at h'
  obtain ⟨sl, m1, hsw, -⟩ := Result.bind_eq_ok _ _ _ _ h'
  rw [lfaclk_config_eq c b fuel sel u hf m sl m1 hsw] at h
  cases h
  rw [(lfclksel_update_follows _ m1).2 r h5]
  exact (lfaclk_config_switch_frame c b fuel sel u hf m sl m1 hsw).2 r h1 h2 h3 h4

/-- When the source selection of `efm32_lfbclk_config` returns, the selection
it hands on is DISABLED under ULFRCO and the selector otherwise, and it has
changed no register but `CMU_OSCENCMD`, `CMU_HFCORECLKEN0`, `CMU_CTRL` and
`CMU_HFCORECLKDIV`. -/
theorem lfbclk_config_switch_frame (c : Chip) (b : Board) (fuel sel : Nat) (u : Bool)
    (hf : Nat) (m : Machine) (sl : Nat × Option Nat) (m1 : Machine)
    (h : efm32_lfbclk_config_switch c b fuel sel u hf m = .ok sl m1) :
    sl.1 = (if u then c._CMU_LFCLKSEL_LFB_DISABLED else sel)
      ∧ ∀ r, r ≠ .CMU_OSCENCMD → r ≠ .CMU_HFCORECLKEN0 → r ≠ .CMU_CTRL →
          r ≠ .CMU_HFCORECLKDIV → m1.regs r = m.regs r := by
  unfold efm32_lfbclk_config_switch at h
  split_ifs at h with hu
  · cases h
    exact ⟨by simp [hu], fun _ _ _ _ _ => rfl⟩
  · obtain ⟨_, m2, he, hk⟩ := Result.bind_eq_ok _ _ _ _ h
    cases hk
    exact ⟨by simp [hu], fun r h1 _ _ _ => enable_regs _ _ _ _ _ he r h1⟩
  · obtain ⟨_, m2, he, hk⟩ := Result.bind_eq_ok _ _ _ _ h
    cases hk
    exact ⟨by simp [hu], fun r h1 _ _ _ => enable_regs _ _ _ _ _ he r h1⟩
  · obtain ⟨_, m2, he, hk⟩ := Result.bind_eq_ok _ _ _ _ h
    cases hk
    refine ⟨by simp [hu], fun r h1 h2 h3 h4 => ?_⟩
    rw [enable_regs _ _ _ _ _ he r h1, (enable_hfle_frame c hf _).2 r h3 h4]
    exact (enable_leclocking_follows c m).2.2.1 r h2
  · cases h
    exact ⟨by simp [hu], fun _ _ _ _ _ => rfl⟩

/-- When `efm32_lfbclk_config` returns, it has changed no register but
`CMU_OSCENCMD`, `CMU_HFCORECLKEN0`, `CMU_CTRL`, `CMU_HFCORECLKDIV` and
`CMU_LFCLKSEL`. -/
theorem lfbclk_config_regs (c : Chip) (b : Board) (fuel sel : Nat) (u : Bool) (hf : Nat)
    (m : Machine) (v : Option Nat) (m' : Machine)
    (h : efm32_lfbclk_config c b fuel sel u hf m = .ok v m') :
    ∀ r, r ≠ .CMU_OSCENCMD → r ≠ .CMU_HFCORECLKEN0 → r ≠ .CMU_CTRL →
      r ≠ .CMU_HFCORECLKDIV → r ≠ .CMU_LFCLKSEL → m'.regs r = m.regs r := by
  intro r h1 h2 h3 h4 h5
  have h' := h
  unfold efm32_lfbclk_config at h'
  obtain ⟨sl, m1, hsw, -⟩ := Result.bind_eq_ok _ _ _ _ h'
  rw [lfbclk_config_eq c b fuel sel u hf m sl m1 hsw] at h
  cases h
  rw [(lfclksel_update_follows _ m1).2 r h5]
  exact (lfbclk_config_switch_frame c b fuel sel u hf m sl m1 hsw).2 r h1 h2 h3 h4

/-- What `efm32_gpioclock` does, as one equation. -/
theorem gpioclock_eq (c : Chip) (m : Machine) :
    efm32_gpioclock c m
      = { regs := fun r =>
            if r = .CMU_HFPERCLKEN0 then
              m.regs .CMU_HFPERCLKEN0 ||| ( Chip.CMU_HFPERCLKEN0_GPIO c)
            else m.regs r,
          status := m.status,
          trace := m.trace ++ [.read .CMU_HFPERCLKEN0 (m.regs .CMU_HFPERCLKEN0),
            .write .CMU_HFPERCLKEN0
              (m.regs .CMU_HFPERCLKEN0 ||| ( Chip.CMU_HFPERCLKEN0_GPIO c))] } := by
  simp [efm32_gpioclock, getreg32, putreg32]

/-- When `efm32_clockconfig` returns, its final state is that of
`efm32_gpioclock` run on a state whose `CMU_HFPERCLKEN0` is the initial one. -/
theorem clockconfig_ok_gpio (c : Chip) (b : Board) (fuel : Nat) (m m' : Machine)
    (h : efm32_clockconfig c b fuel m = .ok () m') :
    ∃ m3, m' = efm32_gpioclock c m3 ∧ m3.regs .CMU_HFPERCLKEN0 = m.regs .CMU_HFPERCLKEN0 := by
  unfold efm32_clockconfig at h
  obtain ⟨hfclk, m1, h1, k1⟩ := Result.bind_eq_ok _ _ _ _ h
  obtain ⟨lfa, m2, h2, k2⟩ := Result.bind_eq_ok _ _ _ _ k1
  obtain ⟨lfb, m3, h3, k3⟩ := Result.bind_eq_ok _ _ _ _ k2
  cases k3
  refine ⟨m3, rfl, ?_⟩
  rw [lfbclk_config_regs c b fuel _ _ _ m2 lfb m3 h3 _ (by decide) (by decide) (by decide)
      (by decide) (by decide),
    lfaclk_config_regs c b fuel _ _ _ m1 lfa m2 h2 _ (by decide) (by decide) (by decide)
      (by decide) (by decide),
    hfclk_config_regs c b fuel _ _ m hfclk m1 h1 _ (by decide) (by decide) (by decide)
      (by decide) (by decide)]

/-- C11: whenever `efm32_clockconfig` runs to completion, its last two
accesses are the read of `CMU_HFPERCLKEN0`, which still holds its initial
value, and the write of that value with the GPIO bit ORed in (every other bit
as it was), and that is the content of the register at return.
`efm32_gpioclock` itself is a total function of the machine state alone: on
every state it makes exactly these two accesses and changes nothing else. -/
theorem clockconfig_ends_with_gpio (c : Chip) (b : Board) (fuel : Nat) (m : Machine)
    (h : (efm32_clockconfig c b fuel m).isOk = true) :
    (∃ pre, (efm32_clockconfig c b fuel m).machine.trace
        = pre ++ [.read .CMU_HFPERCLKEN0 (m.regs .CMU_HFPERCLKEN0),
            .write .CMU_HFPERCLKEN0
              (m.regs .CMU_HFPERCLKEN0 ||| ( Chip.CMU_HFPERCLKEN0_GPIO c))])
    ∧ (efm32_clockconfig c b fuel m).machine.regs .CMU_HFPERCLKEN0
        = m.regs .CMU_HFPERCLKEN0 ||| ( Chip.CMU_HFPERCLKEN0_GPIO c)
    ∧ ∀ m0 : Machine,
        (efm32_gpioclock c m0).trace
          = m0.trace ++ [.read .CMU_HFPERCLKEN0 (m0.regs .CMU_HFPERCLKEN0),
              .write .CMU_HFPERCLKEN0
                (m0.regs .CMU_HFPERCLKEN0 ||| ( Chip.CMU_HFPERCLKEN0_GPIO c))]
        ∧ (efm32_gpioclock c m0).regs .CMU_HFPERCLKEN0
            = m0.regs .CMU_HFPERCLKEN0 ||| ( Chip.CMU_HFPERCLKEN0_GPIO c)
        ∧ (∀ r, r ≠ .CMU_HFPERCLKEN0 → (efm32_gpioclock c m0).regs r = m0.regs r)
        ∧ (efm32_gpioclock c m0).status = m0.status := by
  obtain ⟨v, m', hm'⟩ := (Result.isOk_iff _).1 h
  obtain ⟨m3, rfl, h3⟩ := clockconfig_ok_gpio c b fuel m m' hm'
  refine ⟨⟨m3.trace, ?_⟩, ?_, fun m0 => ?_⟩
  · rw [hm', ← h3, gpioclock_eq]
    rfl
  · rw [hm', ← h3, gpioclock_eq]
    simp [Result.machine]
  · rw [gpioclock_eq]
    refine ⟨rfl, by simp, fun r hr => by simp [hr], rfl⟩

/-- Witness for `clockconfig_ends_with_gpio`: Giant Gecko with the 48 MHz
board, every status bit reading set, `CMU_HFPERCLKEN0` initially 0. -/
theorem clockconfig_ends_with_gpio_witness :
    (efm32_clockconfig efm32gg board48 4 (machineWith 3 fun _ => 0xFFFFFFFF)).isOk = true
    ∧ (efm32_clockconfig efm32gg board48 4 (machineWith 3 fun _ => 0xFFFFFFFF)).machine.regs
          .CMU_HFPERCLKEN0
        = (machineWith 3 fun _ => 0xFFFFFFFF).regs .CMU_HFPERCLKEN0
          ||| ( Chip.CMU_HFPERCLKEN0_GPIO efm32gg) :=
  ⟨by decide,
    (clockconfig_ends_with_gpio efm32gg board48 4 (machineWith 3 fun _ => 0xFFFFFFFF)
      (by decide)).2.1⟩

/-- With a selector that matches none of the three `case` labels that enable
an oscillator, `efm32_lfbclk_config` without ULFRCO takes the `default` block:
its only accesses are the read and the write of `CMU_LFCLKSEL`, and it returns
0. -/
theorem lfbclk_config_default (c : Chip) (b : Board) (fuel sel hf : Nat) (m : Machine)
    (h1 : sel ≠ c.CMU_LFCLKSEL_LFB_LFRCO) (h2 : sel ≠ c._CMU_LFCLKSEL_LFB_LFXO)
    (h3 : sel ≠ c._CMU_LFCLKSEL_LFB_HFCORECLKLEDIV2) :
    efm32_lfbclk_config c b fuel sel false hf m
      = .ok (some 0) (putreg32 (lfbRegval c (m.regs .CMU_LFCLKSEL) sel false) .CMU_LFCLKSEL
          (getreg32 .CMU_LFCLKSEL m).2) := by
  have hsw : efm32_lfbclk_config_switch c b fuel sel false hf m = .ok (sel, some 0) m := by
    simp [efm32_lfbclk_config_switch, h1, h2, h3]
  exact lfbclk_config_eq c b fuel sel false hf m _ m hsw

/-- With the selector equal to its LFRCO `case` label, `efm32_lfaclk_config`
without ULFRCO writes the LFRCO enable command, reads `CMU_STATUS` up to the
first read that shows LFRCO ready, and only then reads and writes
`CMU_LFCLKSEL`; the local it returns was never assigned. -/
theorem lfaclk_config_lfrco_label (c : Chip) (b : Board) (fuel hf : Nat) (m : Machine)
    (hr : ∃ k, k < fuel ∧ m.status k &&& c.CMU_STATUS_LFRCORDY ≠ 0) :
    ∃ k m', efm32_lfaclk_config c b fuel c.CMU_LFCLKSEL_LFA_LFRCO false hf m = .ok none m'
      ∧ m.status k &&& c.CMU_STATUS_LFRCORDY ≠ 0
      ∧ m'.trace = m.trace
          ++ Event.write .CMU_OSCENCMD c.CMU_OSCENCMD_LFRCOEN :: pollReads m.status k
          ++ [.read .CMU_LFCLKSEL (m.regs .CMU_LFCLKSEL),
              .write .CMU_LFCLKSEL
                (lfaRegval c (m.regs .CMU_LFCLKSEL) c.CMU_LFCLKSEL_LFA_LFRCO false)] := by
  obtain ⟨k, m1, heq, -, -, hset, ht, -, hg⟩ := enable_ok c.CMU_OSCENCMD_LFRCOEN _ fuel m hr
  have hsw : efm32_lfaclk_config_switch c b fuel c.CMU_LFCLKSEL_LFA_LFRCO false hf m
      = .ok (c.CMU_LFCLKSEL_LFA_LFRCO, none) m1 := by
    simp [efm32_lfaclk_config_switch, efm32_enable_lfrco, heq, Result.bind]
  have hreg : m1.regs .CMU_LFCLKSEL = m.regs .CMU_LFCLKSEL := by simp [hg, putreg32]
  refine ⟨k, _, lfaclk_config_eq c b fuel _ false hf m _ m1 hsw, hset, ?_⟩
  simp [putreg32, getreg32, ht, hreg]

/-- C12 (defect, evaluated on Giant Gecko): the unshifted LFRCO selection is 1
(its shifted forms are the `case` labels `CMU_LFCLKSEL_LFA_LFRCO` = `1 << 0`
and `CMU_LFCLKSEL_LFB_LFRCO` = `1 << 2`).  With that selector and no ULFRCO,
`efm32_lfaclk_config` writes the LFRCO enable command and reads the status
before it records the selection, whereas `efm32_lfbclk_config` only reads and
writes `CMU_LFCLKSEL`, recording LFRCO in the LFB field without enabling the
LFRCO, and returns 0. -/
theorem lfbclk_config_lfrco_not_enabled :
    shl32 1 efm32gg._CMU_LFCLKSEL_LFA_SHIFT = efm32gg.CMU_LFCLKSEL_LFA_LFRCO
      ∧ shl32 1 efm32gg._CMU_LFCLKSEL_LFB_SHIFT = efm32gg.CMU_LFCLKSEL_LFB_LFRCO
      ∧ (efm32_lfaclk_config efm32gg board48 4 1 false 48000000
            (machineWith 0 fun _ => 0x80)).machine.trace
          = [.write .CMU_OSCENCMD 0x40, .read .CMU_STATUS 0x80, .read .CMU_LFCLKSEL 0,
              .write .CMU_LFCLKSEL 1]
      ∧ (efm32_lfbclk_config efm32gg board48 4 1 false 48000000
            (machineWith 0 fun _ => 0x80)).machine.trace
          = [.read .CMU_LFCLKSEL 0, .write .CMU_LFCLKSEL 4]
      ∧ (efm32_lfbclk_config efm32gg board48 4 1 false 48000000
            (machineWith 0 fun _ => 0x80)).isOk = true := by
  decide

/-- On a variant with the HFLE bit, when the board's LFXO frequency is not
above `CMU_MAX_FREQ_HFLE`, the HFLE block of the HFXO case writes `CMU_CTRL`
with the buffer-current field BOOSTUPTO32MHZ and HFLE cleared, whatever the
HFXO frequency is. -/
theorem hfclk_config_hfle_low (c : Chip) (hfle : Nat) (b : Board) (m : Machine)
    (h : c.CMU_CTRL_HFLE = some hfle) (hl : ¬ b.BOARD_LFXO_FREQUENCY > c.CMU_MAX_FREQ_HFLE) :
    efm32_hfclk_config_hfle c b m
      = putreg32 ((m.regs .CMU_CTRL &&& not32 (c._CMU_CTRL_HFXOBUFCUR_MASK ||| hfle))
            ||| c.CMU_CTRL_HFXOBUFCUR_BOOSTUPTO32MHZ) .CMU_CTRL (getreg32 .CMU_CTRL m).2 := by
  simp [efm32_hfclk_config_hfle, h, hl, getreg32]

/-- C14 (defect, evaluated on Giant Gecko): the board's HFXO runs at 48 MHz,
above `CMU_MAX_FREQ_HFLE` = 32 MHz, and its LFXO at 32768 Hz.  With HFXO
selected and `CMU_CTRL` = `0x40000060` (HFLE set, buffer current
BOOSTABOVE32MHZ), `efm32_hfclk_config` writes `0x20` to `CMU_CTRL` before the
HFXO enable command: buffer current BOOSTUPTO32MHZ and HFLE cleared. -/
theorem hfclk_config_hfxo_boost_follows_lfxo :
    efm32gg.CMU_CTRL_HFLE = some 0x40000000
      ∧ board48.BOARD_HFXO_FREQUENCY > efm32gg.CMU_MAX_FREQ_HFLE
      ∧ ¬ board48.BOARD_LFXO_FREQUENCY > efm32gg.CMU_MAX_FREQ_HFLE
      ∧ (efm32_hfclk_config efm32gg board48 4 efm32gg._CMU_CMD_HFCLKSEL_HFXO 0
            (machineOf 0x40000060)).machine.trace
          = [.read .CMU_CTRL 0x40000060, .write .CMU_CTRL 0x20, .write .CMU_OSCENCMD 0x4,
              .read .CMU_STATUS 0xFFFFFFFF, .read .MSC_READCTRL 0x40000060,
              .write .MSC_READCTRL 0x40000064, .write .CMU_CMD 2,
              .read .MSC_READCTRL 0x40000064, .write .MSC_READCTRL 0x40000064]
      ∧ 0x20 &&& efm32gg._CMU_CTRL_HFXOBUFCUR_MASK = efm32gg.CMU_CTRL_HFXOBUFCUR_BOOSTUPTO32MHZ
      ∧ efm32gg.CMU_CTRL_HFXOBUFCUR_BOOSTABOVE32MHZ = 0x60
      ∧ 0x20 &&& 0x40000000 = 0 := by
  decide

theorem shl32_zero (s : Nat) : shl32 0 s = 0 := by
  simp [shl32]

/-- Bits outside the two masks survive the clearing and the two ORs. -/
theorem field_pair_frame (x d e M E : Nat) (hx : x < 2 ^ 32) (hd : d &&& M = d)
    (he : e &&& E = e) (i : Nat) (hM : M.testBit i = false) (hE : E.testBit i = false) :
    (((x &&& not32 (M ||| E)) ||| d) ||| e).testBit i = x.testBit i := by
  have h1 := congrArg (fun n => n.testBit i) hd
  have h2 := congrArg (fun n => n.testBit i) he
  simp only [Nat.testBit_and] at h1 h2
  simp only [not32, Nat.testBit_and, Nat.testBit_or, Nat.testBit_xor, Nat.testBit_mod_two_pow,
    Nat.testBit_two_pow_sub_one]
  by_cases h32 : i < 32
  · cases hxx : x.testBit i <;> cases hdd : d.testBit i <;> cases hee : e.testBit i <;>
      simp_all
  · have : x.testBit i = false := by
      apply Nat.testBit_lt_two_pow
      exact lt_of_lt_of_le hx (Nat.pow_le_pow_right (by norm_num) (by omega))
    cases hdd : d.testBit i <;> cases hee : e.testBit i <;> simp_all

/-- A field that overlaps neither mask is the same in two values that agree
outside the masks. -/
theorem and_eq_of_frame (v x F M E : Nat) (hdis : (M ||| E) &&& F = 0)
    (hfr : ∀ i, M.testBit i = false → E.testBit i = false → v.testBit i = x.testBit i) :
    v &&& F = x &&& F := by
  apply Nat.eq_of_testBit_eq
  intro i
  have h1 := congrArg (fun n => n.testBit i) hdis
  simp only [Nat.testBit_and, Nat.testBit_or, Nat.zero_testBit] at h1
  simp only [Nat.testBit_and]
  cases hF : F.testBit i
  · simp
  · have hM : M.testBit i = false := by
      cases hm : M.testBit i <;> simp_all
    have hE : E.testBit i = false := by
      cases hm : E.testBit i <;> simp_all
    simp [hfr i hM hE]

theorem and_or_right_zero (X a b : Nat) (h : X &&& (a ||| b) = 0) :
    X &&& a = 0 ∧ X &&& b = 0 := by
  constructor <;>
  · apply Nat.eq_of_testBit_eq
    intro i
    have h1 := congrArg (fun n => n.testBit i) h
    simp only [Nat.testBit_and, Nat.testBit_or, Nat.zero_testBit] at h1 ⊢
    cases ha : a.testBit i <;> cases hb : b.testBit i <;> cases hX : X.testBit i <;> simp_all

theorem lfaRegval_eq (c : Chip) (old sel : Nat) (u : Bool) :
    lfaRegval c old sel u
      = ((old &&& not32 (c._CMU_LFCLKSEL_LFA_MASK ||| c._CMU_LFCLKSEL_LFAE_MASK))
          ||| shl32 sel c._CMU_LFCLKSEL_LFA_SHIFT) ||| lfaExtension c u := by
  unfold lfaRegval lfaExtension
  cases c.CMU_LFCLKSEL_LFAE_ULFRCO <;> cases u <;> simp [shl32_zero]

theorem lfaExtension_fits (c : Chip) (h : c.LfaLayoutWF) (u : Bool) :
    lfaExtension c u &&& c._CMU_LFCLKSEL_LFAE_MASK = lfaExtension c u := by
  unfold lfaExtension
  split_ifs
  · exact h.2.1
  · simp

/-- Once the ready bits of the oscillators it may wait for show within the
fuel, the source selection of `efm32_lfaclk_config` returns. -/
theorem lfaclk_config_switch_returns (c : Chip) (b : Board) (fuel sel : Nat) (u : Bool)
    (hf : Nat) (m : Machine)
    (h1 : ∃ k, k < fuel ∧ m.status k &&& c.CMU_STATUS_LFRCORDY ≠ 0)
    (h2 : ∃ k, k < fuel ∧ m.status k &&& c.CMU_STATUS_LFXORDY ≠ 0)
    (h3 : ∃ k, k < fuel ∧ m.status k &&& c.CMU_STATUS_HFXORDY ≠ 0) :
    ∃ sl m1, efm32_lfaclk_config_switch c b fuel sel u hf m = .ok sl m1 ∧ Follows m m1 := by
  unfold efm32_lfaclk_config_switch
  split_ifs
  · exact ⟨_, _, rfl, Follows.refl m⟩
  · obtain ⟨m1, heq, f1, -⟩ := enable_follows c.CMU_OSCENCMD_LFRCOEN _ fuel m h1
    unfold efm32_enable_lfrco
    rw [heq]
    exact ⟨_, _, rfl, f1⟩
  · obtain ⟨m1, heq, f1, -⟩ := enable_follows c.CMU_OSCENCMD_LFRCOEN _ fuel m h2
    unfold efm32_enable_lfxo
    rw [heq]
    exact ⟨_, _, rfl, f1⟩
  · obtain ⟨m3, heq, f3, -⟩ := lediv2_body c fuel hf m h3
    simp only [heq]
    exact ⟨_, _, rfl, f3⟩
  · exact ⟨_, _, rfl, Follows.refl m⟩

/-- What `efm32_lfaclk_config` records in `CMU_LFCLKSEL`: the LFA field is the
effective selection, the LFAE field is the extension bit, and every bit
outside these two fields is as it was. -/
theorem lfaclk_config_records (c : Chip) (hw : c.LfaLayoutWF) (b : Board) (fuel sel : Nat)
    (u : Bool) (hf : Nat) (m : Machine) (hm : m.regs .CMU_LFCLKSEL < 2 ^ 32)
    (hfit : shl32 sel c._CMU_LFCLKSEL_LFA_SHIFT &&& c._CMU_LFCLKSEL_LFA_MASK
      = shl32 sel c._CMU_LFCLKSEL_LFA_SHIFT)
    (h1 : ∃ k, k < fuel ∧ m.status k &&& c.CMU_STATUS_LFRCORDY ≠ 0)
    (h2 : ∃ k, k < fuel ∧ m.status k &&& c.CMU_STATUS_LFXORDY ≠ 0)
    (h3 : ∃ k, k < fuel ∧ m.status k &&& c.CMU_STATUS_HFXORDY ≠ 0) :
    ∃ ret pre v m', efm32_lfaclk_config c b fuel sel u hf m = .ok ret m'
      ∧ m'.trace = m.trace ++ pre
          ++ [.read .CMU_LFCLKSEL (m.regs .CMU_LFCLKSEL), .write .CMU_LFCLKSEL v]
      ∧ m'.regs .CMU_LFCLKSEL = v
      ∧ v &&& c._CMU_LFCLKSEL_LFA_MASK
          = shl32 (if u then c._CMU_LFCLKSEL_LFA_DISABLED else sel) c._CMU_LFCLKSEL_LFA_SHIFT
      ∧ v &&& c._CMU_LFCLKSEL_LFAE_MASK = lfaExtension c u
      ∧ ∀ i, c._CMU_LFCLKSEL_LFA_MASK.testBit i = false →
          c._CMU_LFCLKSEL_LFAE_MASK.testBit i = false →
          v.testBit i = (m.regs .CMU_LFCLKSEL).testBit i := by
  obtain ⟨sl, m1, hsw, f1⟩ := lfaclk_config_switch_returns c b fuel sel u hf m h1 h2 h3
  obtain ⟨hsel, hregs⟩ := lfaclk_config_switch_frame c b fuel sel u hf m sl m1 hsw
  have hold : m1.regs .CMU_LFCLKSEL = m.regs .CMU_LFCLKSEL :=
    hregs _ (by decide) (by decide) (by decide) (by decide)
  have hd : shl32 (if u then c._CMU_LFCLKSEL_LFA_DISABLED else sel) c._CMU_LFCLKSEL_LFA_SHIFT
      &&& c._CMU_LFCLKSEL_LFA_MASK
      = shl32 (if u then c._CMU_LFCLKSEL_LFA_DISABLED else sel) c._CMU_LFCLKSEL_LFA_SHIFT := by
    cases u
    · simpa using hfit
    · simpa using hw.1
  have he := lfaExtension_fits c hw u
  have fp := field_pair_insert (m.regs .CMU_LFCLKSEL) _ _ _ _ hd he hw.2.2
  have e := lfaclk_config_eq c b fuel sel u hf m sl m1 hsw
  rw [hold, hsel] at e
  obtain ⟨-, -, -, ⟨pre, hp, -⟩⟩ := f1
  refine ⟨sl.2, pre,
    lfaRegval c (m.regs .CMU_LFCLKSEL) (if u then c._CMU_LFCLKSEL_LFA_DISABLED else sel) u,
    _, e, ?_, ?_, ?_, ?_, ?_⟩
  · simp [putreg32, getreg32, hp, hold]
  · simp [putreg32]
  · rw [lfaRegval_eq]; exact fp.1
  · rw [lfaRegval_eq]; exact fp.2.1
  · intro i hM hE
    rw [lfaRegval_eq]
    exact field_pair_frame _ _ _ _ _ hm hd he i hM hE

theorem lfbRegval_eq (c : Chip) (old sel : Nat) (u : Bool) :
    lfbRegval c old sel u
      = ((old &&& not32 (c._CMU_LFCLKSEL_LFB_MASK ||| c._CMU_LFCLKSEL_LFBE_MASK))
          ||| shl32 sel c._CMU_LFCLKSEL_LFB_SHIFT) ||| lfbExtension c u := by
  unfold lfbRegval lfbExtension
  cases c.CMU_LFCLKSEL_LFBE_ULFRCO <;> cases u <;> simp [shl32_zero]

theorem lfbExtension_fits (c : Chip) (h : c.LfbLayoutWF) (u : Bool) :
    lfbExtension c u &&& c._CMU_LFCLKSEL_LFBE_MASK = lfbExtension c u := by
  unfold lfbExtension
  split_ifs
  · exact h.2.1
  · simp

/-- Once the ready bits of the oscillators it may wait for show within the
fuel, the source selection of `efm32_lfbclk_config` returns. -/
theorem lfbclk_config_switch_returns (c : Chip) (b : Board) (fuel sel : Nat) (u : Bool)
    (hf : Nat) (m : Machine)
    (h1 : ∃ k, k < fuel ∧ m.status k &&& c.CMU_STATUS_LFRCORDY ≠ 0)
    (h2 : ∃ k, k < fuel ∧ m.status k &&& c.CMU_STATUS_LFXORDY ≠ 0)
    (h3 : ∃ k, k < fuel ∧ m.status k &&& c.CMU_STATUS_HFXORDY ≠ 0) :
    ∃ sl m1, efm32_lfbclk_config_switch c b fuel sel u hf m = .ok sl m1 ∧ Follows m m1 := by
  unfold efm32_lfbclk_config_switch
  split_ifs
  · exact ⟨_, _, rfl, Follows.refl m⟩
  · obtain ⟨m1, heq, f1, -⟩ := enable_follows c.CMU_OSCENCMD_LFRCOEN _ fuel m h1
    unfold efm32_enable_lfrco
    rw [heq]
    exact ⟨_, _, rfl, f1⟩
  · obtain ⟨m1, heq, f1, -⟩ := enable_follows c.CMU_OSCENCMD_LFRCOEN _ fuel m h2
    unfold efm32_enable_lfxo
    rw [heq]
    exact ⟨_, _, rfl, f1⟩
  · obtain ⟨m3, heq, f3, -⟩ := lediv2_body c fuel hf m h3
    simp only [heq]
    exact ⟨_, _, rfl, f3⟩
  · exact ⟨_, _, rfl, Follows.refl m⟩

/-- What `efm32_lfbclk_config` records in `CMU_LFCLKSEL`: the LFB field is the
effective selection, the LFBE field is the extension bit, and every bit
outside these two fields is as it was. -/
theorem lfbclk_config_records (c : Chip) (hw : c.LfbLayoutWF) (b : Board) (fuel sel : Nat)
    (u : Bool) (hf : Nat) (m : Machine) (hm : m.regs .CMU_LFCLKSEL < 2 ^ 32)
    (hfit : shl32 sel c._CMU_LFCLKSEL_LFB_SHIFT &&& c._CMU_LFCLKSEL_LFB_MASK
      = shl32 sel c._CMU_LFCLKSEL_LFB_SHIFT)
    (h1 : ∃ k, k < fuel ∧ m.status k &&& c.CMU_STATUS_LFRCORDY ≠ 0)
    (h2 : ∃ k, k < fuel ∧ m.status k &&& c.CMU_STATUS_LFXORDY ≠ 0)
    (h3 : ∃ k, k < fuel ∧ m.status k &&& c.CMU_STATUS_HFXORDY ≠ 0) :
    ∃ ret pre v m', efm32_lfbclk_config c b fuel sel u hf m = .ok ret m'
      ∧ m'.trace = m.trace ++ pre
          ++ [.read .CMU_LFCLKSEL (m.regs .CMU_LFCLKSEL), .write .CMU_LFCLKSEL v]
      ∧ m'.regs .CMU_LFCLKSEL = v
      ∧ v &&& c._CMU_LFCLKSEL_LFB_MASK
          = shl32 (if u then c._CMU_LFCLKSEL_LFB_DISABLED else sel) c._CMU_LFCLKSEL_LFB_SHIFT
      ∧ v &&& c._CMU_LFCLKSEL_LFBE_MASK = lfbExtension c u
      ∧ ∀ i, c._CMU_LFCLKSEL_LFB_MASK.testBit i = false →
          c._CMU_LFCLKSEL_LFBE_MASK.testBit i = false →
          v.testBit i = (m.regs .CMU_LFCLKSEL).testBit i := by
  obtain ⟨sl, m1, hsw, f1⟩ := lfbclk_config_switch_returns c b fuel sel u hf m h1 h2 h3
  obtain ⟨hsel, hregs⟩ := lfbclk_config_switch_frame c b fuel sel u hf m sl m1 hsw
  have hold : m1.regs .CMU_LFCLKSEL = m.regs .CMU_LFCLKSEL :=
    hregs _ (by decide) (by decide) (by decide) (by decide)
  have hd : shl32 (if u then c._CMU_LFCLKSEL_LFB_DISABLED else sel) c._CMU_LFCLKSEL_LFB_SHIFT
      &&& c._CMU_LFCLKSEL_LFB_MASK
      = shl32 (if u then c._CMU_LFCLKSEL_LFB_DISABLED else sel) c._CMU_LFCLKSEL_LFB_SHIFT := by
    cases u
    · simpa using hfit
    · simpa using hw.1
  have he := lfbExtension_fits c hw u
  have fp := field_pair_insert (m.regs .CMU_LFCLKSEL) _ _ _ _ hd he hw.2.2
  have e := lfbclk_config_eq c b fuel sel u hf m sl m1 hsw
  rw [hold, hsel] at e
  obtain ⟨-, -, -, ⟨pre, hp, -⟩⟩ := f1
  refine ⟨sl.2, pre,
    lfbRegval c (m.regs .CMU_LFCLKSEL) (if u then c._CMU_LFCLKSEL_LFB_DISABLED else sel) u,
    _, e, ?_, ?_, ?_, ?_, ?_⟩
  · simp [putreg32, getreg32, hp, hold]
  · simp [putreg32]
  · rw [lfbRegval_eq]; exact fp.1
  · rw [lfbRegval_eq]; exact fp.2.1
  · intro i hM hE
    rw [lfbRegval_eq]
    exact field_pair_frame _ _ _ _ _ hm hd he i hM hE

/-- C13 (as stated, refuted on Giant Gecko): with the DISABLED selector and the
ULFRCO flag set, `efm32_lfaclk_config` run on `CMU_LFCLKSEL` = 0 leaves
`0x10000` in the register: bit 16, which lies outside the LFA field, has
changed. -/
theorem lfaclk_config_rewrites_lfae :
    (efm32_lfaclk_config efm32gg board48 4 efm32gg._CMU_LFCLKSEL_LFA_DISABLED true 48000000
        (machineOf 0)).machine.regs .CMU_LFCLKSEL = 0x10000
    ∧ ¬ ∀ i, efm32gg._CMU_LFCLKSEL_LFA_MASK.testBit i = false →
        ((efm32_lfaclk_config efm32gg board48 4 efm32gg._CMU_LFCLKSEL_LFA_DISABLED true 48000000
            (machineOf 0)).machine.regs .CMU_LFCLKSEL).testBit i
          = ((machineOf 0).regs .CMU_LFCLKSEL).testBit i := by
  refine ⟨by decide, fun h => ?_⟩
  have h16 := h 16 (by decide)
  revert h16
  decide

/-- C13 (amended): for every selector whose shifted encoding lies inside the
selection field (the four defined values do) and either value of the ULFRCO
flag, `efm32_lfaclk_config` returns once the ready bits it may wait for show,
and its last access writes `CMU_LFCLKSEL` with the LFA field equal to the
effective selection (DISABLED under ULFRCO, the selector otherwise), the LFAE
field equal to the ULFRCO extension bit (set only when the flag is set and the
variant defines the bit), the LFB and LFBE fields unchanged and every bit
outside the LFA and LFAE fields unchanged; symmetrically
`efm32_lfbclk_config` writes the LFB and LFBE fields and leaves the LFA and
LFAE fields and every bit outside LFB and LFBE unchanged. -/
theorem lfclk_config_records_domain (c : Chip) (ha : c.LfaLayoutWF) (hb : c.LfbLayoutWF)
    (hd : c.LfDomainsDisjoint) (b : Board) (fuel sel : Nat) (u : Bool) (hf : Nat) (m : Machine)
    (hm : m.regs .CMU_LFCLKSEL < 2 ^ 32)
    (hfa : shl32 sel c._CMU_LFCLKSEL_LFA_SHIFT &&& c._CMU_LFCLKSEL_LFA_MASK
      = shl32 sel c._CMU_LFCLKSEL_LFA_SHIFT)
    (hfb : shl32 sel c._CMU_LFCLKSEL_LFB_SHIFT &&& c._CMU_LFCLKSEL_LFB_MASK
      = shl32 sel c._CMU_LFCLKSEL_LFB_SHIFT)
    (h1 : ∃ k, k < fuel ∧ m.status k &&& c.CMU_STATUS_LFRCORDY ≠ 0)
    (h2 : ∃ k, k < fuel ∧ m.status k &&& c.CMU_STATUS_LFXORDY ≠ 0)
    (h3 : ∃ k, k < fuel ∧ m.status k &&& c.CMU_STATUS_HFXORDY ≠ 0) :
    (∃ ret pre v m', efm32_lfaclk_config c b fuel sel u hf m = .ok ret m'
      ∧ m'.trace = m.trace ++ pre
          ++ [.read .CMU_LFCLKSEL (m.regs .CMU_LFCLKSEL), .write .CMU_LFCLKSEL v]
      ∧ m'.regs .CMU_LFCLKSEL = v
      ∧ v &&& c._CMU_LFCLKSEL_LFA_MASK
          = shl32 (if u then c._CMU_LFCLKSEL_LFA_DISABLED else sel) c._CMU_LFCLKSEL_LFA_SHIFT
      ∧ v &&& c._CMU_LFCLKSEL_LFAE_MASK = lfaExtension c u
      ∧ v &&& c._CMU_LFCLKSEL_LFB_MASK = m.regs .CMU_LFCLKSEL &&& c._CMU_LFCLKSEL_LFB_MASK
      ∧ v &&& c._CMU_LFCLKSEL_LFBE_MASK = m.regs .CMU_LFCLKSEL &&& c._CMU_LFCLKSEL_LFBE_MASK
      ∧ ∀ i, c._CMU_LFCLKSEL_LFA_MASK.testBit i = false →
          c._CMU_LFCLKSEL_LFAE_MASK.testBit i = false →
          v.testBit i = (m.regs .CMU_LFCLKSEL).testBit i)
    ∧ (∃ ret pre v m', efm32_lfbclk_config c b fuel sel u hf m = .ok ret m'
      ∧ m'.trace = m.trace ++ pre
          ++ [.read .CMU_LFCLKSEL (m.regs .CMU_LFCLKSEL), .write .CMU_LFCLKSEL v]
      ∧ m'.regs .CMU_LFCLKSEL = v
      ∧ v &&& c._CMU_LFCLKSEL_LFB_MASK
          = shl32 (if u then c._CMU_LFCLKSEL_LFB_DISABLED else sel) c._CMU_LFCLKSEL_LFB_SHIFT
      ∧ v &&& c._CMU_LFCLKSEL_LFBE_MASK = lfbExtension c u
      ∧ v &&& c._CMU_LFCLKSEL_LFA_MASK = m.regs .CMU_LFCLKSEL &&& c._CMU_LFCLKSEL_LFA_MASK
      ∧ v &&& c._CMU_LFCLKSEL_LFAE_MASK = m.regs .CMU_LFCLKSEL &&& c._CMU_LFCLKSEL_LFAE_MASK
      ∧ ∀ i, c._CMU_LFCLKSEL_LFB_MASK.testBit i = false →
          c._CMU_LFCLKSEL_LFBE_MASK.testBit i = false →
          v.testBit i = (m.regs .CMU_LFCLKSEL).testBit i) := by
  have hd' : (c._CMU_LFCLKSEL_LFB_MASK ||| c._CMU_LFCLKSEL_LFBE_MASK)
      &&& (c._CMU_LFCLKSEL_LFA_MASK ||| c._CMU_LFCLKSEL_LFAE_MASK) = 0 := by
    rw [Nat.land_comm]; exact hd
  obtain ⟨dab, dabe⟩ := and_or_right_zero _ _ _ hd
  obtain ⟨dba, dbae⟩ := and_or_right_zero _ _ _ hd'
  constructor
  · obtain ⟨ret, pre, v, m', e, ht, hr, hM, hE, hfr⟩ :=
      lfaclk_config_records c ha b fuel sel u hf m hm hfa h1 h2 h3
    exact ⟨ret, pre, v, m', e, ht, hr, hM, hE, and_eq_of_frame _ _ _ _ _ dab hfr,
      and_eq_of_frame _ _ _ _ _ dabe hfr, hfr⟩
  · obtain ⟨ret, pre, v, m', e, ht, hr, hM, hE, hfr⟩ :=
      lfbclk_config_records c hb b fuel sel u hf m hm hfb h1 h2 h3
    exact ⟨ret, pre, v, m', e, ht, hr, hM, hE, and_eq_of_frame _ _ _ _ _ dba hfr,
      and_eq_of_frame _ _ _ _ _ dbae hfr, hfr⟩

/-- Witness for `lfclk_config_records_domain`: Giant Gecko, selector LFXO, no
ULFRCO, every bit of `CMU_LFCLKSEL` initially set, every status bit reading
set. -/
theorem lfclk_config_records_domain_witness :
    efm32gg.LfaLayoutWF ∧ efm32gg.LfbLayoutWF ∧ efm32gg.LfDomainsDisjoint
    ∧ ∃ ret pre v m', efm32_lfbclk_config efm32gg board48 4 2 false 48000000
          (machineOf 0xFFFFFFFF) = .ok ret m'
      ∧ m'.trace = (machineOf 0xFFFFFFFF).trace ++ pre
          ++ [.read .CMU_LFCLKSEL ((machineOf 0xFFFFFFFF).regs .CMU_LFCLKSEL),
              .write .CMU_LFCLKSEL v]
      ∧ m'.regs .CMU_LFCLKSEL = v
      ∧ v &&& efm32gg._CMU_LFCLKSEL_LFB_MASK
          = shl32 (if false then efm32gg._CMU_LFCLKSEL_LFB_DISABLED else 2)
              efm32gg._CMU_LFCLKSEL_LFB_SHIFT
      ∧ v &&& efm32gg._CMU_LFCLKSEL_LFBE_MASK = lfbExtension efm32gg false
      ∧ v &&& efm32gg._CMU_LFCLKSEL_LFA_MASK
          = (machineOf 0xFFFFFFFF).regs .CMU_LFCLKSEL &&& efm32gg._CMU_LFCLKSEL_LFA_MASK
      ∧ v &&& efm32gg._CMU_LFCLKSEL_LFAE_MASK
          = (machineOf 0xFFFFFFFF).regs .CMU_LFCLKSEL &&& efm32gg._CMU_LFCLKSEL_LFAE_MASK
      ∧ ∀ i, efm32gg._CMU_LFCLKSEL_LFB_MASK.testBit i = false →
          efm32gg._CMU_LFCLKSEL_LFBE_MASK.testBit i = false →
          v.testBit i = ((machineOf 0xFFFFFFFF).regs .CMU_LFCLKSEL).testBit i :=
  ⟨by decide, by decide, by decide,
    (lfclk_config_records_domain efm32gg (by decide) (by decide) (by decide) board48 4 2 false
      48000000 (machineOf 0xFFFFFFFF) (by decide) (by decide) (by decide)
      ⟨0, by decide, by decide⟩ ⟨0, by decide, by decide⟩ ⟨0, by decide, by decide⟩).2⟩

end Efm32
